import Mathlib

/-!
# Featherstone inverse dynamics (`DyFeatherstoneInverseDynamic.cpp`)

A shallow embedding of the passes and drivers of
`physx/source/lowleveldynamics/src/DyFeatherstoneInverseDynamic.cpp`.

Conventions of the embedding:

* `PxReal` is modelled by the exact rationals: rounding, infinities and NaN of
  IEEE single precision are not modelled.
* A raw buffer (`T*`) is a total function `Nat → T`; a store `p[i] = v` is
  `Function.update p i v`.  A nullable buffer is an `Option`.
* `PxU32` counters are natural numbers; where the source subtracts from an
  unsigned counter the wrap-around is written out (`u32Sub`).
* A `for` loop is one of the two loop combinators `forUp` / `forDown`; each pass
  is its loop body folded by the combinator, in source order.
-/

namespace Dy

/-! ## Scalars, loops -/

/-- The scalar type `PxReal`. -/
abbrev PxReal := ℚ

/-- The modulus of `PxU32` arithmetic. -/
def u32Modulus : Nat := 4294967296

/-- Unsigned 32-bit subtraction `a - b` of two values below `2^32`, with wrap-around. -/
def u32Sub (a b : Nat) : Nat := if b ≤ a then a - b else a + u32Modulus - b

/-- Auxiliary of `forUp`: run `body i`, `body (i+1)`, ... for `n` iterations. -/
def forUpAux {σ : Type} (body : Nat → σ → σ) : Nat → Nat → σ → σ
  | 0, _, s => s
  | n + 1, i, s => forUpAux body n (i + 1) (body i s)

/-- The loop `for (i = lo; i < hi; ++i) s = body i s`. -/
def forUp {σ : Type} (lo hi : Nat) (body : Nat → σ → σ) (s : σ) : σ :=
  forUpAux body (hi - lo) lo s

/-- The loop `for (i = start; i > 0; --i) s = body i s`. -/
def forDown {σ : Type} (body : Nat → σ → σ) : Nat → σ → σ
  | 0, s => s
  | i + 1, s => forDown body i (body (i + 1) s)

/-! ## Vectors and spatial algebra

The types below are declared in headers outside this translation unit
(`PxVec3`, `PxMat33`, `Cm::SpatialVectorF`, `Dy::SpatialMatrix`); they are
modelled componentwise. -/

/-- Modelled from the spec: `PxVec3`, a vector of three `PxReal` components. -/
structure PxVec3 where
  x : PxReal
  y : PxReal
  z : PxReal
deriving DecidableEq

namespace PxVec3

/-- The vector `PxVec3(0.f)`. -/
def zero : PxVec3 := ⟨0, 0, 0⟩

/-- Componentwise sum, `a + b`. -/
def add (a b : PxVec3) : PxVec3 := ⟨a.x + b.x, a.y + b.y, a.z + b.z⟩

/-- Componentwise difference, `a - b`. -/
def sub (a b : PxVec3) : PxVec3 := ⟨a.x - b.x, a.y - b.y, a.z - b.z⟩

/-- Negation, `-a`. -/
def neg (a : PxVec3) : PxVec3 := ⟨-a.x, -a.y, -a.z⟩

/-- Scaling by a scalar, `a * s`. -/
def scale (a : PxVec3) (s : PxReal) : PxVec3 := ⟨a.x * s, a.y * s, a.z * s⟩

/-- Componentwise product, `a.multiply(b)`. -/
def multiply (a b : PxVec3) : PxVec3 := ⟨a.x * b.x, a.y * b.y, a.z * b.z⟩

/-- Dot product, `a.dot(b)`. -/
def dot (a b : PxVec3) : PxReal := a.x * b.x + a.y * b.y + a.z * b.z

/-- Cross product, `a.cross(b)`. -/
def cross (a b : PxVec3) : PxVec3 :=
  ⟨a.y * b.z - a.z * b.y, a.z * b.x - a.x * b.z, a.x * b.y - a.y * b.x⟩

/-- Component access `v[i]` for `i < 3`. -/
def get (v : PxVec3) (i : Nat) : PxReal :=
  if i = 0 then v.x else if i = 1 then v.y else v.z

end PxVec3

/-- Modelled from the spec: `Cm::SpatialVectorF` (and `Cm::UnAlignedSpatialVector`),
a spatial vector of 6 components split into `top` and `bottom`. -/
structure SpatialVectorF where
  top : PxVec3
  bottom : PxVec3
deriving DecidableEq

namespace SpatialVectorF

/-- The vector `Cm::SpatialVectorF::Zero()`. -/
def Zero : SpatialVectorF := ⟨PxVec3.zero, PxVec3.zero⟩

/-- Sum of spatial vectors. -/
def add (a b : SpatialVectorF) : SpatialVectorF := ⟨a.top.add b.top, a.bottom.add b.bottom⟩

/-- Difference of spatial vectors. -/
def sub (a b : SpatialVectorF) : SpatialVectorF := ⟨a.top.sub b.top, a.bottom.sub b.bottom⟩

/-- Negation of a spatial vector. -/
def neg (a : SpatialVectorF) : SpatialVectorF := ⟨a.top.neg, a.bottom.neg⟩

/-- Scaling of a spatial vector by a scalar. -/
def scale (a : SpatialVectorF) (s : PxReal) : SpatialVectorF := ⟨a.top.scale s, a.bottom.scale s⟩

/-- Modelled from the spec: `innerProduct`, the pairing of a motion vector with a
force vector used to project a bias force onto a motion-matrix column:
`bottom.dot(v.top) + top.dot(v.bottom)`. -/
def innerProduct (a v : SpatialVectorF) : PxReal := a.bottom.dot v.top + a.top.dot v.bottom

/-- Component access `v[i]` for `i < 6`: the three of `top`, then the three of `bottom`. -/
def get (v : SpatialVectorF) (i : Nat) : PxReal :=
  if i < 3 then v.top.get i else v.bottom.get (i - 3)

end SpatialVectorF

/-- Modelled from the spec: `Cm::SpatialVector`, the external (linear, angular) pair. -/
structure SpatialVector where
  linear : PxVec3
  angular : PxVec3
deriving DecidableEq

/-- Modelled from the spec: `PxMat33`, a 3×3 matrix stored by columns. -/
structure PxMat33 where
  column0 : PxVec3
  column1 : PxVec3
  column2 : PxVec3
deriving DecidableEq

namespace PxMat33

/-- The matrix `PxMat33(PxZero)`. -/
def zero : PxMat33 := ⟨PxVec3.zero, PxVec3.zero, PxVec3.zero⟩

/-- The matrix `PxMat33::createDiagonal(d)`. -/
def createDiagonal (d : PxVec3) : PxMat33 := ⟨⟨d.x, 0, 0⟩, ⟨0, d.y, 0⟩, ⟨0, 0, d.z⟩⟩

/-- Matrix times vector, `M * v`. -/
def transform (m : PxMat33) (v : PxVec3) : PxVec3 :=
  ((m.column0.scale v.x).add (m.column1.scale v.y)).add (m.column2.scale v.z)

/-- Transposed matrix times vector, `M.transformTranspose(v)`. -/
def transformTranspose (m : PxMat33) (v : PxVec3) : PxVec3 :=
  ⟨m.column0.dot v, m.column1.dot v, m.column2.dot v⟩

/-- Matrix sum. -/
def add (a b : PxMat33) : PxMat33 :=
  ⟨a.column0.add b.column0, a.column1.add b.column1, a.column2.add b.column2⟩

/-- Matrix negation. -/
def neg (a : PxMat33) : PxMat33 := ⟨a.column0.neg, a.column1.neg, a.column2.neg⟩

/-- Matrix scaled by a scalar. -/
def scale (a : PxMat33) (s : PxReal) : PxMat33 :=
  ⟨a.column0.scale s, a.column1.scale s, a.column2.scale s⟩

/-- Matrix product `a * b`. -/
def mul (a b : PxMat33) : PxMat33 :=
  ⟨a.transform b.column0, a.transform b.column1, a.transform b.column2⟩

/-- Transpose, `M.getTranspose()`. -/
def getTranspose (m : PxMat33) : PxMat33 :=
  ⟨⟨m.column0.x, m.column1.x, m.column2.x⟩,
   ⟨m.column0.y, m.column1.y, m.column2.y⟩,
   ⟨m.column0.z, m.column1.z, m.column2.z⟩⟩

/-- A matrix is symmetric when it equals its transpose. -/
def IsSymm (m : PxMat33) : Prop := m.getTranspose = m

instance (m : PxMat33) : Decidable m.IsSymm := by unfold IsSymm; infer_instance

end PxMat33

/-- Modelled from the spec: `Dy::SpatialMatrix`, a 6×6 operator stored as the three
blocks `topLeft`, `topRight`, `bottomLeft`; the bottom-right block is the transpose
of `topLeft`. -/
structure SpatialMatrix where
  topLeft : PxMat33
  topRight : PxMat33
  bottomLeft : PxMat33
deriving DecidableEq

namespace SpatialMatrix

/-- The bottom-right block, `getBottomRight()`. -/
def getBottomRight (m : SpatialMatrix) : PxMat33 := m.topLeft.getTranspose

/-- Modelled from the spec: `SpatialMatrix::operator*(SpatialVectorF)`, the block product
with `bottomRight = transpose(topLeft)`. -/
def mulVec (m : SpatialMatrix) (s : SpatialVectorF) : SpatialVectorF :=
  ⟨(m.topLeft.transform s.top).add (m.topRight.transform s.bottom),
   (m.bottomLeft.transform s.top).add (m.topLeft.transformTranspose s.bottom)⟩

/-- Blockwise sum, `operator+=`. -/
def add (a b : SpatialMatrix) : SpatialMatrix :=
  ⟨a.topLeft.add b.topLeft, a.topRight.add b.topRight, a.bottomLeft.add b.bottomLeft⟩

end SpatialMatrix

/-- Modelled from the spec: `translateSpatialVector(offset, v)`: the rotational part
`top` is invariant, the linear part gains the term `offset × v.top`. -/
def translateSpatialVector (offset : PxVec3) (vec : SpatialVectorF) : SpatialVectorF :=
  ⟨vec.top, vec.bottom.add (offset.cross vec.top)⟩

/-- Modelled from the spec: `constructSkewSymmetricMatrix(v)`, the 3×3 cross-product
operator matrix of `v` (so that `M * u = v × u`). -/
def constructSkewSymmetricMatrix (r : PxVec3) : PxMat33 :=
  ⟨⟨0, r.z, -r.y⟩, ⟨-r.z, 0, r.x⟩, ⟨r.y, -r.x, 0⟩⟩

/-- Modelled from the spec: `translateInertia(sTod, inertia)`, the spatial inertia
re-expressed at a shifted point (parallel-axis theorem in spatial form), with the
bottom-left block symmetrised afterwards. -/
def translateInertia (sTod : PxMat33) (inertia : SpatialMatrix) : SpatialMatrix :=
  let dTos := sTod.getTranspose
  let bl := (sTod.mul inertia.topLeft).add inertia.bottomLeft
  let br := (sTod.mul inertia.topRight).add inertia.getBottomRight
  let topLeft := inertia.topLeft.add (inertia.topRight.mul dTos)
  let bottomLeft := bl.add (br.mul dTos)
  { topLeft := topLeft
    topRight := inertia.topRight
    bottomLeft := (bottomLeft.add bottomLeft.getTranspose).scale (1 / 2) }

/-! ## Articulation data -/

/-- Modelled from the spec: `PxTransform`, a rigid pose.  The orientation `q` is carried
as its rotation matrix `PxMat33(q)`; `p` is the position. -/
structure PxTransform where
  q : PxMat33 := PxMat33.createDiagonal ⟨1, 1, 1⟩
  p : PxVec3 := PxVec3.zero
deriving DecidableEq

/-- Composition of poses, `a * b` (first `b`, then `a`). -/
def PxTransform.mul (a b : PxTransform) : PxTransform :=
  { q := a.q.mul b.q, p := (a.q.transform b.p).add a.p }

/-- Rotation of a vector by the pose, `body2World.rotate(v)`. -/
def PxTransform.rotate (t : PxTransform) (v : PxVec3) : PxVec3 := t.q.transform v

/-- Inverse rotation of a vector by the pose, `body2World.rotateInv(v)`. -/
def PxTransform.rotateInv (t : PxTransform) (v : PxVec3) : PxVec3 := t.q.transformTranspose v

/-- Modelled from the spec: `Cm::transformInertiaTensor(invD, M, mIInv)`, the diagonal
tensor `invD` expressed in the frame `M`, i.e. `M * diag(invD) * transpose(M)`, written
entry by entry with the off-diagonal entries assigned in symmetric pairs. -/
def transformInertiaTensor (invD : PxVec3) (M : PxMat33) : PxMat33 :=
  let axx := invD.x * M.column0.x
  let axy := invD.x * M.column0.y
  let axz := invD.x * M.column0.z
  let byx := invD.y * M.column1.x
  let byy := invD.y * M.column1.y
  let byz := invD.y * M.column1.z
  let czx := invD.z * M.column2.x
  let czy := invD.z * M.column2.y
  let czz := invD.z * M.column2.z
  let m00 := axx * M.column0.x + byx * M.column1.x + czx * M.column2.x
  let m11 := axy * M.column0.y + byy * M.column1.y + czy * M.column2.y
  let m22 := axz * M.column0.z + byz * M.column1.z + czz * M.column2.z
  let m01 := axx * M.column0.y + byx * M.column1.y + czx * M.column2.y
  let m02 := axx * M.column0.z + byx * M.column1.z + czx * M.column2.z
  let m12 := axy * M.column0.z + byy * M.column1.z + czy * M.column2.z
  ⟨⟨m00, m01, m02⟩, ⟨m01, m11, m12⟩, ⟨m02, m12, m22⟩⟩

/-- Modelled from the spec: `PxsBodyCore`, the inertial properties and pose of a link
(inverse mass, inverse principal inertia, world pose, velocities). -/
structure PxsBodyCore where
  inverseMass : PxReal := 1
  inverseInertia : PxVec3 := ⟨1, 1, 1⟩
  body2World : PxTransform := {}
  body2Actor : PxTransform := {}
  linearVelocity : PxVec3 := PxVec3.zero
  angularVelocity : PxVec3 := PxVec3.zero
deriving DecidableEq

/-- Modelled from the spec: `ArticulationLink`: parent link index, body core, and the
cached root-to-link path (`mPathToRootStartIndex`, `mPathToRootCount`). -/
structure ArticulationLink where
  parent : Nat := 0
  bodyCore : PxsBodyCore := {}
  mPathToRootStartIndex : Nat := 0
  mPathToRootCount : Nat := 0
deriving DecidableEq

/-- Modelled from the spec: `ArticulationJointCoreData`: the `(jointOffset, nbDof)` pair of
a joint in the flat DOF-indexed arrays. -/
structure ArticulationJointCoreData where
  jointOffset : Nat := 0
  nbDof : Nat := 0
deriving DecidableEq

/-- Modelled from the spec: `InvStIs`, the per-link block `(S^T I S)^-1` cached for the
velocity propagation (at most 6 × 6 entries). -/
structure InvStIs where
  invStIs : Nat → Nat → PxReal := fun _ _ => 0

/-- Modelled from the spec: `PxArticulationMotion`, the motion of one joint axis. -/
inductive PxArticulationMotion where
  | eLOCKED
  | eLIMITED
  | eFREE
deriving DecidableEq

/-- The constant `DY_MAX_DOF`: the number of axis slots of a joint in maximal coordinates. -/
def DY_MAX_DOF : Nat := 6

/-- Modelled from the spec: `ArticulationData`, the tree container: per-link and
per-DOF arrays, the data-dirty flag and the `eFIX_BASE` articulation flag.
`inboundJointMotion linkID j` is `getLink(linkID).inboundJoint->motion[j]`. -/
structure ArticulationData where
  linkCount : Nat
  dofs : Nat
  links : Nat → ArticulationLink
  jointData : Nat → ArticulationJointCoreData
  rw : Nat → PxVec3
  mWorldMotionMatrix : Nat → SpatialVectorF
  mMotionMatrix : Nat → SpatialVectorF := fun _ => SpatialVectorF.Zero
  mISInvStIS : Nat → SpatialVectorF := fun _ => SpatialVectorF.Zero
  mWorldSpatialArticulatedInertia : Nat → SpatialMatrix :=
    fun _ => ⟨PxMat33.zero, PxMat33.zero, PxMat33.zero⟩
  mInvStIs : Nat → InvStIs := fun _ => {}
  mBaseInvSpatialArticulatedInertiaW : SpatialMatrix := ⟨PxMat33.zero, PxMat33.zero, PxMat33.zero⟩
  mPathToRootElements : Nat → Nat := fun _ => 0
  mExternalAcceleration : Nat → SpatialVector := fun _ => ⟨PxVec3.zero, PxVec3.zero⟩
  mJointVelocity : Nat → PxReal := fun _ => 0
  mJointPosition : Nat → PxReal := fun _ => 0
  mJointForce : Nat → PxReal := fun _ => 0
  mJointTargetPositions : Nat → PxReal := fun _ => 0
  mJointTargetVelocities : Nat → PxReal := fun _ => 0
  mSpatialZAVectors : Nat → SpatialVectorF := fun _ => SpatialVectorF.Zero
  dataDirty : Bool := false
  fixBase : Bool := true
  dt : PxReal := 1
  inboundJointMotion : Nat → Nat → PxArticulationMotion := fun _ _ => PxArticulationMotion.eLOCKED

/-- Modelled from the spec: `ScratchData`, the transient per-link and per-DOF buffers of
one algorithm invocation.  `jointVelocities` and `jointAccelerations` may be `NULL`. -/
structure ScratchData where
  motionVelocities : Nat → SpatialVectorF := fun _ => SpatialVectorF.Zero
  motionAccelerations : Nat → SpatialVectorF := fun _ => SpatialVectorF.Zero
  coriolisVectors : Nat → SpatialVectorF := fun _ => SpatialVectorF.Zero
  spatialZAVectors : Nat → SpatialVectorF := fun _ => SpatialVectorF.Zero
  compositeSpatialInertias : Nat → SpatialMatrix :=
    fun _ => ⟨PxMat33.zero, PxMat33.zero, PxMat33.zero⟩
  jointVelocities : Option (Nat → PxReal) := none
  jointAccelerations : Option (Nat → PxReal) := none
  jointForces : Nat → PxReal := fun _ => 0
  externalAccels : Option (Nat → SpatialVector) := none

/-! ## The inverse-dynamics passes -/

/-- The inner loop of `computeLinkAccelerationInv` (lines 75-79): the joint contribution
`sum_ind worldMotionMatrix[jointOffset + ind] * jAcceleration[ind]`. -/
def jointAccelerationContribution (data : ArticulationData) (jointAccelerations : Nat → PxReal)
    (jointOffset nbDof : Nat) (init : SpatialVectorF) : SpatialVectorF :=
  forUp 0 nbDof (fun ind (acc : SpatialVectorF) =>
    { top := acc.top.add
        ((data.mWorldMotionMatrix (jointOffset + ind)).top.scale (jointAccelerations (jointOffset + ind)))
      bottom := acc.bottom.add
        ((data.mWorldMotionMatrix (jointOffset + ind)).bottom.scale (jointAccelerations (jointOffset + ind))) })
    init

/-- The body of the link loop of `computeLinkAccelerationInv` (lines 64-84). -/
def computeLinkAccelerationInvBody (data : ArticulationData) (linkID : Nat) (sd : ScratchData) :
    ScratchData :=
  let link := data.links linkID
  let pMotionAcceleration :=
    translateSpatialVector (data.rw linkID).neg (sd.motionAccelerations link.parent)
  let motionAcceleration : SpatialVectorF :=
    match sd.jointAccelerations with
    | none => ⟨PxVec3.zero, PxVec3.zero⟩
    | some jointAccelerations =>
      jointAccelerationContribution data jointAccelerations (data.jointData linkID).jointOffset
        (data.jointData linkID).nbDof ⟨PxVec3.zero, PxVec3.zero⟩
  { sd with
    motionAccelerations := Function.update sd.motionAccelerations linkID
      ((pMotionAcceleration.add (sd.coriolisVectors linkID)).add motionAcceleration) }

/-- The pass `FeatherstoneArticulation::computeLinkAccelerationInv` (lines 52-86). -/
def computeLinkAccelerationInv (data : ArticulationData) (sd : ScratchData) : ScratchData :=
  forUp 1 data.linkCount (computeLinkAccelerationInvBody data)
    { sd with motionAccelerations := Function.update sd.motionAccelerations 0 SpatialVectorF.Zero }

/-- The inner loop of `computeGeneralizedForceInv` (lines 109-112): project the bias
force `z` onto the motion-matrix columns of the joint. -/
def projectJointForces (data : ArticulationData) (jointOffset nbDof : Nat) (z : SpatialVectorF)
    (jointForces : Nat → PxReal) : Nat → PxReal :=
  forUp 0 nbDof (fun ind (f : Nat → PxReal) =>
    Function.update f (jointOffset + ind)
      ((data.mWorldMotionMatrix (jointOffset + ind)).innerProduct z)) jointForces

/-- The body of the link loop of `computeGeneralizedForceInv` (lines 98-112). -/
def computeGeneralizedForceInvBody (data : ArticulationData) (linkID : Nat) (sd : ScratchData) :
    ScratchData :=
  let link := data.links linkID
  let spatialZAForces := Function.update sd.spatialZAVectors link.parent
    ((sd.spatialZAVectors link.parent).add
      (translateSpatialVector (data.rw linkID) (sd.spatialZAVectors linkID)))
  { sd with
    spatialZAVectors := spatialZAForces
    jointForces := projectJointForces data (data.jointData linkID).jointOffset
      (data.jointData linkID).nbDof (spatialZAForces linkID) sd.jointForces }

/-- The pass `FeatherstoneArticulation::computeGeneralizedForceInv` (lines 89-114); the
loop starts at the unsigned `linkCount - 1`. -/
def computeGeneralizedForceInv (data : ArticulationData) (sd : ScratchData) : ScratchData :=
  forDown (computeGeneralizedForceInvBody data) (u32Sub data.linkCount 1) sd

/-- The mass used by `computeZAForceInv` and `initCompositeSpatialInertia`:
`inverseMass == 0.f ? 0.f : 1.0f / inverseMass`. -/
def massOf (core : PxsBodyCore) : PxReal :=
  if core.inverseMass = 0 then 0 else 1 / core.inverseMass

/-- The principal inertia used by `computeZAForceInv` and `initCompositeSpatialInertia`:
each component is `0` when the inverse-inertia component is `0`, else its reciprocal. -/
def inertiaTensorOf (core : PxsBodyCore) : PxVec3 :=
  ⟨if core.inverseInertia.x = 0 then 0 else 1 / core.inverseInertia.x,
   if core.inverseInertia.y = 0 then 0 else 1 / core.inverseInertia.y,
   if core.inverseInertia.z = 0 then 0 else 1 / core.inverseInertia.z⟩

/-- The vector `Ia` of `computeZAForceInv` (lines 132-138) for the body `core` and the
motion acceleration `a`. -/
def bodyInertiaTimes (core : PxsBodyCore) (a : SpatialVectorF) : SpatialVectorF :=
  let m := massOf core
  let inertiaTensor := inertiaTensorOf core
  { bottom := core.body2World.rotate
      ((core.body2World.rotateInv a.top).multiply inertiaTensor)
    top := a.bottom.scale m }

/-- The body of the link loop of `computeZAForceInv` (lines 126-140). -/
def computeZAForceInvBody (data : ArticulationData) (linkID : Nat) (sd : ScratchData) :
    ScratchData :=
  let core := (data.links linkID).bodyCore
  let Ia := bodyInertiaTimes core (sd.motionAccelerations linkID)
  { sd with
    spatialZAVectors :=
      Function.update sd.spatialZAVectors linkID ((sd.spatialZAVectors linkID).add Ia) }

/-- The pass `FeatherstoneArticulation::computeZAForceInv` (lines 116-142). -/
def computeZAForceInv (data : ArticulationData) (sd : ScratchData) : ScratchData :=
  forUp 0 data.linkCount (computeZAForceInvBody data) sd

/-- The passes `computeLinkVelocities`, `computeC` and `computeZ` are defined outside this
translation unit; they act on the scratch buffers and are taken as parameters. -/
structure ExternalPasses where
  computeLinkVelocities : ArticulationData → ScratchData → ScratchData
  computeC : ArticulationData → ScratchData → ScratchData
  computeZ : ArticulationData → PxVec3 → ScratchData → ScratchData

/-- The call `PxMemZero(buf, sizeof(T) * count)`: the first `count` entries become `zero`. -/
def memZero {α : Type} (zero : α) (count : Nat) (buf : Nat → α) : Nat → α :=
  fun i => if i < count then zero else buf i

/-- The driver `FeatherstoneArticulation::inverseDynamic` (lines 237-256). -/
def inverseDynamic (ext : ExternalPasses) (data : ArticulationData) (gravity : PxVec3)
    (scratchData : ScratchData) (computeCoriolis : Bool) : ScratchData :=
  let sd1 := ext.computeLinkVelocities data scratchData
  let sd2 :=
    if computeCoriolis then ext.computeC data sd1
    else { sd1 with coriolisVectors := memZero SpatialVectorF.Zero data.linkCount sd1.coriolisVectors }
  let sd3 := ext.computeZ data gravity sd2
  let sd4 := computeLinkAccelerationInv data sd3
  let sd5 := computeZAForceInv data sd4
  computeGeneralizedForceInv data sd5

/-- The body of the first-pass loop of `calculateMassMatrixColInv` (lines 2126-2141). -/
def calculateMassMatrixColInvBody (data : ArticulationData) (jointAccelerations : Nat → PxReal)
    (linkID : Nat) (sd : ScratchData) : ScratchData :=
  let link := data.links linkID
  let jointDatum := data.jointData linkID
  let accel0 := translateSpatialVector (data.rw linkID).neg (sd.motionAccelerations link.parent)
  let accel := jointAccelerationContribution data jointAccelerations jointDatum.jointOffset
    jointDatum.nbDof accel0
  { sd with
    motionAccelerations := Function.update sd.motionAccelerations linkID accel
    spatialZAVectors := Function.update sd.spatialZAVectors linkID
      ((data.mWorldSpatialArticulatedInertia linkID).mulVec accel) }

/-- The pass `calculateMassMatrixColInv` (lines 2106-2148) for a non-null
joint-acceleration buffer. -/
def calculateMassMatrixColInvWith (data : ArticulationData) (jointAccelerations : Nat → PxReal)
    (sd : ScratchData) : ScratchData :=
  let sd0 : ScratchData :=
    { sd with
      motionAccelerations := Function.update sd.motionAccelerations 0 SpatialVectorF.Zero
      spatialZAVectors := Function.update sd.spatialZAVectors 0 SpatialVectorF.Zero }
  let sd1 := forUp 1 data.linkCount (calculateMassMatrixColInvBody data jointAccelerations) sd0
  computeGeneralizedForceInv data sd1

/-- The pass `FeatherstoneArticulation::calculateMassMatrixColInv` (lines 2106-2148).  The
joint-acceleration buffer is read without a null check; a null buffer gives no result. -/
def calculateMassMatrixColInv (data : ArticulationData) (sd : ScratchData) : Option ScratchData :=
  sd.jointAccelerations.map (fun jointAccelerations =>
    calculateMassMatrixColInvWith data jointAccelerations sd)

/-! ## A concrete articulation

A three-link serial chain (root, link 1, link 2), one revolute DOF about `z` per joint,
used to instantiate the theorems below. -/

/-- A three-link serial chain: `parent[i] = i - 1`, one DOF per joint, DOF `i - 1` for
link `i`. -/
def chainData : ArticulationData :=
  { linkCount := 3
    dofs := 2
    links := fun i => { parent := i - 1, bodyCore := { inverseMass := 1 / 2 } }
    jointData := fun i => { jointOffset := i - 1, nbDof := if i = 0 then 0 else 1 }
    rw := fun _ => ⟨1, 0, 0⟩
    mWorldMotionMatrix := fun _ => ⟨⟨0, 0, 1⟩, ⟨0, 0, 0⟩⟩ }

/-- The cache flags tested by this file (`PxArticulationCacheFlag`). -/
inductive PxArticulationCacheFlag where
  | eVELOCITY
  | ePOSITION
  | eFORCE
  | eROOT_TRANSFORM
  | eROOT_VELOCITIES
  | eJOINT_TARGET_POSITIONS
  | eJOINT_TARGET_VELOCITIES
  | eLINK_FORCE
  | eLINK_TORQUE
deriving DecidableEq

/-- A flag set `PxArticulationCacheFlags`; `flag & f` is membership of `f`. -/
abbrev PxArticulationCacheFlags := List PxArticulationCacheFlag

/-- The dirty flags raised by `applyCacheToDest` (`ArticulationDirtyFlag`). -/
inductive ArticulationDirtyFlag where
  | eDIRTY_VELOCITIES
  | eDIRTY_ROOT_TRANSFORM
  | eDIRTY_ROOT_VELOCITIES
  | eDIRTY_POSITIONS
  | eDIRTY_FORCES
  | eDIRTY_JOINT_TARGET_POS
  | eDIRTY_JOINT_TARGET_VEL
  | eDIRTY_EXT_ACCEL
deriving DecidableEq

/-- Modelled from the spec: `PxArticulationRootLinkData`, the root pose and velocities held
by a cache. -/
structure PxArticulationRootLinkData where
  transform : PxTransform := {}
  worldLinVel : PxVec3 := PxVec3.zero
  worldAngVel : PxVec3 := PxVec3.zero

/-- Modelled from the spec: `PxSpatialForce`, an external (force, torque) pair. -/
structure PxSpatialForce where
  force : PxVec3 := PxVec3.zero
  torque : PxVec3 := PxVec3.zero

/-- Modelled from the spec: `PxArticulationCache`, the flat-array external representation of
per-DOF and per-link quantities; only the fields this file reads or writes. -/
structure PxArticulationCache where
  jointVelocity : Nat → PxReal := fun _ => 0
  jointAcceleration : Nat → PxReal := fun _ => 0
  jointPosition : Nat → PxReal := fun _ => 0
  jointForce : Nat → PxReal := fun _ => 0
  jointTargetPositions : Nat → PxReal := fun _ => 0
  jointTargetVelocities : Nat → PxReal := fun _ => 0
  linkForce : Nat → PxVec3 := fun _ => PxVec3.zero
  linkTorque : Nat → PxVec3 := fun _ => PxVec3.zero
  externalForces : Nat → PxSpatialForce := fun _ => {}
  rootLinkData : PxArticulationRootLinkData := {}
  massMatrix : Nat → PxReal := fun _ => 0
  coefficientMatrix : Nat → PxReal := fun _ => 0
  lambda : Nat → PxReal := fun _ => 0
  gravityCompensationForce : Nat → PxReal := fun _ => 0
  coriolisForce : Nat → PxReal := fun _ => 0
  centroidalMomentumMatrix : Nat → PxReal := fun _ => 0
  centroidalMomentumBias : Nat → PxReal := fun _ => 0

/-- The members of `FeatherstoneArticulation` used by this file. -/
structure FeatherstoneArticulation where
  mArticulationData : ArticulationData
  mGPUDirtyFlags : List ArticulationDirtyFlag := []
  mJcalcDirty : Bool := false

/-- The five caller-supplied destination buffers of `applyCacheToDest`. -/
structure CacheDest where
  jVelocities : Nat → PxReal := fun _ => 0
  jPositions : Nat → PxReal := fun _ => 0
  jointForces : Nat → PxReal := fun _ => 0
  jointTargetPositions : Nat → PxReal := fun _ => 0
  jointTargetVelocities : Nat → PxReal := fun _ => 0

/-- The routines `copyJointData`, `jcalc`, `teleportLinks` and the one-argument
`computeLinkVelocities` are defined outside this translation unit; they are parameters. -/
structure CacheExternals where
  copyJointData : ArticulationData → (Nat → PxReal) → (Nat → PxReal) → (Nat → PxReal)
  jcalc : ArticulationData → ArticulationData
  teleportLinks : ArticulationData → ArticulationData
  computeLinkVelocities : ArticulationData → ArticulationData

/-- What `applyCacheToDest` leaves behind: the articulation, the destination buffers, the
out-parameter `shouldWake` and the returned `needsScheduling`. -/
structure ApplyCacheResult where
  art : FeatherstoneArticulation
  dest : CacheDest
  shouldWake : Bool
  needsScheduling : Bool

/-- A per-DOF copy loop of `applyCacheToDest` (e.g. lines 295-300): for `i < dofCount`,
`v = src[i]; wake = wake || test i v; dst[i] = v`. -/
def copyDofLoop (dofCount : Nat) (src : Nat → PxReal) (test : Nat → PxReal → Bool)
    (st : Bool × (Nat → PxReal)) : Bool × (Nat → PxReal) :=
  forUp 0 dofCount (fun i (st : Bool × (Nat → PxReal)) =>
    (st.1 || test i (src i), Function.update st.2 i (src i))) st

/-- Replace the body core of the root link. -/
def setRootCore (data : ArticulationData) (core : PxsBodyCore) : ArticulationData :=
  { data with links := Function.update data.links 0 { data.links 0 with bodyCore := core } }

/-- The variables that the flag blocks of `applyCacheToDest` update: the local
`localShouldWake`, the destination buffers and the articulation. -/
structure ApplyCacheState where
  localShouldWake : Bool
  dest : CacheDest
  art : FeatherstoneArticulation

/-- The block `if (flag & eVELOCITY)` of `applyCacheToDest` (lines 292-303). -/
def applyVelocityBlock (cache : PxArticulationCache) (flag : PxArticulationCacheFlags)
    (s : ApplyCacheState) : ApplyCacheState :=
  if PxArticulationCacheFlag.eVELOCITY ∈ flag then
    let dofCount := s.art.mArticulationData.dofs
    let r := copyDofLoop dofCount cache.jointVelocity (fun _ jv => decide (jv ≠ 0))
      (s.localShouldWake, s.dest.jVelocities)
    { localShouldWake := r.1
      dest := { s.dest with jVelocities := r.2 }
      art := { s.art with
        mGPUDirtyFlags := ArticulationDirtyFlag.eDIRTY_VELOCITIES :: s.art.mGPUDirtyFlags } }
  else s

/-- The block `if (flag & eROOT_TRANSFORM)` of `applyCacheToDest` (lines 305-311). -/
def applyRootTransformBlock (cache : PxArticulationCache) (flag : PxArticulationCacheFlags)
    (s : ApplyCacheState) : ApplyCacheState :=
  if PxArticulationCacheFlag.eROOT_TRANSFORM ∈ flag then
    let core := (s.art.mArticulationData.links 0).bodyCore
    { s with
      art := { s.art with
        mArticulationData := setRootCore s.art.mArticulationData
          { core with body2World := cache.rootLinkData.transform.mul core.body2Actor }
        mGPUDirtyFlags := ArticulationDirtyFlag.eDIRTY_ROOT_TRANSFORM :: s.art.mGPUDirtyFlags } }
  else s

/-- The block `if (flag & eROOT_VELOCITIES)` of `applyCacheToDest` (lines 313-320). -/
def applyRootVelocitiesBlock (cache : PxArticulationCache) (flag : PxArticulationCacheFlags)
    (s : ApplyCacheState) : ApplyCacheState :=
  if PxArticulationCacheFlag.eROOT_VELOCITIES ∈ flag then
    let core := (s.art.mArticulationData.links 0).bodyCore
    { s with
      localShouldWake := s.localShouldWake
        || decide (cache.rootLinkData.worldLinVel ≠ PxVec3.zero)
        || decide (cache.rootLinkData.worldAngVel ≠ PxVec3.zero)
      art := { s.art with
        mArticulationData := setRootCore s.art.mArticulationData
          { core with
            linearVelocity := cache.rootLinkData.worldLinVel
            angularVelocity := cache.rootLinkData.worldAngVel }
        mGPUDirtyFlags := ArticulationDirtyFlag.eDIRTY_ROOT_VELOCITIES :: s.art.mGPUDirtyFlags } }
  else s

/-- The block `if (flag & ePOSITION)` of `applyCacheToDest` (lines 322-328). -/
def applyPositionBlock (cx : CacheExternals) (cache : PxArticulationCache)
    (flag : PxArticulationCacheFlags) (s : ApplyCacheState) : ApplyCacheState :=
  if PxArticulationCacheFlag.ePOSITION ∈ flag then
    { s with
      dest := { s.dest with
        jPositions := cx.copyJointData s.art.mArticulationData s.dest.jPositions
          cache.jointPosition }
      art := { s.art with
        mGPUDirtyFlags := ArticulationDirtyFlag.eDIRTY_POSITIONS :: s.art.mGPUDirtyFlags } }
  else s

/-- The block `if (flag & eFORCE)` of `applyCacheToDest` (lines 330-340). -/
def applyForceBlock (cache : PxArticulationCache) (flag : PxArticulationCacheFlags)
    (s : ApplyCacheState) : ApplyCacheState :=
  if PxArticulationCacheFlag.eFORCE ∈ flag then
    let dofCount := s.art.mArticulationData.dofs
    let r := copyDofLoop dofCount cache.jointForce (fun _ jf => decide (jf ≠ 0))
      (s.localShouldWake, s.dest.jointForces)
    { localShouldWake := r.1
      dest := { s.dest with jointForces := r.2 }
      art := { s.art with
        mGPUDirtyFlags := ArticulationDirtyFlag.eDIRTY_FORCES :: s.art.mGPUDirtyFlags } }
  else s

/-- The block `if (flag & eJOINT_TARGET_POSITIONS)` of `applyCacheToDest` (lines 342-352). -/
def applyJointTargetPositionsBlock (cache : PxArticulationCache)
    (flag : PxArticulationCacheFlags) (s : ApplyCacheState) : ApplyCacheState :=
  if PxArticulationCacheFlag.eJOINT_TARGET_POSITIONS ∈ flag then
    let dofCount := s.art.mArticulationData.dofs
    let r := copyDofLoop dofCount cache.jointTargetPositions
      (fun i jt => decide (jt ≠ s.dest.jPositions i))
      (s.localShouldWake, s.dest.jointTargetPositions)
    { localShouldWake := r.1
      dest := { s.dest with jointTargetPositions := r.2 }
      art := { s.art with
        mGPUDirtyFlags :=
          ArticulationDirtyFlag.eDIRTY_JOINT_TARGET_POS :: s.art.mGPUDirtyFlags } }
  else s

/-- The block `if (flag & eJOINT_TARGET_VELOCITIES)` of `applyCacheToDest`
(lines 354-364). -/
def applyJointTargetVelocitiesBlock (cache : PxArticulationCache)
    (flag : PxArticulationCacheFlags) (s : ApplyCacheState) : ApplyCacheState :=
  if PxArticulationCacheFlag.eJOINT_TARGET_VELOCITIES ∈ flag then
    let dofCount := s.art.mArticulationData.dofs
    let r := copyDofLoop dofCount cache.jointTargetVelocities
      (fun i jv => decide (jv ≠ s.dest.jVelocities i))
      (s.localShouldWake, s.dest.jointTargetVelocities)
    { localShouldWake := r.1
      dest := { s.dest with jointTargetVelocities := r.2 }
      art := { s.art with
        mGPUDirtyFlags :=
          ArticulationDirtyFlag.eDIRTY_JOINT_TARGET_VEL :: s.art.mGPUDirtyFlags } }
  else s

/-- The body of the link loop of the block `if (flag & eLINK_FORCE)` (lines 369-377). -/
def applyLinkForceBody (cache : PxArticulationCache) (i : Nat) (st : Bool × ArticulationData) :
    Bool × ArticulationData :=
  let linkForce := cache.linkForce i
  let core := (st.2.links i).bodyCore
  (st.1 || decide (linkForce ≠ PxVec3.zero),
    { st.2 with
      mExternalAcceleration := Function.update st.2.mExternalAcceleration i
        { st.2.mExternalAcceleration i with linear := linkForce.scale core.inverseMass } })

/-- The block `if (flag & eLINK_FORCE)` of `applyCacheToDest` (lines 366-379). -/
def applyLinkForceBlock (cache : PxArticulationCache) (flag : PxArticulationCacheFlags)
    (s : ApplyCacheState) : ApplyCacheState :=
  if PxArticulationCacheFlag.eLINK_FORCE ∈ flag then
    let linkCount := s.art.mArticulationData.linkCount
    let r := forUp 0 linkCount (applyLinkForceBody cache)
      (s.localShouldWake, s.art.mArticulationData)
    { s with
      localShouldWake := r.1
      art := { s.art with
        mArticulationData := r.2
        mGPUDirtyFlags := ArticulationDirtyFlag.eDIRTY_EXT_ACCEL :: s.art.mGPUDirtyFlags } }
  else s

/-- The body of the link loop of the block `if (flag & eLINK_TORQUE)` (lines 384-399). -/
def applyLinkTorqueBody (cache : PxArticulationCache) (i : Nat) (st : Bool × ArticulationData) :
    Bool × ArticulationData :=
  let core := (st.2.links i).bodyCore
  let linkTorque := cache.linkTorque i
  let localLinkTorque := core.body2World.rotateInv linkTorque
  let localAccel := core.inverseInertia.multiply localLinkTorque
  let worldAccel := core.body2World.rotate localAccel
  (st.1 || decide (localLinkTorque ≠ PxVec3.zero),
    { st.2 with
      mExternalAcceleration := Function.update st.2.mExternalAcceleration i
        { st.2.mExternalAcceleration i with angular := worldAccel } })

/-- The block `if (flag & eLINK_TORQUE)` of `applyCacheToDest` (lines 381-402). -/
def applyLinkTorqueBlock (cache : PxArticulationCache) (flag : PxArticulationCacheFlags)
    (s : ApplyCacheState) : ApplyCacheState :=
  if PxArticulationCacheFlag.eLINK_TORQUE ∈ flag then
    let linkCount := s.art.mArticulationData.linkCount
    let r := forUp 0 linkCount (applyLinkTorqueBody cache)
      (s.localShouldWake, s.art.mArticulationData)
    { s with
      localShouldWake := r.1
      art := { s.art with
        mArticulationData := r.2
        mGPUDirtyFlags := ArticulationDirtyFlag.eDIRTY_EXT_ACCEL :: s.art.mGPUDirtyFlags } }
  else s

/-- The flag blocks of `applyCacheToDest` in source order (lines 292-402). -/
def applyCacheBlocks (cx : CacheExternals) (cache : PxArticulationCache)
    (flag : PxArticulationCacheFlags) (s : ApplyCacheState) : ApplyCacheState :=
  let s := applyVelocityBlock cache flag s
  let s := applyRootTransformBlock cache flag s
  let s := applyRootVelocitiesBlock cache flag s
  let s := applyPositionBlock cx cache flag s
  let s := applyForceBlock cache flag s
  let s := applyJointTargetPositionsBlock cache flag s
  let s := applyJointTargetVelocitiesBlock cache flag s
  let s := applyLinkForceBlock cache flag s
  applyLinkTorqueBlock cache flag s

/-- The tail of `applyCacheToDest` (lines 404-420): `jcalc` when the joint frames are dirty,
`teleportLinks` and `computeLinkVelocities` under their flag tests. -/
def applyCacheTail (cx : CacheExternals) (flag : PxArticulationCacheFlags)
    (art : FeatherstoneArticulation) : FeatherstoneArticulation :=
  let art :=
    if art.mJcalcDirty then { art with mArticulationData := cx.jcalc art.mArticulationData }
    else art
  let art := { art with mJcalcDirty := false }
  let art :=
    if PxArticulationCacheFlag.ePOSITION ∈ flag ∨ PxArticulationCacheFlag.eROOT_TRANSFORM ∈ flag
    then { art with mArticulationData := cx.teleportLinks art.mArticulationData }
    else art
  if PxArticulationCacheFlag.eVELOCITY ∈ flag ∨ PxArticulationCacheFlag.ePOSITION ∈ flag ∨
      PxArticulationCacheFlag.eROOT_VELOCITIES ∈ flag ∨
      PxArticulationCacheFlag.eROOT_TRANSFORM ∈ flag
  then { art with mArticulationData := cx.computeLinkVelocities art.mArticulationData }
  else art

/-- The function `FeatherstoneArticulation::applyCacheToDest` (lines 285-423); `data` is the
articulation's own `mArticulationData`. -/
def applyCacheToDest (cx : CacheExternals) (art : FeatherstoneArticulation)
    (cache : PxArticulationCache) (dest : CacheDest) (flag : PxArticulationCacheFlags) :
    ApplyCacheResult :=
  let needsScheduling := art.mGPUDirtyFlags.isEmpty
  let s := applyCacheBlocks cx cache flag { localShouldWake := false, dest := dest, art := art }
  { art := applyCacheTail cx flag s.art
    dest := s.dest
    shouldWake := s.localShouldWake
    needsScheduling := needsScheduling }

/-- Identity collaborators for `applyCacheToDest`, used to instantiate theorems. -/
def idCacheExternals : CacheExternals :=
  { copyJointData := fun data dst src i => if i < data.dofs then src i else dst i
    jcalc := id
    teleportLinks := id
    computeLinkVelocities := id }

/-- The three-link chain as a `FeatherstoneArticulation`. -/
def chainArticulation : FeatherstoneArticulation := { mArticulationData := chainData }

/-- A cache whose joint velocities are `1, 2, 3, ...`. -/
def velocityCache : PxArticulationCache := { jointVelocity := fun i => (i : PxReal) + 1 }

/-! ## Scratch allocator -/

/-- Modelled from the spec: the scratch allocator `PxcScratchAllocator` with
`alloc(bytes) -> pointer` and `free(pointer)`.  Blocks are numbered in allocation order;
`live` lists the blocks allocated and not yet freed, `invalidFree` records a `free` of a
block that was not live. -/
structure PxcScratchAllocator where
  nextId : Nat := 0
  live : List Nat := []
  invalidFree : Bool := false
deriving DecidableEq

/-- The call `allocator->alloc(...)`: a fresh live block. -/
def PxcScratchAllocator.alloc (a : PxcScratchAllocator) : Nat × PxcScratchAllocator :=
  (a.nextId, { a with nextId := a.nextId + 1, live := a.nextId :: a.live })

/-- The call `allocator->free(p)`. -/
def PxcScratchAllocator.free (a : PxcScratchAllocator) (p : Nat) : PxcScratchAllocator :=
  if p ∈ a.live then { a with live := a.live.erase p } else { a with invalidFree := true }

/-! ## The loop-joint solver `getLambda` -/

/-- Modelled from the spec: `Dy::ConstraintWriteback`, the resolved impulse of a constraint. -/
structure ConstraintWriteback where
  linearImpulse : PxVec3 := PxVec3.zero

/-- Modelled from the spec: `Dy::Constraint`; `index` selects the write-back entry. -/
structure Constraint where
  index : Nat := 0

/-- Modelled from the spec: `ArticulationLoopConstraint`: two link indices (or the
sentinel `0x80000000`) and the constraint. -/
structure ArticulationLoopConstraint where
  linkIndex0 : Nat := 0
  linkIndex1 : Nat := 0
  constraint : Constraint := {}

/-- The fields of `PxSolverConstraintDesc` set by `constraintPrep`; `constraint` stands for
the rows written by `ConstraintHelper::setupSolverConstraint`. -/
structure PxSolverConstraintDesc where
  articulationA : Bool := false
  articulationB : Bool := false
  linkIndexA : Nat := 0
  linkIndexB : Nat := 0
  writeback : Nat := 0
  constraint : List PxReal := []

/-- What the constraint-row solver acts on: the articulation and the write-back pool. -/
structure SolverWorld where
  art : FeatherstoneArticulation
  writeBackPool : Nat → ConstraintWriteback := fun _ => {}

/-- The collaborators of `getLambda` defined outside this translation unit. -/
structure LoopSolverExternals where
  computeUnconstrainedVelocities :
    FeatherstoneArticulation → PxReal → PxVec3 → PxReal → FeatherstoneArticulation
  setupSolverConstraint : ArticulationLoopConstraint → PxReal → PxReal → List PxReal
  clearExt1D : PxSolverConstraintDesc → SolverWorld → SolverWorld
  solveExt1D : PxSolverConstraintDesc → Bool → SolverWorld → SolverWorld
  conclude1D : PxSolverConstraintDesc → SolverWorld → SolverWorld
  writeBack1D : PxSolverConstraintDesc → SolverWorld → SolverWorld
  PxcFsFlushVelocity : FeatherstoneArticulation → (Nat → SpatialVectorF) →
    FeatherstoneArticulation × (Nat → SpatialVectorF)
  magnitude : PxVec3 → PxReal
  applyCache : PxArticulationCache → PxArticulationCacheFlags → FeatherstoneArticulation →
    FeatherstoneArticulation
  eALL : PxArticulationCacheFlags
  init : ArticulationData → ArticulationData
  computeLinkVelocities : ArticulationData → ArticulationData
  computeZ : ArticulationData → PxVec3 → ArticulationData
  computeArticulatedSpatialZ : ArticulationData → ArticulationData
  computeLinkAcceleration : ArticulationData → ArticulationData

/-- The constant `PX_MAX_F32`. -/
def PX_MAX_F32 : PxReal := 340282346638528859811704183484516925440

/-- The sentinel link index `0x80000000` of a loop constraint attached to the world. -/
def worldLinkSentinel : Nat := 2147483648

/-- The constant `PxSolverConstraintDesc::RIGID_BODY`. -/
def RIGID_BODY : Nat := 255

/-- The descriptor built by `constraintPrep` (lines 1452-1544) for loop constraint `a`. -/
def constraintPrepDesc (sx : LoopSolverExternals) (dt invDt : PxReal)
    (lConstraint : ArticulationLoopConstraint) : PxSolverConstraintDesc :=
  let rows := sx.setupSolverConstraint lConstraint dt invDt
  let writeback := lConstraint.constraint.index
  if lConstraint.linkIndex0 ≠ worldLinkSentinel ∧ lConstraint.linkIndex1 ≠ worldLinkSentinel then
    { articulationA := true, articulationB := true
      linkIndexA := lConstraint.linkIndex0 % 256, linkIndexB := lConstraint.linkIndex1 % 256
      writeback := writeback, constraint := rows }
  else if lConstraint.linkIndex0 = worldLinkSentinel then
    { articulationA := false, articulationB := true
      linkIndexA := RIGID_BODY, linkIndexB := lConstraint.linkIndex1 % 256
      writeback := writeback, constraint := rows }
  else
    { articulationA := true, articulationB := false
      linkIndexA := lConstraint.linkIndex0 % 256, linkIndexB := RIGID_BODY
      writeback := writeback, constraint := rows }

/-- The function `FeatherstoneArticulation::constraintPrep` (lines 1444-1546): descriptor
`a` is written for every `a < nbJoints`. -/
def constraintPrep (sx : LoopSolverExternals) (dt invDt : PxReal)
    (lConstraints : Nat → ArticulationLoopConstraint) (nbJoints : Nat)
    (descs : Nat → PxSolverConstraintDesc) : Nat → PxSolverConstraintDesc :=
  forUp 0 nbJoints (fun a d => Function.update d a (constraintPrepDesc sx dt invDt (lConstraints a)))
    descs

/-- The state threaded through the iterations of `getLambda`. -/
structure LambdaState where
  world : SolverWorld
  cache : PxArticulationCache
  deltaV : Nat → SpatialVectorF := fun _ => SpatialVectorF.Zero
  previousLambdas : Nat → PxReal := fun _ => 0
  found : Bool := true

/-- The solver part of one iteration of `getLambda` (lines 1718-1742). -/
def getLambdaSolve (sx : LoopSolverExternals) (desc : Nat → PxSolverConstraintDesc)
    (nbJoints : Nat) (st : LambdaState) : LambdaState :=
  let w1 := forUp 0 nbJoints (fun i w => sx.clearExt1D (desc i) w) st.world
  let w2 := forUp 0 4 (fun _ w => forUp 0 nbJoints (fun i w => sx.solveExt1D (desc i) true w) w) w1
  let w3 := forUp 0 nbJoints (fun i w => sx.conclude1D (desc i) w) w2
  let flushed := sx.PxcFsFlushVelocity w3.art st.deltaV
  let w4 : SolverWorld := { w3 with art := flushed.1 }
  let w5 := forUp 0 nbJoints
    (fun i w => sx.writeBack1D (desc i) (sx.solveExt1D (desc i) true w)) w4
  { st with world := w5, deltaV := flushed.2 }

/-- The body of the multiplier extraction loop (lines 1747-1759).  The constraint read is
`lConstraints->constraint`, i.e. that of entry `0`, for every `i`. -/
def getLambdaExtractStep (sx : LoopSolverExternals)
    (lConstraints : Nat → ArticulationLoopConstraint) (dt invDt : PxReal) (i : Nat)
    (st : LambdaState) : LambdaState :=
  let eps : PxReal := 1 / 100000
  let constraint := (lConstraints 0).constraint
  let solverOutput := st.world.writeBackPool constraint.index
  let linearForce := solverOutput.linearImpulse.scale invDt
  let lambda_i := sx.magnitude linearForce * dt
  let dif := |st.previousLambdas i - lambda_i|
  { st with
    cache := { st.cache with lambda := Function.update st.cache.lambda i lambda_i }
    found := if dif > eps then false else st.found
    previousLambdas := Function.update st.previousLambdas i lambda_i }

/-- The multiplier extraction and convergence test of one iteration (lines 1744-1760). -/
def getLambdaExtract (sx : LoopSolverExternals)
    (lConstraints : Nat → ArticulationLoopConstraint) (nbJoints : Nat) (dt invDt : PxReal)
    (st : LambdaState) : LambdaState :=
  forUp 0 nbJoints (getLambdaExtractStep sx lConstraints dt invDt) st

/-- The residual joint force of one iteration (lines 1766-1786):
`jf3 = jointTorque - J * lambda`. -/
def getLambdaResidual (nbJoints totalDofs : Nat) (jointTorque : Nat → PxReal)
    (cache : PxArticulationCache) : PxArticulationCache :=
  let J := cache.coefficientMatrix
  let jf0 := memZero (0 : PxReal) totalDofs cache.jointForce
  let jf1 := forUp 0 nbJoints (fun colInd jf =>
    forUp 0 totalDofs (fun j (jf : Nat → PxReal) =>
      Function.update jf j (jf j + J (colInd * totalDofs + j) * cache.lambda colInd)) jf) jf0
  let jf2 := forUp 0 totalDofs (fun j (jf : Nat → PxReal) =>
    Function.update jf j (jointTorque j - jf j)) jf1
  { cache with jointForce := jf2 }

/-- The tail of a non-converged iteration of `getLambda` (lines 1765-1838). -/
def getLambdaUpdate (sx : LoopSolverExternals) (nbJoints totalDofs linkCount : Nat)
    (initialState : PxArticulationCache) (jointTorque : Nat → PxReal) (gravity : PxVec3)
    (st : LambdaState) : LambdaState :=
  let cache := getLambdaResidual nbJoints totalDofs jointTorque st.cache
  let art1 := sx.applyCache initialState sx.eALL st.world.art
  let art2 := sx.applyCache cache [PxArticulationCacheFlag.eFORCE] art1
  let d1 := sx.init art2.mArticulationData
  let d2 := sx.computeLinkVelocities d1
  let d3 := sx.computeZ d2 gravity
  let d4 := sx.computeArticulatedSpatialZ d3
  let d5 := sx.computeLinkAcceleration d4
  let d6 := { d5 with mSpatialZAVectors := memZero SpatialVectorF.Zero linkCount d5.mSpatialZAVectors }
  { st with cache := cache, world := { st.world with art := { art2 with mArticulationData := d6 } } }

/-- The iteration loop of `getLambda` (lines 1715-1839) with `remaining` iterations left:
`found` is reset, the solver and the convergence test run, and the loop is left on `found`. -/
def getLambdaLoop (sx : LoopSolverExternals) (desc : Nat → PxSolverConstraintDesc)
    (lConstraints : Nat → ArticulationLoopConstraint) (nbJoints totalDofs linkCount : Nat)
    (dt invDt : PxReal) (initialState : PxArticulationCache) (jointTorque : Nat → PxReal)
    (gravity : PxVec3) : Nat → LambdaState → LambdaState
  | 0, st => st
  | remaining + 1, st =>
    let st1 := getLambdaSolve sx desc nbJoints { st with found := true }
    let st2 := getLambdaExtract sx lConstraints nbJoints dt invDt st1
    if st2.found then st2
    else getLambdaLoop sx desc lConstraints nbJoints totalDofs linkCount dt invDt initialState
      jointTorque gravity remaining
      (getLambdaUpdate sx nbJoints totalDofs linkCount initialState jointTorque gravity st2)

/-- What `getLambda` leaves behind: the returned `found`, the articulation, the cache, the
write-back pool and the scratch allocator. -/
structure LambdaResult where
  found : Bool
  art : FeatherstoneArticulation
  cache : PxArticulationCache
  writeBackPool : Nat → ConstraintWriteback
  allocator : PxcScratchAllocator

/-- The state of `getLambda` when its iteration loop is entered (lines 1665-1713): the
unconstrained velocities are computed, `previousLambdas[i] = PX_MAX_F32` for `i < nbJoints`,
`found = true`.  The scratch blocks are taken zero-filled when allocated. -/
def getLambdaInitialState (sx : LoopSolverExternals) (world : SolverWorld) (nbJoints : Nat)
    (cache : PxArticulationCache) (gravity : PxVec3) (invLengthScale : PxReal) : LambdaState :=
  { world :=
      { world with
        art := sx.computeUnconstrainedVelocities world.art world.art.mArticulationData.dt gravity
          invLengthScale }
    cache := cache
    deltaV := fun _ => SpatialVectorF.Zero
    previousLambdas := forUp 0 nbJoints (fun i (p : Nat → PxReal) =>
      Function.update p i PX_MAX_F32) (fun _ => 0)
    found := true }

/-- The function `FeatherstoneArticulation::getLambda` (lines 1651-1853). -/
def getLambda (sx : LoopSolverExternals) (world : SolverWorld) (allocator : PxcScratchAllocator)
    (lConstraints : Nat → ArticulationLoopConstraint) (nbJoints : Nat)
    (cache initialState : PxArticulationCache) (jointTorque : Nat → PxReal) (gravity : PxVec3)
    (maxIter : Nat) (invLengthScale : PxReal) : LambdaResult :=
  let dt := world.art.mArticulationData.dt
  let invDt := 1 / dt
  let totalDofs := world.art.mArticulationData.dofs
  let linkCount := world.art.mArticulationData.linkCount
  let a1 := allocator.alloc
  let a2 := a1.2.alloc
  let a3 := a2.2.alloc
  let a4 := a3.2.alloc
  let deltaV := a1.1
  let previousLambdasBlock := a2.1
  let descBlock := a3.1
  let constraintDescs := a4.1
  let st0 := getLambdaInitialState sx world nbJoints cache gravity invLengthScale
  let desc := constraintPrep sx dt invDt lConstraints nbJoints (fun _ => {})
  let st := getLambdaLoop sx desc lConstraints nbJoints totalDofs linkCount dt invDt initialState
    jointTorque gravity maxIter st0
  let f1 := a4.2.free constraintDescs
  let f2 := f1.free previousLambdasBlock
  let f3 := f2.free deltaV
  let f4 := f3.free descBlock
  { found := st.found
    art := sx.applyCache initialState sx.eALL st.world.art
    cache := st.cache
    writeBackPool := st.world.writeBackPool
    allocator := f4 }

/-- Modelled from the spec: `applyCache(cache, flag, shouldWake)`, which is not in this
translation unit: applying a cache is `applyCacheToDest` with the articulation's own joint
buffers as the five destinations. -/
def applyCacheModel (cx : CacheExternals) (cache : PxArticulationCache)
    (flag : PxArticulationCacheFlags) (art : FeatherstoneArticulation) :
    FeatherstoneArticulation :=
  let r := applyCacheToDest cx art cache
    { jVelocities := art.mArticulationData.mJointVelocity
      jPositions := art.mArticulationData.mJointPosition
      jointForces := art.mArticulationData.mJointForce
      jointTargetPositions := art.mArticulationData.mJointTargetPositions
      jointTargetVelocities := art.mArticulationData.mJointTargetVelocities } flag
  { r.art with
    mArticulationData :=
      { r.art.mArticulationData with
        mJointVelocity := r.dest.jVelocities
        mJointPosition := r.dest.jPositions
        mJointForce := r.dest.jointForces
        mJointTargetPositions := r.dest.jointTargetPositions
        mJointTargetVelocities := r.dest.jointTargetVelocities } }

/-- A concrete set of solver collaborators: the constraint solver writes the impulse
`(3, 4, 0)` into every write-back entry it is asked to write, the magnitude of a vector is
taken as the sum of the absolute values of its components (in place of the Euclidean norm),
and a cache is applied by `applyCacheModel`. -/
def sampleSolver : LoopSolverExternals :=
  { computeUnconstrainedVelocities := fun art _ _ _ => art
    setupSolverConstraint := fun _ _ _ => []
    clearExt1D := fun _ w => w
    solveExt1D := fun _ _ w => w
    conclude1D := fun _ w => w
    writeBack1D := fun d w =>
      { w with writeBackPool := Function.update w.writeBackPool d.writeback ⟨⟨3, 4, 0⟩⟩ }
    PxcFsFlushVelocity := fun art dv => (art, dv)
    magnitude := fun v => |v.x| + |v.y| + |v.z|
    applyCache := applyCacheModel idCacheExternals
    eALL := [PxArticulationCacheFlag.eVELOCITY, PxArticulationCacheFlag.ePOSITION,
      PxArticulationCacheFlag.eROOT_TRANSFORM, PxArticulationCacheFlag.eROOT_VELOCITIES]
    init := id
    computeLinkVelocities := id
    computeZ := fun d _ => d
    computeArticulatedSpatialZ := id
    computeLinkAcceleration := id }

/-! ## Impulse response -/

/-- The kernels `propagateImpulseW` and `propagateVelocityW` are defined outside this
translation unit; they are parameters.  A pointer argument `&a[jointOffset]` is passed as the
view `fun k => a (jointOffset + k)`; the null arguments of the call sites are dropped.
`propagateVelocityW` returns the propagated velocity and the joint-velocity buffer it was
handed, updated. -/
structure ImpulseExternals where
  propagateImpulseW : PxVec3 → SpatialVectorF → (Nat → SpatialVectorF) →
    (Nat → SpatialVectorF) → Nat → SpatialVectorF
  propagateVelocityW : PxVec3 → SpatialVectorF → SpatialMatrix → SpatialVectorF → InvStIs →
    (Nat → SpatialVectorF) → Nat → (Nat → PxReal) → SpatialVectorF × (Nat → PxReal)

/-- The view `&a[off]` of a buffer. -/
def offsetView {α : Type} (a : Nat → α) (off : Nat) : Nat → α := fun k => a (off + k)

/-- Storing back through the view `&a[off]`. -/
def storeView {α : Type} (a : Nat → α) (off : Nat) (view : Nat → α) : Nat → α :=
  fun i => if off ≤ i then view (i - off) else a i

/-- A loop `for (i = start; i != target; i = parent[i]) s = step i s`, cut off after `fuel`
iterations (`none` when the fuel does not suffice). -/
def walkUp {σ : Type} (parent : Nat → Nat) (step : Nat → σ → σ) (target : Nat) :
    Nat → Nat → σ → Option σ
  | 0, i, s => if i = target then some s else none
  | fuel + 1, i, s =>
    if i = target then some s else walkUp parent step target fuel (parent i) (step i s)

/-- The loop `for (index = hi; (index--) > lo;) s = body index s`: `body` runs on
`hi - 1, hi - 2, ..., lo`. -/
def forDownRange {σ : Type} (lo : Nat) (body : Nat → σ → σ) : Nat → σ → σ
  | 0, s => s
  | hi + 1, s => if lo ≤ hi then forDownRange lo body hi (body hi s) else s

/-- The common-path search of `getImpulseResponseSlowInv` (lines 1055-1061), cut off after
`fuel` iterations. -/
def findCommon (parent : Nat → Nat) : Nat → Nat → Nat → Option Nat
  | 0, i0, i1 => if i0 = i1 then some i0 else none
  | fuel + 1, i0, i1 =>
    if i0 = i1 then some i0
    else if i0 < i1 then findCommon parent fuel i0 (parent i1)
    else findCommon parent fuel (parent i0) i1

/-- The variables of `getImpulseResponseSlowInv` that its loops update. -/
structure SlowInvState where
  Z : Nat → SpatialVectorF
  stack : Nat → Nat := fun _ => 0
  top : Nat := 0
  Zacc : SpatialVectorF := SpatialVectorF.Zero
  pushes : List Nat := []

/-- One step of the branch loops (lines 1074-1082 and 1087-1095) at link `linkID`: propagate
the running impulse `Zacc`, store it at the parent, push the link. -/
def slowInvBranchStep (ix : ImpulseExternals) (data : ArticulationData) (linkID : Nat)
    (st : SlowInvState) : SlowInvState :=
  let jointOffset := (data.jointData linkID).jointOffset
  let dofCount := (data.jointData linkID).nbDof
  let Zn := ix.propagateImpulseW (data.rw linkID) st.Zacc
    (offsetView data.mISInvStIS jointOffset) (offsetView data.mWorldMotionMatrix jointOffset)
    dofCount
  { st with
    Zacc := Zn
    Z := Function.update st.Z (data.links linkID).parent Zn
    stack := Function.update st.stack st.top linkID
    top := st.top + 1
    pushes := st.pushes ++ [linkID] }

/-- One step of the common-to-root loop (lines 1104-1111) at link `common`; the motion matrix
handed to `propagateImpulseW` is `data.getMotionMatrix(jointOffset)`. -/
def slowInvRootStep (ix : ImpulseExternals) (data : ArticulationData) (common : Nat)
    (st : SlowInvState) : SlowInvState :=
  let jointOffset := (data.jointData common).jointOffset
  let dofCount := (data.jointData common).nbDof
  { st with
    Z := Function.update st.Z (data.links common).parent
      (ix.propagateImpulseW (data.rw common) (st.Z common)
        (offsetView data.mISInvStIS jointOffset) (offsetView data.mMotionMatrix jointOffset)
        dofCount)
    stack := Function.update st.stack st.top common
    top := st.top + 1
    pushes := st.pushes ++ [common] }

/-- The velocity at the root from which `getImpulseResponseSlowInv` starts its outward
propagation (lines 1114-1119), together with the buffer `Z` after the fixed-base overwrite. -/
def slowInvRootVelocity (data : ArticulationData) (Z : Nat → SpatialVectorF) :
    (Nat → SpatialVectorF) × SpatialVectorF :=
  let Z1 := if data.fixBase then Function.update Z 0 ⟨PxVec3.zero, PxVec3.zero⟩ else Z
  (Z1, data.mBaseInvSpatialArticulatedInertiaW.mulVec (Z1 0).neg)

/-- One call of `propagateVelocityW` as made by the outward loops of
`getImpulseResponseSlowInv`, for the stack entry `id` with parent velocity `pv`. -/
def slowInvPropagate (ix : ImpulseExternals) (data : ArticulationData)
    (Z : Nat → SpatialVectorF) (id : Nat) (pv : SpatialVectorF) (jointVelocities : Nat → PxReal) :
    SpatialVectorF × (Nat → PxReal) :=
  let jointOffset := (data.jointData id).jointOffset
  let dofCount := (data.jointData id).nbDof
  ix.propagateVelocityW (data.rw id) pv (data.mWorldSpatialArticulatedInertia id) (Z id)
    (data.mInvStIs id) (offsetView data.mWorldMotionMatrix jointOffset) dofCount jointVelocities

/-- What `getImpulseResponseSlowInv` leaves behind. -/
structure SlowInvResult where
  deltaV0 : SpatialVector
  deltaV1 : SpatialVector
  Z : Nat → SpatialVectorF
  jointVelocities : Nat → PxReal
  common : Nat
  i0 : Nat
  i1 : Nat
  ic : Nat
  stack : Nat → Nat
  pushes : List Nat
  v : SpatialVectorF

/-- The function `FeatherstoneArticulation::getImpulseResponseSlowInv` (lines 1031-1166).
The three parent walks are cut off after `fuel` iterations each; `getWorldIsInvD` is the
accessor of `mISInvStIS`. -/
def getImpulseResponseSlowInv (ix : ImpulseExternals) (data : ArticulationData) (fuel : Nat)
    (linkID0 : Nat) (impulse0 : SpatialVector) (linkID1 : Nat) (impulse1 : SpatialVector)
    (jointVelocities : Nat → PxReal) (Z : Nat → SpatialVectorF) : Option SlowInvResult :=
  let parent := fun i => (data.links i).parent
  (findCommon parent fuel linkID0 linkID1).bind fun common =>
  let Z0 : SpatialVectorF := ⟨impulse0.linear.neg, impulse0.angular.neg⟩
  let Z1 : SpatialVectorF := ⟨impulse1.linear.neg, impulse1.angular.neg⟩
  let Za := Function.update (Function.update Z linkID0 Z0) linkID1 Z1
  (walkUp parent (slowInvBranchStep ix data) common fuel linkID0
      { Z := Za, Zacc := Z0 }).bind fun s0 =>
  let i0 := s0.top
  (walkUp parent (slowInvBranchStep ix data) common fuel linkID1
      { s0 with Zacc := Z1 }).bind fun s1 =>
  let i1 := s1.top
  let ZZ := s0.Zacc.add s1.Zacc
  (walkUp parent (slowInvRootStep ix data) 0 fuel common
      { s1 with Z := Function.update s1.Z common ZZ }).bind fun s2 =>
  let ic := s2.top
  let root := slowInvRootVelocity data s2.Z
  let Zf := root.1
  let r := forDownRange i1 (fun index (st : SpatialVectorF × (Nat → PxReal)) =>
    slowInvPropagate ix data Zf (s2.stack index) st.1 st.2) ic (root.2, jointVelocities)
  let v := r.1
  let r1 := forDownRange i0 (fun index (st : SpatialVectorF × (Nat → PxReal)) =>
    slowInvPropagate ix data Zf (s2.stack index) v st.2) i1 (v, r.2)
  let r0 := forDownRange 0 (fun index (st : SpatialVectorF × (Nat → PxReal)) =>
    slowInvPropagate ix data Zf (s2.stack index) v st.2) i0 (v, r1.2)
  some
    { deltaV0 := { linear := r0.1.bottom, angular := r0.1.top }
      deltaV1 := { linear := r1.1.bottom, angular := r1.1.top }
      Z := Zf
      jointVelocities := r0.2
      common := common
      i0 := i0
      i1 := i1
      ic := ic
      stack := s2.stack
      pushes := s2.pushes
      v := v }

/-- The inward step of `getImpulseResponseInv` (lines 1263-1271) at link `i`. -/
def impulseInwardStep (ix : ImpulseExternals) (data : ArticulationData) (i : Nat)
    (Z : Nat → SpatialVectorF) : Nat → SpatialVectorF :=
  let jointOffset := (data.jointData i).jointOffset
  let dofCount := (data.jointData i).nbDof
  Function.update Z (data.links i).parent
    (ix.propagateImpulseW (data.rw i) (Z i) (offsetView data.mISInvStIS jointOffset)
      (offsetView data.mWorldMotionMatrix jointOffset) dofCount)

/-- The velocity change of the root link from which `getImpulseResponseInv` starts its
outward propagation (lines 1274-1277). -/
def impulseRootDeltaV (fixBase : Bool) (data : ArticulationData) (Z : Nat → SpatialVectorF) :
    SpatialVectorF :=
  let deltaV : SpatialVectorF := ⟨PxVec3.zero, PxVec3.zero⟩
  if !fixBase then data.mBaseInvSpatialArticulatedInertiaW.mulVec (Z 0).neg else deltaV

/-- The outward loop of `getImpulseResponseInv` (lines 1279-1297) along the cached
root-to-link path of `linkID`. -/
def impulseOutward (ix : ImpulseExternals) (data : ArticulationData) (linkID : Nat)
    (Z : Nat → SpatialVectorF) (st : SpatialVectorF × (Nat → PxReal)) :
    SpatialVectorF × (Nat → PxReal) :=
  let startIndex := (data.links linkID).mPathToRootStartIndex
  let numElems := (data.links linkID).mPathToRootCount
  forUp 0 numElems (fun i (st : SpatialVectorF × (Nat → PxReal)) =>
    let index := data.mPathToRootElements (startIndex + i)
    let tJointDatum := data.jointData index
    let r := ix.propagateVelocityW (data.rw index) st.1
      (data.mWorldSpatialArticulatedInertia index) (Z index) (data.mInvStIs index)
      (offsetView data.mWorldMotionMatrix tJointDatum.jointOffset) tJointDatum.nbDof
      (offsetView st.2 tJointDatum.jointOffset)
    (r.1, storeView st.2 tJointDatum.jointOffset r.2)) st

/-- What the single-link impulse responses leave behind: the returned velocity change, the
buffer `Z` and the joint velocities. -/
structure ImpulseResponse where
  deltaV : SpatialVectorF
  Z : Nat → SpatialVectorF
  jointVelocities : Nat → PxReal

/-- The function `FeatherstoneArticulation::getImpulseResponseInv` (lines 1238-1301); the
parent walk is cut off after `fuel` iterations. -/
def getImpulseResponseInv (ix : ImpulseExternals) (data : ArticulationData) (fuel : Nat)
    (fixBase : Bool) (linkID : Nat) (Z : Nat → SpatialVectorF) (impulse : SpatialVector)
    (jointVelocities : Nat → PxReal) : Option ImpulseResponse :=
  let parent := fun i => (data.links i).parent
  let Z0 := Function.update (memZero SpatialVectorF.Zero data.linkCount Z) linkID
    ⟨impulse.linear.neg, impulse.angular.neg⟩
  (walkUp parent (impulseInwardStep ix data) 0 fuel linkID Z0).map fun Z1 =>
  let r := impulseOutward ix data linkID Z1 (impulseRootDeltaV fixBase data Z1, jointVelocities)
  { deltaV := r.1, Z := Z1, jointVelocities := r.2 }

/-- Modelled from the spec: `getImpulseResponseWithJ`, which is not in this translation
unit: the single-branch impulse response of `getImpulseResponseInv` (inward propagation to
the root, root solve or zero for a fixed base, outward propagation along the cached path)
for an impulse given as a spatial vector, `Z[linkID] = -impulse`. -/
def getImpulseResponseWithJ (ix : ImpulseExternals) (data : ArticulationData) (fuel : Nat)
    (linkID : Nat) (fixBase : Bool) (Z : Nat → SpatialVectorF) (impulse : SpatialVectorF)
    (jointVelocities : Nat → PxReal) : Option ImpulseResponse :=
  let parent := fun i => (data.links i).parent
  let Z0 := Function.update (memZero SpatialVectorF.Zero data.linkCount Z) linkID impulse.neg
  (walkUp parent (impulseInwardStep ix data) 0 fuel linkID Z0).map fun Z1 =>
  let r := impulseOutward ix data linkID Z1 (impulseRootDeltaV fixBase data Z1, jointVelocities)
  { deltaV := r.1, Z := Z1, jointVelocities := r.2 }

/-- What `getImpulseSelfResponseInv` leaves behind. -/
structure SelfResponse where
  deltaV0 : SpatialVector
  deltaV1 : SpatialVector
  Z : Nat → SpatialVectorF
  jointVelocities : Nat → PxReal

/-- The parent-child branch of `getImpulseSelfResponseInv` (lines 1184-1231), taken when
`links[linkID1].parent == linkID0`. -/
def getImpulseSelfResponseInvParentChild (ix : ImpulseExternals) (data : ArticulationData)
    (fuel : Nat) (fixBase : Bool) (linkID0 linkID1 : Nat) (Z : Nat → SpatialVectorF)
    (impulse0 impulse1 : SpatialVector) (jointVelocities : Nat → PxReal) :
    Option SelfResponse :=
  let pImpulse : SpatialVectorF := ⟨impulse0.linear, impulse0.angular⟩
  let jointOffset := (data.jointData linkID1).jointOffset
  let dofCount := (data.jointData linkID1).nbDof
  let Z1 : SpatialVectorF := ⟨impulse1.linear.neg, impulse1.angular.neg⟩
  let Z0 := ix.propagateImpulseW (data.rw linkID1) Z1 (offsetView data.mISInvStIS jointOffset)
    (offsetView data.mWorldMotionMatrix jointOffset) dofCount
  let impulseDif := pImpulse.sub Z0
  (getImpulseResponseWithJ ix data fuel linkID0 fixBase Z impulseDif jointVelocities).map
    fun resp =>
  let delV0 := resp.deltaV
  let r := ix.propagateVelocityW (data.rw linkID1) delV0
    (data.mWorldSpatialArticulatedInertia linkID1) Z1 (data.mInvStIs linkID1)
    (offsetView data.mWorldMotionMatrix jointOffset) dofCount resp.jointVelocities
  { deltaV0 := { linear := delV0.bottom, angular := delV0.top }
    deltaV1 := { linear := r.1.bottom, angular := r.1.top }
    Z := resp.Z
    jointVelocities := r.2 }

/-- The function `FeatherstoneArticulation::getImpulseSelfResponseInv` (lines 1168-1236). -/
def getImpulseSelfResponseInv (ix : ImpulseExternals) (data : ArticulationData) (fuel : Nat)
    (fixBase : Bool) (linkID0 linkID1 : Nat) (Z : Nat → SpatialVectorF)
    (impulse0 impulse1 : SpatialVector) (jointVelocities : Nat → PxReal) :
    Option SelfResponse :=
  if (data.links linkID1).parent = linkID0 then
    getImpulseSelfResponseInvParentChild ix data fuel fixBase linkID0 linkID1 Z impulse0 impulse1
      jointVelocities
  else
    (getImpulseResponseSlowInv ix data fuel linkID0 impulse0 linkID1 impulse1 jointVelocities
      Z).map fun r =>
    { deltaV0 := r.deltaV0, deltaV1 := r.deltaV1, Z := r.Z, jointVelocities := r.jointVelocities }

/-- A concrete pair of propagation kernels in the articulated-body form: the impulse is
reduced by its component along each joint axis and translated to the parent; the velocity is
translated to the child and the joint response `-(S^T I S)^-1 S^T (I v + Z)` is added. -/
def sampleKernels : ImpulseExternals :=
  { propagateImpulseW := fun rw Y isInvD motion dofCount =>
      translateSpatialVector rw
        (forUp 0 dofCount (fun k acc => acc.add ((isInvD k).scale (-((motion k).innerProduct Y)))) Y)
    propagateVelocityW := fun rw pv inertia Z invStIs motion dofCount jointVelocities =>
      let tv := translateSpatialVector rw.neg pv
      let rhs := (inertia.mulVec tv).add Z
      let jd : Nat → PxReal := fun k =>
        forUp 0 dofCount (fun j acc => acc + invStIs.invStIs k j * (-((motion j).innerProduct rhs))) 0
      (forUp 0 dofCount (fun k acc => acc.add ((motion k).scale (jd k))) tv,
       forUp 0 dofCount (fun k (jv : Nat → PxReal) => Function.update jv k (jv k + jd k))
         jointVelocities) }

/-- The three-link chain with a floating base: the cached root-to-link path of link `i` is
`1, ..., i`, the body-frame motion matrix (a rotation about `x`) differs from the
world-frame one (a rotation about `z`). -/
def floatingChainData : ArticulationData :=
  { chainData with
    fixBase := false
    links := fun i =>
      { parent := i - 1, bodyCore := { inverseMass := 1 / 2 }
        mPathToRootStartIndex := 0, mPathToRootCount := i }
    mPathToRootElements := fun k => k + 1
    mMotionMatrix := fun _ => ⟨⟨1, 0, 0⟩, ⟨0, 0, 0⟩⟩
    mISInvStIS := fun _ => ⟨⟨0, 1, 0⟩, ⟨1, 0, 1⟩⟩
    mInvStIs := fun _ => { invStIs := fun r c => if r = c then 1 else 0 }
    mBaseInvSpatialArticulatedInertiaW :=
      ⟨PxMat33.zero, PxMat33.createDiagonal ⟨1, 1, 1⟩, PxMat33.createDiagonal ⟨1, 1, 1⟩⟩ }

/-- The floating three-link chain with the body-frame motion matrix set equal to the
world-frame one. -/
def floatingChainAligned : ArticulationData :=
  { floatingChainData with mMotionMatrix := floatingChainData.mWorldMotionMatrix }

/-- The three-link chain whose link 2 has infinite mass and inertia (inverse mass and
inverse inertia zero). -/
def staticLinkChain : ArticulationData :=
  { chainData with
    links := fun i =>
      { parent := i - 1
        bodyCore :=
          if i = 2 then { inverseMass := 0, inverseInertia := ⟨0, 0, 0⟩ }
          else { inverseMass := 1 / 2 } } }

/-- Scratch buffers with non-zero motion accelerations and bias forces. -/
def busyScratch : ScratchData :=
  { motionAccelerations := fun i => ⟨⟨1, i, 0⟩, ⟨0, 2, i⟩⟩
    spatialZAVectors := fun i => ⟨⟨i, 1, 1⟩, ⟨3, 0, i⟩⟩ }

/-! ## Floating-base passes -/

namespace PxMat33

/-- Determinant, `M.getDeterminant()`. -/
def getDeterminant (m : PxMat33) : PxReal := m.column0.dot (m.column1.cross m.column2)

/-- Modelled from the spec: `PxMat33::getInverse()`: the adjugate over the determinant, and
the identity when the determinant is zero. -/
def getInverse (m : PxMat33) : PxMat33 :=
  let det := m.getDeterminant
  if det ≠ 0 then
    let invDet := 1 / det
    ⟨⟨invDet * (m.column1.y * m.column2.z - m.column2.y * m.column1.z),
      invDet * -(m.column0.y * m.column2.z - m.column2.y * m.column0.z),
      invDet * (m.column0.y * m.column1.z - m.column0.z * m.column1.y)⟩,
     ⟨invDet * -(m.column1.x * m.column2.z - m.column1.z * m.column2.x),
      invDet * (m.column0.x * m.column2.z - m.column0.z * m.column2.x),
      invDet * -(m.column0.x * m.column1.z - m.column0.z * m.column1.x)⟩,
     ⟨invDet * (m.column1.x * m.column2.y - m.column1.y * m.column2.x),
      invDet * -(m.column0.x * m.column2.y - m.column0.y * m.column2.x),
      invDet * (m.column0.x * m.column1.y - m.column1.x * m.column0.y)⟩⟩
  else createDiagonal ⟨1, 1, 1⟩

end PxMat33

/-- Modelled from the spec: `SpatialMatrix::invertInertia()`, the inverse of a spatial
inertia by the Schur complement of its (symmetrised) angular block; the result is stored
with the same block convention. -/
def SpatialMatrix.invertInertia (m : SpatialMatrix) : SpatialMatrix :=
  let aa := (m.bottomLeft.add m.bottomLeft.getTranspose).scale (1 / 2)
  let ll := (m.topRight.add m.topRight.getTranspose).scale (1 / 2)
  let la := m.topLeft
  let AAInv := aa.getInverse
  let z := la.neg.mul AAInv
  let S := ll.add (z.mul la.getTranspose)
  let LL := S.getInverse
  let LA := LL.mul z
  let AA := AAInv.add (z.getTranspose.mul LA)
  { topLeft := LA.getTranspose, topRight := AA, bottomLeft := LL }

/-- The body of the loop of `initCompositeSpatialInertia` (lines 150-168): the rigid-body
spatial inertia of link `linkID`. -/
def linkSpatialInertia (data : ArticulationData) (linkID : Nat) : SpatialMatrix :=
  let core := (data.links linkID).bodyCore
  let m := massOf core
  { topLeft := PxMat33.zero
    topRight := PxMat33.createDiagonal ⟨m, m, m⟩
    bottomLeft := transformInertiaTensor (inertiaTensorOf core) core.body2World.q }

/-- The function `FeatherstoneArticulation::initCompositeSpatialInertia` (lines 144-170). -/
def initCompositeSpatialInertia (data : ArticulationData)
    (compositeSpatialInertia : Nat → SpatialMatrix) : Nat → SpatialMatrix :=
  forUp 0 data.linkCount (fun linkID c => Function.update c linkID (linkSpatialInertia data linkID))
    compositeSpatialInertia

/-- The body of the loop of `computeCompositeSpatialInertiaAndZAForceInv` (lines 185-195). -/
def computeCompositeBody (data : ArticulationData) (linkID : Nat) (sd : ScratchData) :
    ScratchData :=
  let link := data.links linkID
  let cSpatialInertia := translateInertia (constructSkewSymmetricMatrix (data.rw linkID))
    (sd.compositeSpatialInertias linkID)
  { sd with
    compositeSpatialInertias := Function.update sd.compositeSpatialInertias link.parent
      ((sd.compositeSpatialInertias link.parent).add cSpatialInertia)
    spatialZAVectors := Function.update sd.spatialZAVectors link.parent
      ((sd.spatialZAVectors link.parent).add
        (translateSpatialVector (data.rw linkID) (sd.spatialZAVectors linkID))) }

/-- The pass `computeCompositeSpatialInertiaAndZAForceInv` (lines 172-197). -/
def computeCompositeSpatialInertiaAndZAForceInv (data : ArticulationData) (sd : ScratchData) :
    ScratchData :=
  forDown (computeCompositeBody data) (u32Sub data.linkCount 1)
    { sd with compositeSpatialInertias := initCompositeSpatialInertia data sd.compositeSpatialInertias }

/-- The body of the link loop of `computeRelativeGeneralizedForceInv` (lines 218-233). -/
def computeRelativeBody (data : ArticulationData) (linkID : Nat) (sd : ScratchData) :
    ScratchData :=
  let link := data.links linkID
  let a := translateSpatialVector (data.rw linkID).neg (sd.motionAccelerations link.parent)
  let motionAccelerations := Function.update sd.motionAccelerations linkID a
  let za := ((sd.compositeSpatialInertias linkID).mulVec a).add (sd.spatialZAVectors linkID)
  { sd with
    motionAccelerations := motionAccelerations
    spatialZAVectors := Function.update sd.spatialZAVectors linkID za
    jointForces := projectJointForces data (data.jointData linkID).jointOffset
      (data.jointData linkID).nbDof za sd.jointForces }

/-- The root step of `computeRelativeGeneralizedForceInv` (lines 206-211). -/
def solveRootAcceleration (coriolisFloatingBase : Bool) (sd : ScratchData) : ScratchData :=
  if !coriolisFloatingBase then
    let invInertia := (sd.compositeSpatialInertias 0).invertInertia
    { sd with
      motionAccelerations := Function.update sd.motionAccelerations 0
        (invInertia.mulVec (sd.spatialZAVectors 0)).neg }
  else sd

/-- The pass `computeRelativeGeneralizedForceInv` (lines 199-235). -/
def computeRelativeGeneralizedForceInv (data : ArticulationData) (sd : ScratchData)
    (coriolisFloatingBase : Bool) : ScratchData :=
  forUp 1 data.linkCount (computeRelativeBody data) (solveRootAcceleration coriolisFloatingBase sd)

/-- Passes 1 and 2 of `inverseDynamicFloatingBase` (lines 261-277). -/
def inverseDynamicFloatingBasePasses12 (ext : ExternalPasses) (data : ArticulationData)
    (gravity : PxVec3) (scratchData : ScratchData) (computeCoriolis : Bool) : ScratchData :=
  let sd1 := ext.computeLinkVelocities data scratchData
  let sd2 :=
    if computeCoriolis then ext.computeC data sd1
    else { sd1 with coriolisVectors := memZero SpatialVectorF.Zero data.linkCount sd1.coriolisVectors }
  let sd3 := ext.computeZ data gravity sd2
  let sd4 := computeLinkAccelerationInv data sd3
  let sd5 := computeZAForceInv data sd4
  computeCompositeSpatialInertiaAndZAForceInv data sd5

/-- The driver `FeatherstoneArticulation::inverseDynamicFloatingBase` (lines 258-282); the
header default of `rootMotion` is passed explicitly by the callers. -/
def inverseDynamicFloatingBase (ext : ExternalPasses) (data : ArticulationData)
    (gravity : PxVec3) (scratchData : ScratchData) (computeCoriolis rootMotion : Bool) :
    ScratchData :=
  let sd6 := inverseDynamicFloatingBasePasses12 ext data gravity scratchData computeCoriolis
  let coriolisFloatingBase := computeCoriolis && rootMotion
  computeRelativeGeneralizedForceInv data sd6 coriolisFloatingBase

/-! ## Derived-quantity drivers -/

/-- What a driver acts on: the articulation data, the cache, the scratch allocator behind
`cache.scratchAllocator`, and the messages passed to `PxGetFoundation().error`. -/
structure DriverWorld where
  data : ArticulationData
  cache : PxArticulationCache := {}
  allocator : PxcScratchAllocator := {}
  errors : List String := []

/-- The precondition failure of a driver: the message is reported and the call returns. -/
def reportDirty (w : DriverWorld) (message : String) : DriverWorld :=
  { w with errors := w.errors ++ [message] }

/-- Modelled from the spec: `allocateScratchSpatialData`, which is not in this translation
unit: one scratch block is allocated and the per-link buffers of the scratch data point into
it (taken zero-filled); the per-DOF pointers are left as they are. -/
def allocateScratchSpatialData (allocator : PxcScratchAllocator) (scratchData : ScratchData) :
    Nat × PxcScratchAllocator × ScratchData :=
  let a := allocator.alloc
  (a.1, a.2,
    { scratchData with
      motionVelocities := fun _ => SpatialVectorF.Zero
      motionAccelerations := fun _ => SpatialVectorF.Zero
      coriolisVectors := fun _ => SpatialVectorF.Zero
      spatialZAVectors := fun _ => SpatialVectorF.Zero
      compositeSpatialInertias := fun _ => ⟨PxMat33.zero, PxMat33.zero, PxMat33.zero⟩ })

/-- The reciprocal `1.0f / x` where the source takes it without a guard: `none` when the
divisor is zero. -/
def uncheckedReciprocal (x : PxReal) : Option PxReal := if x = 0 then none else some (1 / x)

/-- The link loop of `getGeneralizedGravityForce` (lines 565-577): the gravity bias force of
every link, `m * tGravity` with `m = 1.0f / inverseMass`; `none` when a division by zero is
evaluated. -/
def gravityBiasForces (data : ArticulationData) (tGravity : PxVec3)
    (spatialZAForces : Nat → SpatialVectorF) : Option (Nat → SpatialVectorF) :=
  forUp 0 data.linkCount (fun linkID (acc : Option (Nat → SpatialVectorF)) =>
    acc.bind fun z =>
    (uncheckedReciprocal (data.links linkID).bodyCore.inverseMass).map fun m =>
      Function.update z linkID { top := tGravity.scale m, bottom := PxVec3.zero })
    (some spatialZAForces)

/-- The six stores of a root spatial force into the first six entries of a per-DOF buffer
(lines 593-598 and 668-673). -/
def storeRootForce (buf : Nat → PxReal) (za : SpatialVectorF) : Nat → PxReal :=
  Function.update (Function.update (Function.update (Function.update (Function.update
    (Function.update buf 0 za.top.x) 1 za.top.y) 2 za.top.z) 3 za.bottom.x) 4 za.bottom.y)
    5 za.bottom.z

/-- The driver `FeatherstoneArticulation::getGeneralizedGravityForce` (lines 519-631,
without the debug-only blocks); `none` when a division by zero is evaluated. -/
def getGeneralizedGravityForce (ext : ExternalPasses) (w : DriverWorld) (gravity : PxVec3)
    (rootMotion : Bool) : Option DriverWorld :=
  if w.data.dataDirty then
    some (reportDirty w
      "Articulation::getGeneralisedGravityForce() commonInit need to be called first to initialize data!")
  else
    let tGravity := gravity.neg
    let fixBase := w.data.fixBase
    let rootDof := if rootMotion && !fixBase then 6 else 0
    if rootMotion || fixBase then
      let a := w.allocator.alloc
      (gravityBiasForces w.data tGravity (fun _ => SpatialVectorF.Zero)).map
        fun spatialZAForces =>
      let jointForces :=
        if rootMotion then offsetView w.cache.gravityCompensationForce rootDof
        else w.cache.jointForce
      let sd := computeGeneralizedForceInv w.data
        { spatialZAVectors := spatialZAForces, jointForces := jointForces }
      let cache1 :=
        if rootMotion then
          { w.cache with
            gravityCompensationForce :=
              storeView w.cache.gravityCompensationForce rootDof sd.jointForces }
        else { w.cache with jointForce := sd.jointForces }
      let cache2 :=
        if rootDof = 6 then
          { cache1 with
            gravityCompensationForce :=
              storeRootForce cache1.gravityCompensationForce (sd.spatialZAVectors 0) }
        else cache1
      { w with cache := cache2, allocator := a.2.free a.1 }
    else
      let a := allocateScratchSpatialData w.allocator
        { jointVelocities := none, jointAccelerations := none, jointForces := w.cache.jointForce
          externalAccels := none }
      let sd := inverseDynamicFloatingBase ext w.data tGravity a.2.2 false false
      some { w with
        cache := { w.cache with jointForce := sd.jointForces }
        allocator := a.2.1.free a.1 }

/-- The driver `FeatherstoneArticulation::getCoriolisAndCentrifugalForce` (lines 634-677). -/
def getCoriolisAndCentrifugalForce (ext : ExternalPasses) (w : DriverWorld) (rootMotion : Bool) :
    Option DriverWorld :=
  if w.data.dataDirty then
    some (reportDirty w
      "Articulation::getCoriolisAndCentrifugalForce() commonInit need to be called first to initialize data!")
  else
    let fixBase := w.data.fixBase
    let rootDof := if fixBase then 0 else 6
    let jointForces :=
      if rootMotion then offsetView w.cache.coriolisForce rootDof else w.cache.jointForce
    let a := allocateScratchSpatialData w.allocator
      { jointVelocities := some w.cache.jointVelocity, jointAccelerations := none
        externalAccels := none, jointForces := jointForces }
    let sd :=
      if fixBase then inverseDynamic ext w.data PxVec3.zero a.2.2 true
      else inverseDynamicFloatingBase ext w.data PxVec3.zero a.2.2 true rootMotion
    let cache1 :=
      if rootMotion then
        { w.cache with coriolisForce := storeView w.cache.coriolisForce rootDof sd.jointForces }
      else { w.cache with jointForce := sd.jointForces }
    let cache2 :=
      if rootMotion && !fixBase then
        { cache1 with coriolisForce := storeRootForce cache1.coriolisForce (sd.spatialZAVectors 0) }
      else cache1
    some { w with cache := cache2, allocator := a.2.1.free a.1 }

/-- The driver `FeatherstoneArticulation::getGeneralizedExternalForce` (lines 680-728). -/
def getGeneralizedExternalForce (ext : ExternalPasses) (w : DriverWorld) : Option DriverWorld :=
  if w.data.dataDirty then
    some (reportDirty w
      "Articulation::getCoriolisAndCentrifugalForce() commonInit need to be called first to initialize data!")
  else
    let a := allocateScratchSpatialData w.allocator
      { jointVelocities := none, jointAccelerations := none, jointForces := w.cache.jointForce }
    let b := a.2.1.alloc
    let accels := forUp 0 w.data.linkCount (fun i (acc : Nat → SpatialVector) =>
      let core := (w.data.links i).bodyCore
      let force := w.cache.externalForces i
      let inverseInertiaWorldSpace := transformInertiaTensor core.inverseInertia core.body2World.q
      Function.update acc i
        { linear := force.force.scale core.inverseMass
          angular := inverseInertiaWorldSpace.transform force.torque })
      (fun _ => ⟨PxVec3.zero, PxVec3.zero⟩)
    let sd0 := { a.2.2 with externalAccels := some accels }
    let sd :=
      if w.data.fixBase then inverseDynamic ext w.data PxVec3.zero sd0 false
      else inverseDynamicFloatingBase ext w.data PxVec3.zero sd0 false false
    some { w with
      cache := { w.cache with jointForce := sd.jointForces }
      allocator := (b.2.free a.1).free b.1 }

/-- The driver `FeatherstoneArticulation::getJointForce` (lines 731-762). -/
def getJointForce (ext : ExternalPasses) (w : DriverWorld) : Option DriverWorld :=
  if w.data.dataDirty then
    some (reportDirty w
      "ArticulationHelper::getJointForce() commonInit need to be called first to initialize data!")
  else
    let a := allocateScratchSpatialData w.allocator
      { jointVelocities := none, jointAccelerations := some w.cache.jointAcceleration
        jointForces := w.cache.jointForce, externalAccels := none }
    let sd :=
      if w.data.fixBase then inverseDynamic ext w.data PxVec3.zero a.2.2 false
      else inverseDynamicFloatingBase ext w.data PxVec3.zero a.2.2 false false
    some { w with
      cache := { w.cache with jointForce := sd.jointForces }
      allocator := a.2.1.free a.1 }

/-- A two-link fixed-base pendulum: the root, and one link of mass `m` on a revolute joint
about `z`, its centre of mass at `(L c, L s, 0)` from the joint (`c`, `s` the cosine and sine
of the angle from the horizontal); the world motion-matrix column of the joint is
`(axis, axis × r)`. -/
def pendulumData (m L c s : PxReal) : ArticulationData :=
  { linkCount := 2
    dofs := 1
    links := fun i => { parent := 0, bodyCore := { inverseMass := if i = 0 then 1 else 1 / m } }
    jointData := fun i => { jointOffset := 0, nbDof := if i = 0 then 0 else 1 }
    rw := fun _ => ⟨L * c, L * s, 0⟩
    mWorldMotionMatrix := fun _ => ⟨⟨0, 0, 1⟩, ⟨-(L * s), L * c, 0⟩⟩ }

/-! ## Sums used to state the passes -/

/-- The sum `f 0 + ... + f (n - 1)` of spatial vectors, component by component. -/
def spatialSum (n : Nat) (f : Nat → SpatialVectorF) : SpatialVectorF :=
  ⟨⟨∑ k in Finset.range n, (f k).top.x, ∑ k in Finset.range n, (f k).top.y,
    ∑ k in Finset.range n, (f k).top.z⟩,
   ⟨∑ k in Finset.range n, (f k).bottom.x, ∑ k in Finset.range n, (f k).bottom.y,
    ∑ k in Finset.range n, (f k).bottom.z⟩⟩

/-- The joint contribution to a link acceleration: the sum over the DOFs `k < nbDof` of
`worldMotionMatrix[jointOffset + k] * jointAccelerations[jointOffset + k]`, and zero for a
null joint-acceleration buffer. -/
def jointAccelerationTerm (data : ArticulationData) (jointAccelerations : Option (Nat → PxReal))
    (linkID : Nat) : SpatialVectorF :=
  match jointAccelerations with
  | none => SpatialVectorF.Zero
  | some j =>
    spatialSum (data.jointData linkID).nbDof (fun k =>
      (data.mWorldMotionMatrix ((data.jointData linkID).jointOffset + k)).scale
        (j ((data.jointData linkID).jointOffset + k)))

/-! ## The root block of the floating-base mass matrix -/

/-- The index into the stored floats of the root composite inertia that
`calculateHFloatingBase` reads for mass-matrix entry `(row, col)` (lines 2059-2073). -/
def rootInertiaIndex (row col : Nat) : Nat :=
  let rowSpatialInertia := if row < 3 then row else row - 3
  let offset := if row > 2 then 18 else (if col < 3 then 1 else 0) * 9
  let colSpatialInertia := if col < 3 then col else col - 3
  offset + colSpatialInertia * 3 + rowSpatialInertia

/-- The relabelled (right-hand) index table of the comment at lines 2065-2070. -/
def documentedRootTable (row col : Nat) : Nat :=
  (([[9, 12, 15, 0, 3, 6], [10, 23, 16, 1, 4, 7], [11, 24, 17, 2, 5, 8],
    [0, 1, 2, 18, 21, 24], [3, 4, 5, 19, 22, 25], [6, 7, 8, 20, 23, 26]].getD row []).getD col 0)

/-- A second concrete set of solver collaborators: `writeBack1D` writes the impulse
`(k + 1, 0, 0)` into write-back entry `k`, so that different constraints resolve different
impulses; on such axis-aligned vectors the magnitude used here (sum of absolute values)
is the Euclidean norm. -/
def indexedSolver : LoopSolverExternals :=
  { sampleSolver with
    writeBack1D := fun d w =>
      { w with
        writeBackPool := Function.update w.writeBackPool d.writeback
          ⟨⟨(d.writeback : PxReal) + 1, 0, 0⟩⟩ } }

/-- Two loop constraints between links 1 and 2 whose write-back entries are `0` and `1`. -/
def twoLoopConstraints : Nat → ArticulationLoopConstraint :=
  fun i => { linkIndex0 := 1, linkIndex1 := 2, constraint := { index := i } }

/-- Modelled from the spec: `SpatialSubspaceMatrix`, up to six spatial columns. -/
structure SpatialSubspaceMatrix where
  numColumns : Nat := 0
  columns : Nat → SpatialVectorF := fun _ => SpatialVectorF.Zero

/-- The call `T.setColumn(index, top, bottom)`. -/
def SpatialSubspaceMatrix.setColumn (T : SpatialSubspaceMatrix) (index : Nat)
    (top bottom : PxVec3) : SpatialSubspaceMatrix :=
  { T with columns := Function.update T.columns index ⟨top, bottom⟩ }

/-- The prismatic case of `jcalcLoopJointSubspace` (lines 779-827).  `rx`, `ry`, `rz` are the
normalised rotated child axes of lines 783-785 and `jointAxis` is `jointAxis[0]`. -/
def jcalcLoopJointSubspacePrismatic (rx ry rz : PxVec3) (jointAxis : SpatialVectorF)
    (T0 : SpatialSubspaceMatrix) : SpatialSubspaceMatrix :=
  let zero := PxVec3.zero
  let T : SpatialSubspaceMatrix := { T0 with numColumns := 6 }
  if jointAxis.get 3 = 1 then
    (((((T.setColumn 0 rx zero).setColumn 1 ry zero).setColumn 2 rz zero).setColumn 3 zero
      zero).setColumn 4 zero ry).setColumn 5 zero rz
  else if jointAxis.get 4 = 1 then
    (((((T.setColumn 0 rx zero).setColumn 1 ry zero).setColumn 2 rz zero).setColumn 3 zero
      rx).setColumn 4 zero zero).setColumn 5 zero rz
  else if jointAxis.get 5 = 1 then
    (((((T.setColumn 0 rx zero).setColumn 1 ry zero).setColumn 2 rx zero).setColumn 3 zero
      rx).setColumn 4 zero ry).setColumn 5 zero zero
  else T

/-! ## Centroidal momentum matrix -/

/-- The copy loop of `getCentroidalMomentumMatrix` (lines 2267-2274): rows 0..5 of the mass
matrix, for every column below `n = dofCount + 6`. -/
def centroidalCopyRows (n : Nat) (massMatrix : Nat → PxReal) (dst : Nat → PxReal) :
    Nat → PxReal :=
  forUp 0 n (fun col (cmm : Nat → PxReal) =>
    forUp 0 6 (fun row (cmm : Nat → PxReal) =>
      Function.update cmm (col + row * n) (massMatrix (col + row * n))) cmm) dst

/-- The second column loop of `getCentroidalMomentumMatrix` (lines 2283-2294):
`tmp = mat * m` with `m` the first three rows of the column, added to rows 3..5. -/
def centroidalAddRows (n : Nat) (massMatrix : Nat → PxReal) (mat : PxMat33)
    (dst : Nat → PxReal) : Nat → PxReal :=
  forUp 0 n (fun col (cmm : Nat → PxReal) =>
    let m : PxVec3 :=
      ⟨massMatrix (0 * n + col), massMatrix (1 * n + col), massMatrix (2 * n + col)⟩
    let tmp := mat.transform m
    forUp 3 6 (fun row (cmm : Nat → PxReal) =>
      Function.update cmm (col + row * n) (cmm (col + row * n) + tmp.get (row - 3))) cmm) dst

/-- The bias part of `getCentroidalMomentumMatrix` (lines 2296-2306). -/
def centroidalBias (coriolisForce : Nat → PxReal) (mat : PxMat33) (dst : Nat → PxReal) :
    Nat → PxReal :=
  let bias1 := forUp 0 6 (fun row (b : Nat → PxReal) =>
    Function.update b row (coriolisForce row)) dst
  let m : PxVec3 := ⟨coriolisForce 0, coriolisForce 1, coriolisForce 2⟩
  let tmp := mat.transform m
  forUp 3 6 (fun row (b : Nat → PxReal) =>
    Function.update b row (b row + tmp.get (row - 3))) bias1

/-- The driver `FeatherstoneArticulation::getCentroidalMomentumMatrix` (lines 2254-2307).
The division of `PxVec3 / totalMass` multiplies by the unguarded reciprocal
`1.0f / totalMass`; `none` when that division by zero is evaluated.  The buffers
`cache.massMatrix`, `cache.coriolisForce`, `cache.centroidalMomentumMatrix` and
`cache.centroidalMomentumBias` are distinct arrays. -/
def getCentroidalMomentumMatrix (w : DriverWorld) : Option DriverWorld :=
  if w.data.dataDirty then
    some (reportDirty w
      "ArticulationHelper::getCentroidalMomentumMatrix() commonInit need to be called first to initialize data!")
  else
    let dofCount := w.data.dofs
    let cmm1 := centroidalCopyRows (dofCount + 6) w.cache.massMatrix
      w.cache.centroidalMomentumMatrix
    let totalMass := w.cache.massMatrix (2 * (dofCount + 6) + 2)
    (uncheckedReciprocal totalMass).map fun f =>
    let pg := (PxVec3.mk (w.cache.massMatrix (2 * (dofCount + 6) + 4)) (w.cache.massMatrix 5)
      (w.cache.massMatrix ((dofCount + 6) + 3))).scale f
    let mat := constructSkewSymmetricMatrix pg
    let cmm2 := centroidalAddRows (dofCount + 6) w.cache.massMatrix mat cmm1
    let bias := centroidalBias w.cache.coriolisForce mat w.cache.centroidalMomentumBias
    { w with
      cache :=
        { w.cache with centroidalMomentumMatrix := cmm2, centroidalMomentumBias := bias } }

/-- A floating-base mass matrix for one DOF (`n = 7`): entry `k` of the flat array is
`k + 1`, so the total mass `M[2][2]` is `17`; the Coriolis vector is `k ↦ 2 k + 1`. -/
def centroidalSample : DriverWorld :=
  { data := { chainData with dofs := 1, dataDirty := false }
    cache :=
      { massMatrix := fun k => (k : PxReal) + 1
        coriolisForce := fun k => 2 * (k : PxReal) + 1 } }

/-! ## Maximal and reduced joint data -/

/-- One axis of the inner loop of `packJointData` (lines 440-448); the state is
`(count, reduced)`. -/
def packJointBody (data : ArticulationData) (maximum : Nat → PxReal) (linkID j : Nat)
    (st : Nat × (Nat → PxReal)) : Nat × (Nat → PxReal) :=
  if data.inboundJointMotion linkID j ≠ PxArticulationMotion.eLOCKED then
    (st.1 + 1,
      Function.update st.2 ((data.jointData linkID).jointOffset + st.1)
        (maximum ((linkID - 1) * DY_MAX_DOF + j)))
  else st

/-- The routine `FeatherstoneArticulation::packJointData` (lines 425-453): the returned
array is `reduced` after the call. -/
def packJointData (data : ArticulationData) (maximum reduced : Nat → PxReal) : Nat → PxReal :=
  forUp 1 data.linkCount (fun linkID (red : Nat → PxReal) =>
    (forUp 0 DY_MAX_DOF (packJointBody data maximum linkID) (0, red)).2) reduced

/-- One axis of the inner loop of `unpackJointData` (lines 469-481); the state is
`(count, maximum)`. -/
def unpackJointBody (data : ArticulationData) (reduced : Nat → PxReal) (linkID j : Nat)
    (st : Nat × (Nat → PxReal)) : Nat × (Nat → PxReal) :=
  if data.inboundJointMotion linkID j ≠ PxArticulationMotion.eLOCKED then
    (st.1 + 1,
      Function.update st.2 ((linkID - 1) * DY_MAX_DOF + j)
        (reduced ((data.jointData linkID).jointOffset + st.1)))
  else (st.1, Function.update st.2 ((linkID - 1) * DY_MAX_DOF + j) 0)

/-- The routine `FeatherstoneArticulation::unpackJointData` (lines 455-485): the returned
array is `maximum` after the call. -/
def unpackJointData (data : ArticulationData) (reduced maximum : Nat → PxReal) : Nat → PxReal :=
  forUp 1 data.linkCount (fun linkID (mx : Nat → PxReal) =>
    (forUp 0 DY_MAX_DOF (unpackJointBody data reduced linkID) (0, mx)).2) maximum

/-- The number of non-locked axes of the inbound joint of `linkID` among the axes below `j`. -/
def unlockedBelow (data : ArticulationData) (linkID : Nat) : Nat → Nat
  | 0 => 0
  | j + 1 =>
    if data.inboundJointMotion linkID j ≠ PxArticulationMotion.eLOCKED then
      unlockedBelow data linkID j + 1
    else unlockedBelow data linkID j

/-- A three-link chain whose joints have axes 0 and 3 free (link 1) and axis 2 free (link 2);
the reduced ranges are `[0, 2)` and `[2, 3)`. -/
def packSample : ArticulationData :=
  { chainData with
    dofs := 3
    jointData := fun i =>
      if i = 1 then { jointOffset := 0, nbDof := 2 }
      else if i = 2 then { jointOffset := 2, nbDof := 1 } else {}
    inboundJointMotion := fun i j =>
      if i = 1 ∧ (j = 0 ∨ j = 3) then PxArticulationMotion.eFREE
      else if i = 2 ∧ j = 2 then PxArticulationMotion.eFREE
      else PxArticulationMotion.eLOCKED }

/-! ## Ancestors in the link tree -/

/-- The link `a` is an ancestor of the link `i`, or `i` itself: `a` is reached from `i` by
following `parent` from non-root links. -/
inductive IsAncestorOrSelf (parent : Nat → Nat) : Nat → Nat → Prop where
  | self (i : Nat) : IsAncestorOrSelf parent i i
  | up {a i : Nat} : i ≠ 0 → IsAncestorOrSelf parent a (parent i) → IsAncestorOrSelf parent a i

/-- The stack of `getImpulseResponseSlowInv` holds the pushed links: `top` counts the pushes
and entry `k < top` is the `k`-th pushed link. -/
def StackHoldsPushes (st : SlowInvState) : Prop :=
  st.top = st.pushes.length ∧ ∀ k, k < st.top → st.pushes[k]? = some (st.stack k)

/-! ## Coefficient matrix with loop joints -/

/-- Modelled from the spec: `Px1DConstraint`, one constraint row; only the four vectors read
by `getCoefficientMatrixWithLoopJoints`. -/
structure Px1DConstraint where
  linear0 : PxVec3 := PxVec3.zero
  angular0 : PxVec3 := PxVec3.zero
  linear1 : PxVec3 := PxVec3.zero
  angular1 : PxVec3 := PxVec3.zero

/-- The collaborators of `getCoefficientMatrixWithLoopJoints` defined outside this
translation unit: the two inertia passes, and the constraint's `solverPrep` shader, which
yields the rows `rows[0 .. constraintCount)`. -/
structure CoefficientExternals where
  computeArticulatedSpatialInertia : ArticulationData → ArticulationData
  computeSpatialInertia : ArticulationData → ArticulationData
  solverPrep : ArticulationLoopConstraint → List Px1DConstraint

/-- The variables that the constraint loop of `getCoefficientMatrixWithLoopJoints` updates. -/
structure CoefficientState where
  data : ArticulationData
  coefficientMatrix : Nat → PxReal
  allocator : PxcScratchAllocator
  scratchData : ScratchData
  jointVelocities : Nat → PxReal
  jointAccelerations : Nat → PxReal

/-- One row of the row loop of `getCoefficientMatrixWithLoopJoints` (lines 1367-1405); the
state is `(Z, jointVelocities)`. -/
def coefficientRowStep (ix : ImpulseExternals) (data : ArticulationData) (fuel : Nat)
    (fixBase : Bool) (linkIndex0 linkIndex1 : Nat) (row : Px1DConstraint)
    (st : (Nat → SpatialVectorF) × (Nat → PxReal)) :
    Option ((Nat → SpatialVectorF) × (Nat → PxReal)) :=
  if linkIndex0 ≠ worldLinkSentinel ∧ linkIndex1 ≠ worldLinkSentinel then
    let flip := decide (linkIndex0 > linkIndex1)
    let impulse0 : SpatialVector := { linear := row.linear0, angular := row.angular0 }
    let impulse1 : SpatialVector := { linear := row.linear1, angular := row.angular1 }
    if flip then
      (getImpulseSelfResponseInv ix data fuel fixBase linkIndex1 linkIndex0 st.1 impulse1
        impulse0 st.2).map fun r => (r.Z, r.jointVelocities)
    else
      (getImpulseSelfResponseInv ix data fuel fixBase linkIndex0 linkIndex1 st.1 impulse0
        impulse1 st.2).map fun r => (r.Z, r.jointVelocities)
  else if linkIndex0 = worldLinkSentinel then
    let impulse1 : SpatialVector := { linear := row.linear1, angular := row.angular1 }
    (getImpulseResponseInv ix data fuel fixBase linkIndex1 st.1 impulse1 st.2).map
      fun r => (r.Z, r.jointVelocities)
  else
    let impulse0 : SpatialVector := { linear := row.linear0, angular := row.angular0 }
    (getImpulseResponseInv ix data fuel fixBase linkIndex0 st.1 impulse0 st.2).map
      fun r => (r.Z, r.jointVelocities)

/-- The body of the constraint loop of `getCoefficientMatrixWithLoopJoints`
(lines 1340-1441) for constraint `a`; `tData` and `tempMemory` are the two scratch blocks.
The two `free` calls of lines 1439-1440 close the body. -/
def coefficientConstraintStep (ext : ExternalPasses) (ix : ImpulseExternals)
    (cx : CoefficientExternals) (fuel : Nat) (lConstraints : Nat → ArticulationLoopConstraint)
    (fixBase : Bool) (elementCount totalDofs : Nat) (invDt : PxReal) (tData tempMemory : Nat)
    (a : Nat) (st : CoefficientState) : Option CoefficientState :=
  let lConstraint := lConstraints a
  let rows := cx.solverPrep lConstraint
  let constraintCount := rows.length
  let linkIndex0 := lConstraint.linkIndex0
  let linkIndex1 := lConstraint.linkIndex1
  let jv0 := memZero (0 : PxReal) totalDofs st.jointVelocities
  (forUp 0 constraintCount (fun j (acc : Option ((Nat → SpatialVectorF) × (Nat → PxReal))) =>
      acc.bind fun s =>
        coefficientRowStep ix st.data fuel fixBase linkIndex0 linkIndex1 (rows.getD j {}) s)
    (some (st.scratchData.spatialZAVectors, jv0))).map fun r =>
  let jointAccelerations := forUp 0 totalDofs (fun i (ja : Nat → PxReal) =>
    Function.update ja i (r.2 i * invDt)) st.jointAccelerations
  let data1 := cx.computeSpatialInertia st.data
  let coeCol := offsetView st.coefficientMatrix (elementCount * a)
  let sd0 : ScratchData :=
    { st.scratchData with
      spatialZAVectors := r.1
      jointVelocities := none
      externalAccels := none
      jointAccelerations := some jointAccelerations
      jointForces := coeCol }
  let sd :=
    if fixBase then inverseDynamic ext data1 PxVec3.zero sd0 false
    else inverseDynamicFloatingBase ext data1 PxVec3.zero sd0 false false
  { data := data1
    coefficientMatrix := storeView st.coefficientMatrix (elementCount * a) sd.jointForces
    allocator := (st.allocator.free tData).free tempMemory
    scratchData := sd
    jointVelocities := r.2
    jointAccelerations := jointAccelerations }

/-- The driver `FeatherstoneArticulation::getCoefficientMatrixWithLoopJoints`
(lines 1304-1442); the parent walks of the impulse responses are cut off after `fuel`
iterations (`none` when the fuel does not suffice). -/
def getCoefficientMatrixWithLoopJoints (ext : ExternalPasses) (ix : ImpulseExternals)
    (cx : CoefficientExternals) (fuel : Nat) (w : DriverWorld)
    (lConstraints : Nat → ArticulationLoopConstraint) (nbConstraints : Nat) :
    Option DriverWorld :=
  if w.data.dataDirty then
    some (reportDirty w
      "ArticulationHelper::getCoefficientMatrix() commonInit need to be called first to initialize data!")
  else
    let data0 := cx.computeArticulatedSpatialInertia w.data
    let elementCount := data0.dofs
    let coefficientMatrix :=
      memZero (0 : PxReal) (elementCount * nbConstraints) w.cache.coefficientMatrix
    let fixBase := data0.fixBase
    let t := allocateScratchSpatialData w.allocator {}
    let tempMemory := t.1
    let totalDofs := data0.dofs
    let d := t.2.1.alloc
    let tData := d.1
    let invDt := 1 / data0.dt
    (forUp 0 nbConstraints (fun a (acc : Option CoefficientState) =>
        acc.bind fun st =>
          coefficientConstraintStep ext ix cx fuel lConstraints fixBase elementCount totalDofs
            invDt tData tempMemory a st)
      (some
        { data := data0, coefficientMatrix := coefficientMatrix, allocator := d.2
          scratchData := t.2.2, jointVelocities := fun _ => 0
          jointAccelerations := fun _ => 0 })).map fun st =>
    { w with
      data := st.data
      cache := { w.cache with coefficientMatrix := st.coefficientMatrix }
      allocator := st.allocator }

/-- Collaborators that leave the articulation data alone and a `solverPrep` that yields no
rows. -/
def emptyCoefficientExternals : CoefficientExternals :=
  { computeArticulatedSpatialInertia := fun d => d
    computeSpatialInertia := fun d => d
    solverPrep := fun _ => [] }

/-! ## Mass matrix: the composite-rigid-body method and the direct method -/

/-- Modelled from the spec: the stored floats of a `PxMat33`, column after column. -/
def PxMat33.floats (m : PxMat33) (k : Nat) : PxReal :=
  (if k / 3 = 0 then m.column0 else if k / 3 = 1 then m.column1 else m.column2).get (k % 3)

/-- Modelled from the spec: the stored floats of a `Dy::SpatialMatrix`
(`reinterpret_cast<PxReal*>`): the nine of `topLeft`, then `topRight`, then `bottomLeft`. -/
def SpatialMatrix.floats (m : SpatialMatrix) (k : Nat) : PxReal :=
  if k < 9 then m.topLeft.floats k
  else if k < 18 then m.topRight.floats (k - 9)
  else m.bottomLeft.floats (k - 18)

/-- The `Hii` block of `computeHi` (lines 1866-1876). -/
def computeHiDiagonal (data : ArticulationData) (linkID : Nat) (massMatrix : Nat → PxReal)
    (f : Nat → SpatialVectorF) (rootDof : Nat) : Nat → PxReal :=
  let jointDatum := data.jointData linkID
  let matSize := data.dofs + rootDof
  forUp 0 jointDatum.nbDof (fun ind (mm : Nat → PxReal) =>
    let row := jointDatum.jointOffset + ind + rootDof
    let tf := f ind
    forUp 0 jointDatum.nbDof (fun ind2 (mm : Nat → PxReal) =>
      let col := jointDatum.jointOffset + ind2 + rootDof
      let sa := data.mWorldMotionMatrix (jointDatum.jointOffset + ind2)
      Function.update mm (row * matSize + col) (sa.innerProduct tf)) mm) massMatrix

/-- The `Hij`, `Hji` writes of one round of the `while` loop of `computeHi`
(lines 1896-1911) for the ancestor `j`. -/
def computeHiOffDiagonal (data : ArticulationData) (linkID j : Nat) (massMatrix : Nat → PxReal)
    (f : Nat → SpatialVectorF) (rootDof : Nat) : Nat → PxReal :=
  let jointDatum := data.jointData linkID
  let pJointDatum := data.jointData j
  let matSize := data.dofs + rootDof
  forUp 0 pJointDatum.nbDof (fun ind (mm : Nat → PxReal) =>
    let sa := data.mWorldMotionMatrix (pJointDatum.jointOffset + ind)
    let col := pJointDatum.jointOffset + ind + rootDof
    forUp 0 jointDatum.nbDof (fun ind2 (mm : Nat → PxReal) =>
      let row := jointDatum.jointOffset + ind2 + rootDof
      let m := sa.innerProduct (f ind2)
      Function.update (Function.update mm (row * matSize + col) m) (row + col * matSize) m) mm)
    massMatrix

/-- One round of the `while` loop of `computeHi` (lines 1882-1912) at link `j`: the columns
`f` are translated to the parent, then the cross terms with the parent are written; the state
is `(massMatrix, f)`. -/
def computeHiStep (data : ArticulationData) (linkID rootDof j : Nat)
    (st : (Nat → PxReal) × (Nat → SpatialVectorF)) : (Nat → PxReal) × (Nat → SpatialVectorF) :=
  let f1 := forUp 0 (data.jointData linkID).nbDof (fun ind (f : Nat → SpatialVectorF) =>
    Function.update f ind (translateSpatialVector (data.rw j) (f ind))) st.2
  (computeHiOffDiagonal data linkID (data.links j).parent st.1 f1 rootDof, f1)

/-- The loop `while (jLink->parent != 0)` of `computeHi`, cut off after `fuel` rounds; it
returns the link `j` it ends on with the state. -/
def computeHiLoop (data : ArticulationData) (linkID rootDof : Nat) :
    Nat → Nat → (Nat → PxReal) × (Nat → SpatialVectorF) →
      Option (Nat × ((Nat → PxReal) × (Nat → SpatialVectorF)))
  | 0, j, st => if (data.links j).parent = 0 then some (j, st) else none
  | fuel + 1, j, st =>
    if (data.links j).parent = 0 then some (j, st)
    else computeHiLoop data linkID rootDof fuel (data.links j).parent
      (computeHiStep data linkID rootDof j st)

/-- The function `computeHi` (lines 1856-1914): it returns `j`, the mass matrix and the
columns `f`. -/
def computeHi (data : ArticulationData) (fuel : Nat) (linkID : Nat) (massMatrix : Nat → PxReal)
    (f : Nat → SpatialVectorF) (rootDof : Nat) :
    Option (Nat × ((Nat → PxReal) × (Nat → SpatialVectorF))) :=
  computeHiLoop data linkID rootDof fuel linkID
    (computeHiDiagonal data linkID massMatrix f rootDof, f)

/-- The variables that the link loops of `calculateHFixBase` and `calculateHFloatingBase`
update. -/
structure CrbState where
  compositeSpatialInertia : Nat → SpatialMatrix
  F : Nat → SpatialVectorF
  massMatrix : Nat → PxReal

/-- The first part of the body of the link loops of `calculateHFixBase` and
`calculateHFloatingBase` (lines 1940-1948 and 1996-2004): the composite inertia of link `i`,
translated, is added to that of its parent. -/
def crbAccumulate (data : ArticulationData) (i : Nat)
    (compositeSpatialInertia : Nat → SpatialMatrix) : Nat → SpatialMatrix :=
  let link := data.links i
  let rw := link.bodyCore.body2World.p.sub (data.links link.parent).bodyCore.body2World.p
  let cSpatialInertia := translateInertia (constructSkewSymmetricMatrix rw)
    (compositeSpatialInertia i)
  Function.update compositeSpatialInertia link.parent
    ((compositeSpatialInertia link.parent).add cSpatialInertia)

/-- The columns `F[ind] = tSpatialInertia * sa` of link `i` (lines 1954-1960 and 2012-2018),
written through the view `f`. -/
def crbColumns (data : ArticulationData) (i : Nat) (tSpatialInertia : SpatialMatrix)
    (f : Nat → SpatialVectorF) : Nat → SpatialVectorF :=
  let jointDatum := data.jointData i
  forUp 0 jointDatum.nbDof (fun ind (f : Nat → SpatialVectorF) =>
    Function.update f ind
      (tSpatialInertia.mulVec (data.mWorldMotionMatrix (jointDatum.jointOffset + ind)))) f

/-- The body of the link loop of `calculateHFixBase` (lines 1938-1964). -/
def calculateHFixBaseBody (data : ArticulationData) (fuel : Nat) (i : Nat)
    (acc : Option CrbState) : Option CrbState :=
  acc.bind fun st =>
  let csi := crbAccumulate data i st.compositeSpatialInertia
  let F := crbColumns data i (csi i) st.F
  (computeHi data fuel i st.massMatrix F 0).map fun r =>
  { compositeSpatialInertia := csi, F := r.2.2, massMatrix := r.2.1 }

/-- The function `FeatherstoneArticulation::calculateHFixBase` (lines 1916-1967); the scratch
block is taken zero-filled. -/
def calculateHFixBase (fuel : Nat) (w : DriverWorld) : Option DriverWorld :=
  let elementCount := w.data.dofs
  let massMatrix := memZero (0 : PxReal) (elementCount * elementCount) w.cache.massMatrix
  let linkCount := w.data.linkCount
  let startIndex := u32Sub linkCount 1
  let a := w.allocator.alloc
  let compositeSpatialInertia := initCompositeSpatialInertia w.data
    (fun _ => ⟨PxMat33.zero, PxMat33.zero, PxMat33.zero⟩)
  (forDown (calculateHFixBaseBody w.data fuel) startIndex
    (some
      { compositeSpatialInertia := compositeSpatialInertia
        F := fun _ => SpatialVectorF.Zero
        massMatrix := massMatrix })).map fun st =>
  { w with
    cache := { w.cache with massMatrix := st.massMatrix }
    allocator := a.2.free a.1 }

/-- The writes of the columns `f` of link `i` into the root rows and columns of the mass
matrix (lines 2035-2044), for `rootMotion`. -/
def crbRootColumns (data : ArticulationData) (i : Nat) (f : Nat → SpatialVectorF)
    (rootDof : Nat) (massMatrix : Nat → PxReal) : Nat → PxReal :=
  let jointDatum := data.jointData i
  let matSize := data.dofs + rootDof
  forUp 0 jointDatum.nbDof (fun ind (mm : Nat → PxReal) =>
    let col := jointDatum.jointOffset + ind + rootDof
    let tf := f ind
    forUp 0 6 (fun row (mm : Nat → PxReal) =>
      Function.update (Function.update mm (col * matSize + row) (tf.get row))
        (col + row * matSize) (tf.get row)) mm) massMatrix

/-- The body of the link loop of `calculateHFloatingBase` (lines 1994-2046). -/
def calculateHFloatingBaseBody (data : ArticulationData) (fuel : Nat) (rootMotion : Bool)
    (rootDof : Nat) (i : Nat) (acc : Option CrbState) : Option CrbState :=
  acc.bind fun st =>
  let csi := crbAccumulate data i st.compositeSpatialInertia
  let jointDatum := data.jointData i
  let f0 := crbColumns data i (csi i) (offsetView st.F jointDatum.jointOffset)
  (computeHi data fuel i st.massMatrix f0 rootDof).map fun r =>
  let j := r.1
  let brw := (data.links j).bodyCore.body2World.p.sub (data.links 0).bodyCore.body2World.p
  let f2 := forUp 0 jointDatum.nbDof (fun ind (f : Nat → SpatialVectorF) =>
    Function.update f ind (translateSpatialVector brw (f ind))) r.2.2
  let mm := if rootMotion then crbRootColumns data i f2 rootDof r.2.1 else r.2.1
  { compositeSpatialInertia := csi
    F := storeView st.F jointDatum.jointOffset f2
    massMatrix := mm }

/-- The root block of the floating-base mass matrix (lines 2056-2078): the composite inertia
of the root with its linear and angular parts exchanged. -/
def crbRootBlock (rootSpatialInertia : Nat → PxReal) (matSize : Nat)
    (massMatrix : Nat → PxReal) : Nat → PxReal :=
  forUp 0 6 (fun row (mm : Nat → PxReal) =>
    forUp row 6 (fun col (mm : Nat → PxReal) =>
      let index := rootInertiaIndex row col
      Function.update (Function.update mm (row * matSize + col) (rootSpatialInertia index))
        (col * matSize + row) (rootSpatialInertia index)) mm) massMatrix

/-- The correction `H - transpose(F) * inv(Ib) * F` of the floating-base mass matrix without
root motion (lines 2080-2098). -/
def crbRootCorrection (invI0 : SpatialMatrix) (F : Nat → SpatialVectorF) (elementCount : Nat)
    (massMatrix : Nat → PxReal) : Nat → PxReal :=
  forUp 0 elementCount (fun row (mm : Nat → PxReal) =>
    let f := F row
    forUp 0 elementCount (fun col (mm : Nat → PxReal) =>
      let invIf := invI0.mulVec (F col)
      let v := f.innerProduct invIf
      let index := row * elementCount + col
      Function.update mm index (mm index - v)) mm) massMatrix

/-- The function `FeatherstoneArticulation::calculateHFloatingBase` (lines 1969-2101); the
scratch blocks are taken zero-filled. -/
def calculateHFloatingBase (fuel : Nat) (w : DriverWorld) (rootMotion : Bool) :
    Option DriverWorld :=
  let elementCount := w.data.dofs
  let rootDof := if rootMotion then 6 else 0
  let massMatrix := memZero (0 : PxReal) ((elementCount + rootDof) * (elementCount + rootDof))
    w.cache.massMatrix
  let linkCount := w.data.linkCount
  let dofCount := w.data.dofs
  let matSize := dofCount + rootDof
  let startIndex := u32Sub linkCount 1
  let a := w.allocator.alloc
  let b := a.2.alloc
  let compositeSpatialInertia := initCompositeSpatialInertia w.data
    (fun _ => ⟨PxMat33.zero, PxMat33.zero, PxMat33.zero⟩)
  (forDown (calculateHFloatingBaseBody w.data fuel rootMotion rootDof) startIndex
    (some
      { compositeSpatialInertia := compositeSpatialInertia
        F := fun _ => SpatialVectorF.Zero
        massMatrix := massMatrix })).map fun st =>
  let mm :=
    if rootMotion then
      crbRootBlock (st.compositeSpatialInertia 0).floats matSize st.massMatrix
    else
      crbRootCorrection (st.compositeSpatialInertia 0).invertInertia st.F elementCount
        st.massMatrix
  { w with
    cache := { w.cache with massMatrix := mm }
    allocator := (b.2.free a.1).free b.1 }

/-- The driver `FeatherstoneArticulation::getGeneralizedMassMatrixCRB` (lines 2150-2168);
the `while` loops of `computeHi` are cut off after `fuel` rounds. -/
def getGeneralizedMassMatrixCRB (fuel : Nat) (w : DriverWorld) (rootMotion : Bool) :
    Option DriverWorld :=
  if w.data.dataDirty then
    some (reportDirty w
      "ArticulationHelper::getGeneralizedMassMatrix() commonInit need to be called first to initialize data!")
  else if w.data.fixBase then calculateHFixBase fuel w
  else calculateHFloatingBase fuel w rootMotion

/-- The variables that the column loop of `getGeneralizedMassMatrix` updates. -/
structure MassMatrixState where
  massMatrix : Nat → PxReal
  scratchData : ScratchData
  jointAccelerations : Nat → PxReal

/-- The body of the column loop of `getGeneralizedMassMatrix` (lines 2200-2224). -/
def getGeneralizedMassMatrixBody (ext : ExternalPasses) (data : ArticulationData)
    (colInd : Nat) (acc : Option MassMatrixState) : Option MassMatrixState :=
  acc.bind fun st =>
  let elementCount := data.dofs
  let col := offsetView st.massMatrix (colInd * elementCount)
  let ja1 := Function.update st.jointAccelerations colInd 1
  let sd0 : ScratchData :=
    { st.scratchData with jointForces := col, jointAccelerations := some ja1 }
  (if data.fixBase then calculateMassMatrixColInv data sd0
    else some (inverseDynamicFloatingBase ext data PxVec3.zero sd0 false false)).map fun sd =>
  { massMatrix := storeView st.massMatrix (colInd * elementCount) sd.jointForces
    scratchData := sd
    jointAccelerations := Function.update ja1 colInd 0 }

/-- The driver `FeatherstoneArticulation::getGeneralizedMassMatrix` (lines 2170-2228). -/
def getGeneralizedMassMatrix (ext : ExternalPasses) (w : DriverWorld) : Option DriverWorld :=
  if w.data.dataDirty then
    some (reportDirty w
      "ArticulationHelper::getGeneralizedMassMatrix() commonInit need to be called first to initialize data!")
  else
    let elementCount := w.data.dofs
    let a := allocateScratchSpatialData w.allocator {}
    let b := a.2.1.alloc
    let jointAccelerations : Nat → PxReal := memZero 0 elementCount (fun _ => 0)
    let sd0 : ScratchData :=
      { a.2.2 with
        jointAccelerations := some jointAccelerations
        jointVelocities := none
        externalAccels := none }
    (forUp 0 elementCount (getGeneralizedMassMatrixBody ext w.data)
      (some
        { massMatrix := w.cache.massMatrix, scratchData := sd0
          jointAccelerations := jointAccelerations })).map fun st =>
    { w with
      cache := { w.cache with massMatrix := st.massMatrix }
      allocator := (b.2.free b.1).free a.1 }

/-- A driver call that only reports: the result is the world it was given, with one more
error message; the cache, the articulation data and the scratch allocator are the same. -/
def ReportsOnly (w : DriverWorld) (r : Option DriverWorld) : Prop :=
  ∃ out message, r = some out ∧ out.errors = w.errors ++ [message] ∧ out.cache = w.cache ∧
    out.data = w.data ∧ out.allocator = w.allocator

/-- The three-link chain with the data-dirty flag set. -/
def dirtyWorld : DriverWorld := { data := { chainData with dataDirty := true } }

/-- Passes `computeLinkVelocities`, `computeC` and `computeZ` that leave the scratch data
alone. -/
def idPasses : ExternalPasses :=
  { computeLinkVelocities := fun _ sd => sd
    computeC := fun _ sd => sd
    computeZ := fun _ _ sd => sd }

/-- A flat `n × n` matrix is symmetric: `H[r][c] = H[c][r]` for all `r, c < n`. -/
def MatSymm (n : Nat) (mm : Nat → PxReal) : Prop :=
  ∀ r c, r < n → c < n → mm (r * n + c) = mm (c * n + r)

/-- A spatial inertia whose `topRight` (mass) and `bottomLeft` (rotational) blocks are
symmetric; its `bottomRight` block is the transpose of `topLeft` by the storage convention. -/
def SpatialMatrix.IsSymm (m : SpatialMatrix) : Prop := m.topRight.IsSymm ∧ m.bottomLeft.IsSymm

/-! ## Children of a link -/

/-- The children of link `p` among the links `1, ..., n`, highest index first (the order in
which the inward loops `for (i = n; i > 0; --i)` meet them). -/
def childrenDescending (parent : Nat → Nat) (p : Nat) : Nat → List Nat
  | 0 => []
  | n + 1 =>
    if parent (n + 1) = p then (n + 1) :: childrenDescending parent p n
    else childrenDescending parent p n

/-! # Properties

## Loop invariants -/

theorem forUpAux_invariant {σ : Type} (body : Nat → σ → σ) (P : Nat → σ → Prop) (hi : Nat)
    (hstep : ∀ i s, i < hi → P i s → P (i + 1) (body i s)) :
    ∀ n i s, i + n ≤ hi → P i s → P (i + n) (forUpAux body n i s) := by
  intro n
  induction n with
  | zero => intro i s _ h; simpa [forUpAux] using h
  | succ n ih =>
    intro i s hle h
    have h1 : P (i + 1) (body i s) := hstep i s (by omega) h
    have h2 := ih (i + 1) (body i s) (by omega) h1
    have e : i + 1 + n = i + (n + 1) := by omega
    rw [e] at h2
    simpa [forUpAux] using h2

/-- Invariant rule for `forUp`: `P lo` before, `P` carried by each iteration with index
in `[lo, hi)`, gives `P hi` after. -/
theorem forUp_invariant {σ : Type} (lo hi : Nat) (body : Nat → σ → σ) (P : Nat → σ → Prop)
    (hle : lo ≤ hi) (s : σ) (h0 : P lo s)
    (hstep : ∀ i s, lo ≤ i → i < hi → P i s → P (i + 1) (body i s)) :
    P hi (forUp lo hi body s) := by
  have key := forUpAux_invariant body (fun i s => lo ≤ i ∧ P i s) hi
    (fun i s hlt h => ⟨by omega, hstep i s h.1 hlt h.2⟩) (hi - lo) lo s (by omega) ⟨le_refl _, h0⟩
  have e : lo + (hi - lo) = hi := by omega
  rw [e] at key
  exact key.2

/-- A property carried by every iteration is carried by `forUp`, whatever the bounds. -/
theorem forUp_preserves {σ : Type} (lo hi : Nat) (body : Nat → σ → σ) (P : σ → Prop) (s : σ)
    (h0 : P s) (hstep : ∀ i s, lo ≤ i → P s → P (body i s)) : P (forUp lo hi body s) := by
  have key : ∀ n i s, lo ≤ i → P s → P (forUpAux body n i s) := by
    intro n
    induction n with
    | zero => intro i s _ h; simpa [forUpAux] using h
    | succ n ih =>
      intro i s hi h
      simp only [forUpAux]
      exact ih (i + 1) (body i s) (by omega) (hstep i s hi h)
  exact key _ _ _ (le_refl _) h0

/-- Invariant rule for `forDown`: `P n` before, each iteration `i + 1` takes `P (i + 1)`
to `P i`, gives `P 0` after. -/
theorem forDown_invariant {σ : Type} (body : Nat → σ → σ) (P : Nat → σ → Prop) :
    ∀ (n : Nat) (s : σ), P n s → (∀ i s, i < n → P (i + 1) s → P i (body (i + 1) s)) →
      P 0 (forDown body n s) := by
  intro n
  induction n with
  | zero => intro s h _; simpa [forDown] using h
  | succ n ih =>
    intro s h hstep
    simp only [forDown]
    exact ih (body (n + 1) s) (hstep n s (by omega) h)
      (fun i s hi hp => hstep i s (by omega) hp)

/-- A property carried by every iteration is carried by `forDown`. -/
theorem forDown_preserves {σ : Type} (body : Nat → σ → σ) (P : σ → Prop)
    (hstep : ∀ i s, P s → P (body (i + 1) s)) : ∀ (n : Nat) (s : σ), P s → P (forDown body n s) := by
  intro n
  induction n with
  | zero => intro s h; simpa [forDown] using h
  | succ n ih => intro s h; simp only [forDown]; exact ih _ (hstep n s h)

theorem computeLinkAccelerationInv_root (data : ArticulationData) (sd : ScratchData) :
    (computeLinkAccelerationInv data sd).motionAccelerations 0 = SpatialVectorF.Zero := by
  unfold computeLinkAccelerationInv
  apply forUp_preserves 1 data.linkCount (computeLinkAccelerationInvBody data)
    (fun s => s.motionAccelerations 0 = SpatialVectorF.Zero)
  · simp
  · intro i s hi h
    have hne : (0 : Nat) ≠ i := by omega
    simp only [computeLinkAccelerationInvBody]
    rw [Function.update_noteq hne]
    exact h

theorem computeZAForceInv_motionAccelerations (data : ArticulationData) (sd : ScratchData) :
    (computeZAForceInv data sd).motionAccelerations = sd.motionAccelerations := by
  unfold computeZAForceInv
  exact forUp_preserves 0 data.linkCount (computeZAForceInvBody data)
    (fun s => s.motionAccelerations = sd.motionAccelerations) sd rfl
    (fun i s _ h => by simpa [computeZAForceInvBody] using h)

theorem computeGeneralizedForceInv_motionAccelerations (data : ArticulationData)
    (sd : ScratchData) :
    (computeGeneralizedForceInv data sd).motionAccelerations = sd.motionAccelerations := by
  unfold computeGeneralizedForceInv
  exact forDown_preserves (computeGeneralizedForceInvBody data)
    (fun s => s.motionAccelerations = sd.motionAccelerations)
    (fun i s h => by simpa [computeGeneralizedForceInvBody] using h) _ sd rfl

theorem calculateMassMatrixColInvWith_root (data : ArticulationData) (j : Nat → PxReal)
    (sd : ScratchData) :
    (calculateMassMatrixColInvWith data j sd).motionAccelerations 0 = SpatialVectorF.Zero := by
  have key : ∀ s0 : ScratchData, s0.motionAccelerations 0 = SpatialVectorF.Zero →
      (forUp 1 data.linkCount (calculateMassMatrixColInvBody data j) s0).motionAccelerations 0
        = SpatialVectorF.Zero := by
    intro s0 h0
    refine forUp_preserves 1 data.linkCount (calculateMassMatrixColInvBody data j)
      (fun s => s.motionAccelerations 0 = SpatialVectorF.Zero) s0 h0 ?_
    intro i s hi h
    have hne : (0 : Nat) ≠ i := by omega
    show Function.update s.motionAccelerations i _ 0 = SpatialVectorF.Zero
    rw [Function.update_noteq hne]
    exact h
  have hdef : calculateMassMatrixColInvWith data j sd = computeGeneralizedForceInv data
      (forUp 1 data.linkCount (calculateMassMatrixColInvBody data j)
        { sd with
          motionAccelerations := Function.update sd.motionAccelerations 0 SpatialVectorF.Zero
          spatialZAVectors := Function.update sd.spatialZAVectors 0 SpatialVectorF.Zero }) := rfl
  rw [hdef, computeGeneralizedForceInv_motionAccelerations]
  refine key _ ?_
  show Function.update sd.motionAccelerations 0 SpatialVectorF.Zero 0 = SpatialVectorF.Zero
  exact Function.update_same _ _ _

/-! ## C4 -/

/-- C4: for every articulation, every external pass and every input, after the fixed-base
`inverseDynamic` returns the root motion acceleration `motionAccelerations[0]` is exactly
the zero spatial vector; and `calculateMassMatrixColInv`, given a non-null joint-acceleration
buffer, returns a result whose root motion acceleration is exactly zero. -/
theorem C4_root_acceleration_zero (ext : ExternalPasses) (data : ArticulationData)
    (gravity : PxVec3) (sd : ScratchData) (computeCoriolis : Bool) :
    (inverseDynamic ext data gravity sd computeCoriolis).motionAccelerations 0
        = SpatialVectorF.Zero ∧
      ∀ jointAccelerations : Nat → PxReal,
        ∃ out, calculateMassMatrixColInv data
            { sd with jointAccelerations := some jointAccelerations } = some out ∧
          out.motionAccelerations 0 = SpatialVectorF.Zero := by
  constructor
  · unfold inverseDynamic
    simp only [computeGeneralizedForceInv_motionAccelerations,
      computeZAForceInv_motionAccelerations, computeLinkAccelerationInv_root]
  · intro j
    exact ⟨_, rfl, calculateMassMatrixColInvWith_root data j _⟩

/-! ## Zero vectors -/

theorem SpatialVectorF.add_Zero (a : SpatialVectorF) : a.add SpatialVectorF.Zero = a := by
  cases a with
  | mk t b =>
    cases t; cases b
    simp [SpatialVectorF.add, SpatialVectorF.Zero, PxVec3.zero, PxVec3.add]

/-- What the joint loop of `computeGeneralizedForceInv` leaves in the joint-force buffer. -/
theorem projectJointForces_apply (data : ArticulationData) (jointOffset nbDof : Nat)
    (z : SpatialVectorF) (f : Nat → PxReal) (idx : Nat) :
    projectJointForces data jointOffset nbDof z f idx =
      if jointOffset ≤ idx ∧ idx < jointOffset + nbDof
      then (data.mWorldMotionMatrix idx).innerProduct z else f idx := by
  unfold projectJointForces
  have key := forUp_invariant 0 nbDof
    (fun ind (f : Nat → PxReal) => Function.update f (jointOffset + ind)
      ((data.mWorldMotionMatrix (jointOffset + ind)).innerProduct z))
    (fun i g => ∀ idx, g idx = if jointOffset ≤ idx ∧ idx < jointOffset + i
      then (data.mWorldMotionMatrix idx).innerProduct z else f idx)
    (Nat.zero_le _) f
    (by
      intro idx
      rw [if_neg]
      omega)
    (by
      intro i g _ _ hg idx
      show Function.update g (jointOffset + i) _ idx = _
      by_cases h : idx = jointOffset + i
      · subst h
        simp
      · rw [Function.update_noteq h, hg idx]
        by_cases h2 : jointOffset ≤ idx ∧ idx < jointOffset + i
        · have h3 : jointOffset ≤ idx ∧ idx < jointOffset + (i + 1) := ⟨h2.1, by omega⟩
          simp [h2, h3]
        · have h3 : ¬ (jointOffset ≤ idx ∧ idx < jointOffset + (i + 1)) := by
            intro h4; exact h2 ⟨h4.1, by omega⟩
          simp [h2, h3])
  exact key idx

theorem chainData_parent_lt :
    ∀ i, 0 < i → i < chainData.linkCount → (chainData.links i).parent < i := by
  intro i h _
  simp only [chainData]
  omega

/-- What a per-DOF copy loop leaves in the destination buffer. -/
theorem copyDofLoop_snd (dofCount : Nat) (src : Nat → PxReal) (test : Nat → PxReal → Bool)
    (st : Bool × (Nat → PxReal)) (i : Nat) :
    (copyDofLoop dofCount src test st).2 i = if i < dofCount then src i else st.2 i := by
  unfold copyDofLoop
  have key := forUp_invariant 0 dofCount
    (fun i (st : Bool × (Nat → PxReal)) =>
      (st.1 || test i (src i), Function.update st.2 i (src i)))
    (fun n s => ∀ i, s.2 i = if i < n then src i else st.2 i) (Nat.zero_le _) st
    (by intro i; simp)
    (by
      intro n s _ _ hs i
      by_cases h : i = n
      · subst h; simp
      · simp only [Function.update_noteq h, hs i]
        by_cases h2 : i < n
        · have h3 : i < n + 1 := by omega
          simp [h2, h3]
        · have h3 : ¬ i < n + 1 := by omega
          simp [h2, h3])
  exact key i

/-- The velocity block writes the joint-velocity buffer and nothing else of the destination
buffers or of the articulation data. -/
theorem applyVelocityBlock_frame (cache : PxArticulationCache) (flag : PxArticulationCacheFlags)
    (s : ApplyCacheState) :
    (applyVelocityBlock cache flag s).art.mArticulationData = s.art.mArticulationData ∧
    (applyVelocityBlock cache flag s).art.mJcalcDirty = s.art.mJcalcDirty ∧
    (applyVelocityBlock cache flag s).dest.jPositions = s.dest.jPositions ∧
    (applyVelocityBlock cache flag s).dest.jointForces = s.dest.jointForces ∧
    (applyVelocityBlock cache flag s).dest.jVelocities =
      if PxArticulationCacheFlag.eVELOCITY ∈ flag then
        (copyDofLoop s.art.mArticulationData.dofs cache.jointVelocity
          (fun _ jv => decide (jv ≠ 0)) (s.localShouldWake, s.dest.jVelocities)).2
      else s.dest.jVelocities := by
  unfold applyVelocityBlock
  split <;> exact ⟨rfl, rfl, rfl, rfl, rfl⟩

/-- The root-transform block writes the pose of the root body core and nothing else of the
links; it leaves the destination buffers alone. -/
theorem applyRootTransformBlock_frame (cache : PxArticulationCache)
    (flag : PxArticulationCacheFlags) (s : ApplyCacheState) :
    (applyRootTransformBlock cache flag s).dest = s.dest ∧
    (applyRootTransformBlock cache flag s).art.mJcalcDirty = s.art.mJcalcDirty ∧
    (applyRootTransformBlock cache flag s).art.mArticulationData.dofs
      = s.art.mArticulationData.dofs ∧
    ((applyRootTransformBlock cache flag s).art.mArticulationData.links 0).bodyCore =
      if PxArticulationCacheFlag.eROOT_TRANSFORM ∈ flag then
        { (s.art.mArticulationData.links 0).bodyCore with
          body2World := cache.rootLinkData.transform.mul
            (s.art.mArticulationData.links 0).bodyCore.body2Actor }
      else (s.art.mArticulationData.links 0).bodyCore := by
  unfold applyRootTransformBlock
  split
  · refine ⟨rfl, rfl, rfl, ?_⟩
    simp [setRootCore]
  · exact ⟨rfl, rfl, rfl, rfl⟩

/-- The root-velocities block writes the two velocities of the root body core and nothing
else of the links; it leaves the destination buffers alone. -/
theorem applyRootVelocitiesBlock_frame (cache : PxArticulationCache)
    (flag : PxArticulationCacheFlags) (s : ApplyCacheState) :
    (applyRootVelocitiesBlock cache flag s).dest = s.dest ∧
    (applyRootVelocitiesBlock cache flag s).art.mJcalcDirty = s.art.mJcalcDirty ∧
    (applyRootVelocitiesBlock cache flag s).art.mArticulationData.dofs
      = s.art.mArticulationData.dofs ∧
    ((applyRootVelocitiesBlock cache flag s).art.mArticulationData.links 0).bodyCore =
      if PxArticulationCacheFlag.eROOT_VELOCITIES ∈ flag then
        { (s.art.mArticulationData.links 0).bodyCore with
          linearVelocity := cache.rootLinkData.worldLinVel
          angularVelocity := cache.rootLinkData.worldAngVel }
      else (s.art.mArticulationData.links 0).bodyCore := by
  unfold applyRootVelocitiesBlock
  split
  · refine ⟨rfl, rfl, rfl, ?_⟩
    simp [setRootCore]
  · exact ⟨rfl, rfl, rfl, rfl⟩

/-- The position block writes the joint-position buffer and nothing else of the destination
buffers or of the articulation data. -/
theorem applyPositionBlock_frame (cx : CacheExternals) (cache : PxArticulationCache)
    (flag : PxArticulationCacheFlags) (s : ApplyCacheState) :
    (applyPositionBlock cx cache flag s).art.mArticulationData = s.art.mArticulationData ∧
    (applyPositionBlock cx cache flag s).art.mJcalcDirty = s.art.mJcalcDirty ∧
    (applyPositionBlock cx cache flag s).dest.jVelocities = s.dest.jVelocities ∧
    (applyPositionBlock cx cache flag s).dest.jointForces = s.dest.jointForces ∧
    (applyPositionBlock cx cache flag s).dest.jPositions =
      if PxArticulationCacheFlag.ePOSITION ∈ flag then
        cx.copyJointData s.art.mArticulationData s.dest.jPositions cache.jointPosition
      else s.dest.jPositions := by
  unfold applyPositionBlock
  split <;> exact ⟨rfl, rfl, rfl, rfl, rfl⟩

/-- The force block writes the joint-force buffer and nothing else of the destination
buffers or of the articulation data. -/
theorem applyForceBlock_frame (cache : PxArticulationCache) (flag : PxArticulationCacheFlags)
    (s : ApplyCacheState) :
    (applyForceBlock cache flag s).art.mArticulationData = s.art.mArticulationData ∧
    (applyForceBlock cache flag s).art.mJcalcDirty = s.art.mJcalcDirty ∧
    (applyForceBlock cache flag s).dest.jVelocities = s.dest.jVelocities ∧
    (applyForceBlock cache flag s).dest.jPositions = s.dest.jPositions ∧
    (applyForceBlock cache flag s).dest.jointForces =
      if PxArticulationCacheFlag.eFORCE ∈ flag then
        (copyDofLoop s.art.mArticulationData.dofs cache.jointForce
          (fun _ jf => decide (jf ≠ 0)) (s.localShouldWake, s.dest.jointForces)).2
      else s.dest.jointForces := by
  unfold applyForceBlock
  split <;> exact ⟨rfl, rfl, rfl, rfl, rfl⟩

/-- The joint-target-position block leaves the articulation data and the velocity, position
and force buffers alone. -/
theorem applyJointTargetPositionsBlock_frame (cache : PxArticulationCache)
    (flag : PxArticulationCacheFlags) (s : ApplyCacheState) :
    (applyJointTargetPositionsBlock cache flag s).art.mArticulationData
      = s.art.mArticulationData ∧
    (applyJointTargetPositionsBlock cache flag s).art.mJcalcDirty = s.art.mJcalcDirty ∧
    (applyJointTargetPositionsBlock cache flag s).dest.jVelocities = s.dest.jVelocities ∧
    (applyJointTargetPositionsBlock cache flag s).dest.jPositions = s.dest.jPositions ∧
    (applyJointTargetPositionsBlock cache flag s).dest.jointForces = s.dest.jointForces := by
  unfold applyJointTargetPositionsBlock
  split <;> exact ⟨rfl, rfl, rfl, rfl, rfl⟩

/-- The joint-target-velocity block leaves the articulation data and the velocity, position
and force buffers alone. -/
theorem applyJointTargetVelocitiesBlock_frame (cache : PxArticulationCache)
    (flag : PxArticulationCacheFlags) (s : ApplyCacheState) :
    (applyJointTargetVelocitiesBlock cache flag s).art.mArticulationData
      = s.art.mArticulationData ∧
    (applyJointTargetVelocitiesBlock cache flag s).art.mJcalcDirty = s.art.mJcalcDirty ∧
    (applyJointTargetVelocitiesBlock cache flag s).dest.jVelocities = s.dest.jVelocities ∧
    (applyJointTargetVelocitiesBlock cache flag s).dest.jPositions = s.dest.jPositions ∧
    (applyJointTargetVelocitiesBlock cache flag s).dest.jointForces = s.dest.jointForces := by
  unfold applyJointTargetVelocitiesBlock
  split <;> exact ⟨rfl, rfl, rfl, rfl, rfl⟩

/-- A link loop that only writes external accelerations keeps the links and the DOF count. -/
theorem linkLoop_frame (n : Nat) (body : Nat → Bool × ArticulationData → Bool × ArticulationData)
    (hbody : ∀ i s, (body i s).2.links = s.2.links ∧ (body i s).2.dofs = s.2.dofs)
    (st : Bool × ArticulationData) :
    (forUp 0 n body st).2.links = st.2.links ∧ (forUp 0 n body st).2.dofs = st.2.dofs := by
  refine forUp_preserves 0 n body
    (fun s => s.2.links = st.2.links ∧ s.2.dofs = st.2.dofs) st ⟨rfl, rfl⟩ ?_
  intro i s _ h
  show (body i s).2.links = _ ∧ (body i s).2.dofs = _
  rw [(hbody i s).1, (hbody i s).2]
  exact h

/-- The link-force block leaves the destination buffers, the links and the DOF count
alone. -/
theorem applyLinkForceBlock_frame (cache : PxArticulationCache) (flag : PxArticulationCacheFlags)
    (s : ApplyCacheState) :
    (applyLinkForceBlock cache flag s).dest = s.dest ∧
    (applyLinkForceBlock cache flag s).art.mJcalcDirty = s.art.mJcalcDirty ∧
    (applyLinkForceBlock cache flag s).art.mArticulationData.dofs
      = s.art.mArticulationData.dofs ∧
    (applyLinkForceBlock cache flag s).art.mArticulationData.links
      = s.art.mArticulationData.links := by
  unfold applyLinkForceBlock
  split
  · have h := linkLoop_frame s.art.mArticulationData.linkCount (applyLinkForceBody cache)
      (fun _ _ => ⟨rfl, rfl⟩) (s.localShouldWake, s.art.mArticulationData)
    exact ⟨rfl, rfl, h.2, h.1⟩
  · exact ⟨rfl, rfl, rfl, rfl⟩

/-- The link-torque block leaves the destination buffers, the links and the DOF count
alone. -/
theorem applyLinkTorqueBlock_frame (cache : PxArticulationCache)
    (flag : PxArticulationCacheFlags) (s : ApplyCacheState) :
    (applyLinkTorqueBlock cache flag s).dest = s.dest ∧
    (applyLinkTorqueBlock cache flag s).art.mJcalcDirty = s.art.mJcalcDirty ∧
    (applyLinkTorqueBlock cache flag s).art.mArticulationData.dofs
      = s.art.mArticulationData.dofs ∧
    (applyLinkTorqueBlock cache flag s).art.mArticulationData.links
      = s.art.mArticulationData.links := by
  unfold applyLinkTorqueBlock
  split
  · have h := linkLoop_frame s.art.mArticulationData.linkCount (applyLinkTorqueBody cache)
      (fun _ _ => ⟨rfl, rfl⟩) (s.localShouldWake, s.art.mArticulationData)
    exact ⟨rfl, rfl, h.2, h.1⟩
  · exact ⟨rfl, rfl, rfl, rfl⟩

/-- The destination joint-velocity buffer after `applyCacheToDest`. -/
theorem applyCacheToDest_jVelocities (cx : CacheExternals) (art : FeatherstoneArticulation)
    (cache : PxArticulationCache) (dest : CacheDest) (flag : PxArticulationCacheFlags) :
    (applyCacheToDest cx art cache dest flag).dest.jVelocities =
      if PxArticulationCacheFlag.eVELOCITY ∈ flag then
        (copyDofLoop art.mArticulationData.dofs cache.jointVelocity (fun _ jv => decide (jv ≠ 0))
          (false, dest.jVelocities)).2
      else dest.jVelocities := by
  show (applyCacheBlocks cx cache flag ⟨false, dest, art⟩).dest.jVelocities = _
  unfold applyCacheBlocks
  simp only []
  rw [(applyLinkTorqueBlock_frame _ _ _).1, (applyLinkForceBlock_frame _ _ _).1,
    (applyJointTargetVelocitiesBlock_frame _ _ _).2.2.1,
    (applyJointTargetPositionsBlock_frame _ _ _).2.2.1,
    (applyForceBlock_frame _ _ _).2.2.1, (applyPositionBlock_frame _ _ _ _).2.2.1,
    (applyRootVelocitiesBlock_frame _ _ _).1, (applyRootTransformBlock_frame _ _ _).1,
    (applyVelocityBlock_frame _ _ _).2.2.2.2]

/-- C10: for every cache and every flag set containing `eVELOCITY`, after
`applyCacheToDest` the destination joint-velocity array equals the cache's `jointVelocity`
on every index below the DOF count (and is untouched above it); when the flag set does not
contain `eVELOCITY` the destination joint-velocity array is not written. -/
theorem C10_applyCache_velocity_roundtrip (cx : CacheExternals)
    (art : FeatherstoneArticulation) (cache : PxArticulationCache) (dest : CacheDest)
    (flag : PxArticulationCacheFlags) :
    (PxArticulationCacheFlag.eVELOCITY ∈ flag →
      (∀ i, i < art.mArticulationData.dofs →
        (applyCacheToDest cx art cache dest flag).dest.jVelocities i = cache.jointVelocity i) ∧
      ∀ i, art.mArticulationData.dofs ≤ i →
        (applyCacheToDest cx art cache dest flag).dest.jVelocities i = dest.jVelocities i) ∧
    (PxArticulationCacheFlag.eVELOCITY ∉ flag →
      (applyCacheToDest cx art cache dest flag).dest.jVelocities = dest.jVelocities) := by
  rw [applyCacheToDest_jVelocities]
  constructor
  · intro hv
    simp only [hv, if_true, copyDofLoop_snd]
    constructor
    · intro i hi; simp [hi]
    · intro i hi
      have : ¬ i < art.mArticulationData.dofs := by omega
      simp [this]
  · intro hv
    simp [hv]

/-- C10 on the three-link chain: with `eVELOCITY` the two joint velocities of the cache are
copied, without it the destination buffer is left alone. -/
theorem C10_applyCache_velocity_roundtrip_witness :
    (∀ i, i < 2 →
      (applyCacheToDest idCacheExternals chainArticulation velocityCache {}
        [PxArticulationCacheFlag.eVELOCITY, PxArticulationCacheFlag.ePOSITION]).dest.jVelocities i
        = velocityCache.jointVelocity i) ∧
    (applyCacheToDest idCacheExternals chainArticulation velocityCache {}
        [PxArticulationCacheFlag.eFORCE]).dest.jVelocities = ({} : CacheDest).jVelocities :=
  ⟨((C10_applyCache_velocity_roundtrip idCacheExternals chainArticulation velocityCache {}
      [PxArticulationCacheFlag.eVELOCITY, PxArticulationCacheFlag.ePOSITION]).1
        (by decide)).1,
   (C10_applyCache_velocity_roundtrip idCacheExternals chainArticulation velocityCache {}
      [PxArticulationCacheFlag.eFORCE]).2 (by decide)⟩

/-! ## C7, C8: `getLambda` -/

/-- When at least one iteration is allowed, the loop of `getLambda` ends with `found` set
exactly when it stopped right after a convergence test that every constraint passed. -/
theorem getLambdaLoop_found (sx : LoopSolverExternals) (desc : Nat → PxSolverConstraintDesc)
    (lConstraints : Nat → ArticulationLoopConstraint) (nbJoints totalDofs linkCount : Nat)
    (dt invDt : PxReal) (initialState : PxArticulationCache) (jointTorque : Nat → PxReal)
    (gravity : PxVec3) :
    ∀ (n : Nat) (st : LambdaState),
      (getLambdaLoop sx desc lConstraints nbJoints totalDofs linkCount dt invDt initialState
          jointTorque gravity (n + 1) st).found = true →
      ∃ st0 : LambdaState,
        getLambdaLoop sx desc lConstraints nbJoints totalDofs linkCount dt invDt initialState
            jointTorque gravity (n + 1) st
          = getLambdaExtract sx lConstraints nbJoints dt invDt
              (getLambdaSolve sx desc nbJoints { st0 with found := true }) := by
  have hstep : ∀ (n : Nat) (st : LambdaState),
      getLambdaLoop sx desc lConstraints nbJoints totalDofs linkCount dt invDt initialState
          jointTorque gravity (n + 1) st
        = if (getLambdaExtract sx lConstraints nbJoints dt invDt
              (getLambdaSolve sx desc nbJoints { st with found := true })).found
          then getLambdaExtract sx lConstraints nbJoints dt invDt
              (getLambdaSolve sx desc nbJoints { st with found := true })
          else getLambdaLoop sx desc lConstraints nbJoints totalDofs linkCount dt invDt
              initialState jointTorque gravity n
              (getLambdaUpdate sx nbJoints totalDofs linkCount initialState jointTorque gravity
                (getLambdaExtract sx lConstraints nbJoints dt invDt
                  (getLambdaSolve sx desc nbJoints { st with found := true }))) :=
    fun _ _ => rfl
  intro n
  induction n with
  | zero =>
    intro st h
    rw [hstep] at h ⊢
    by_cases hf : (getLambdaExtract sx lConstraints nbJoints dt invDt
        (getLambdaSolve sx desc nbJoints { st with found := true })).found = true
    · rw [if_pos hf]
      exact ⟨st, rfl⟩
    · rw [if_neg hf] at h
      exact absurd h hf
  | succ n ih =>
    intro st h
    rw [hstep] at h ⊢
    by_cases hf : (getLambdaExtract sx lConstraints nbJoints dt invDt
        (getLambdaSolve sx desc nbJoints { st with found := true })).found = true
    · rw [if_pos hf]
      exact ⟨st, rfl⟩
    · rw [if_neg hf] at h ⊢
      exact ih _ h

/-- C7 (evaluation at the failing input): with an iteration cap `maxIter = 0` the loop body
of `getLambda` is never entered, no convergence test is executed and the cache (with its
multipliers `lambda`) is returned as it came in, yet the function returns `true`. -/
theorem C7_getLambda_maxIter_zero (sx : LoopSolverExternals) (world : SolverWorld)
    (allocator : PxcScratchAllocator) (lConstraints : Nat → ArticulationLoopConstraint)
    (nbJoints : Nat) (cache initialState : PxArticulationCache) (jointTorque : Nat → PxReal)
    (gravity : PxVec3) (invLengthScale : PxReal) :
    (getLambda sx world allocator lConstraints nbJoints cache initialState jointTorque gravity
        0 invLengthScale).found = true ∧
    (getLambda sx world allocator lConstraints nbJoints cache initialState jointTorque gravity
        0 invLengthScale).cache.lambda = cache.lambda ∧
    (getLambda sx world allocator lConstraints nbJoints cache initialState jointTorque gravity
        0 invLengthScale).writeBackPool = world.writeBackPool :=
  ⟨rfl, rfl, rfl⟩

theorem SpatialMatrix.mulVec_neg_Zero (m : SpatialMatrix) :
    m.mulVec (SpatialVectorF.neg ⟨PxVec3.zero, PxVec3.zero⟩) = SpatialVectorF.Zero := by
  simp [SpatialMatrix.mulVec, SpatialVectorF.neg, SpatialVectorF.Zero, PxVec3.zero, PxVec3.neg,
    PxMat33.transform, PxMat33.transformTranspose, PxVec3.scale, PxVec3.add, PxVec3.dot]

/-! ## C6: general path against the parent-child path -/

/-- The link loop of `computeRelativeGeneralizedForceInv` starts at link 1 and leaves the
root acceleration alone. -/
theorem computeRelativeGeneralizedForceInv_root (data : ArticulationData) (sd : ScratchData)
    (coriolisFloatingBase : Bool) :
    (computeRelativeGeneralizedForceInv data sd coriolisFloatingBase).motionAccelerations 0
      = (solveRootAcceleration coriolisFloatingBase sd).motionAccelerations 0 := by
  unfold computeRelativeGeneralizedForceInv
  refine forUp_preserves 1 data.linkCount (computeRelativeBody data)
    (fun s => s.motionAccelerations 0
      = (solveRootAcceleration coriolisFloatingBase sd).motionAccelerations 0) _ rfl ?_
  intro i s hi h
  have hne : (0 : Nat) ≠ i := by omega
  show Function.update s.motionAccelerations i _ 0 = _
  rw [Function.update_noteq hne]
  exact h

/-- C17: in `inverseDynamicFloatingBase` the root acceleration is solved as
`motionAccelerations[0] = -(inverse(compositeSpatialInertia[0]) * zaForce[0])` exactly when
not (`computeCoriolis` and `rootMotion`); when both flags are true
`computeRelativeGeneralizedForceInv` leaves `motionAccelerations[0]` as passes 1 and 2 left
it. -/
theorem C17_floating_base_root_acceleration (ext : ExternalPasses) (data : ArticulationData)
    (gravity : PxVec3) (sd : ScratchData) (computeCoriolis rootMotion : Bool) :
    (inverseDynamicFloatingBase ext data gravity sd computeCoriolis rootMotion).motionAccelerations
        0 =
      if computeCoriolis && rootMotion then
        (inverseDynamicFloatingBasePasses12 ext data gravity sd computeCoriolis).motionAccelerations
          0
      else
        (((inverseDynamicFloatingBasePasses12 ext data gravity sd
            computeCoriolis).compositeSpatialInertias 0).invertInertia.mulVec
          ((inverseDynamicFloatingBasePasses12 ext data gravity sd
            computeCoriolis).spatialZAVectors 0)).neg := by
  unfold inverseDynamicFloatingBase
  simp only [computeRelativeGeneralizedForceInv_root]
  cases h : (computeCoriolis && rootMotion)
  · simp [solveRootAcceleration]
  · simp [solveRootAcceleration]

/-! ## C11: `getGeneralizedGravityForce` -/

/-- C11 (evaluation at the failing input): on the fixed-base chain whose link 2 has inverse
mass `0`, `getGeneralizedGravityForce` evaluates `1.0f / core.inverseMass` for that link
without a guard: a division by zero is evaluated (no result in the model), for every gravity
vector and both values of `rootMotion`; the guarded mass of `computeZAForceInv` for the same
link is `0`. -/
theorem C11_gravity_force_divides_by_zero (ext : ExternalPasses) (cache : PxArticulationCache)
    (gravity : PxVec3) (rootMotion : Bool) :
    getGeneralizedGravityForce ext { data := staticLinkChain, cache := cache } gravity rootMotion
      = none ∧
    uncheckedReciprocal (staticLinkChain.links 2).bodyCore.inverseMass = none ∧
    massOf (staticLinkChain.links 2).bodyCore = 0 := by
  refine ⟨?_, rfl, rfl⟩
  have hz : ∀ z0, gravityBiasForces staticLinkChain gravity.neg z0 = none := by
    intro z0
    simp [gravityBiasForces, forUp, forUpAux, staticLinkChain, chainData, uncheckedReciprocal]
  have hd : staticLinkChain.dataDirty = false := rfl
  have hf : staticLinkChain.fixBase = true := rfl
  simp [getGeneralizedGravityForce, hz, hd, hf]

/-! ## The pendulum under gravity, in exact arithmetic -/

/-- In exact arithmetic (the scalars of this development are rationals, the program computes
in `float32`): for a two-link fixed-base articulation with one revolute joint about `z` whose
child link is a point mass `m` at `(L c, L s, 0)` from the joint (world motion-matrix column
`(axis, axis × r)`) and whose root has a non-zero inverse mass, at rest under gravity
`(0, -9.81, 0)`, the operations of `getGeneralizedGravityForce` give the single generalized
force `m * g * L * c` with `g = 9.81`.  The rounding of the program is not modelled. -/
theorem getGeneralizedGravityForce_pendulum_exact (ext : ExternalPasses) (w : DriverWorld)
    (m L c s : PxReal)
    (hm : m ≠ 0) (hdirty : w.data.dataDirty = false) (hfix : w.data.fixBase = true)
    (hcount : w.data.linkCount = 2) (hparent : (w.data.links 1).parent = 0)
    (hjoint : w.data.jointData 1 = { jointOffset := 0, nbDof := 1 })
    (hroot : (w.data.links 0).bodyCore.inverseMass ≠ 0)
    (hmass : (w.data.links 1).bodyCore.inverseMass = 1 / m)
    (hS : w.data.mWorldMotionMatrix 0 = ⟨⟨0, 0, 1⟩, ⟨-(L * s), L * c, 0⟩⟩) :
    ∃ out, getGeneralizedGravityForce ext w ⟨0, -(981 / 100), 0⟩ false = some out ∧
      out.cache.jointForce 0 = m * (981 / 100) * L * c := by
  have hm1 : (1 : PxReal) / m ≠ 0 := one_div_ne_zero hm
  have hbias : gravityBiasForces w.data (PxVec3.neg ⟨0, -(981 / 100), 0⟩)
      (fun _ => SpatialVectorF.Zero) =
      some (Function.update (Function.update (fun _ => SpatialVectorF.Zero) 0
        { top := (PxVec3.neg ⟨0, -(981 / 100), 0⟩).scale (1 / (w.data.links 0).bodyCore.inverseMass)
          bottom := PxVec3.zero }) 1
        { top := (PxVec3.neg ⟨0, -(981 / 100), 0⟩).scale (1 / (1 / m)), bottom := PxVec3.zero }) := by
    simp [gravityBiasForces, hcount, forUp, forUpAux, uncheckedReciprocal, hroot, hmass, hm]
  have hgen : ∀ sd : ScratchData, computeGeneralizedForceInv w.data sd
      = computeGeneralizedForceInvBody w.data 1 sd := by
    intro sd
    simp [computeGeneralizedForceInv, hcount, u32Sub, forDown]
  unfold getGeneralizedGravityForce
  simp only [hdirty, hfix, hbias, Bool.false_eq_true, if_false, Bool.or_true, if_true,
    Option.map_some', Bool.false_or, Bool.false_and]
  refine ⟨_, rfl, ?_⟩
  simp [hgen, computeGeneralizedForceInvBody, hparent, hjoint, projectJointForces, forUp,
    forUpAux, hS, SpatialVectorF.innerProduct, PxVec3.dot, PxVec3.scale, PxVec3.neg,
    PxVec3.zero, SpatialVectorF.add, PxVec3.add, translateSpatialVector, PxVec3.cross]
  field_simp
  ring

/-- The pendulum of mass 2 at distance 3, at the angle with cosine 3/5 and sine 4/5, in exact
arithmetic. -/
theorem getGeneralizedGravityForce_pendulum_instance :
    ∃ out, getGeneralizedGravityForce ⟨fun _ sd => sd, fun _ sd => sd, fun _ _ sd => sd⟩
        { data := pendulumData 2 3 (3 / 5) (4 / 5) } ⟨0, -(981 / 100), 0⟩ false = some out ∧
      out.cache.jointForce 0 = 2 * (981 / 100) * 3 * (3 / 5) :=
  getGeneralizedGravityForce_pendulum_exact ⟨fun _ sd => sd, fun _ sd => sd, fun _ _ sd => sd⟩
    { data := pendulumData 2 3 (3 / 5) (4 / 5) } 2 3 (3 / 5) (4 / 5) (by norm_num) rfl rfl rfl rfl
    rfl (by simp [pendulumData]) (by simp [pendulumData]) rfl

/-! ## C16: `computeLinkAccelerationInv` -/

theorem SpatialVectorF.Zero_add (a : SpatialVectorF) : SpatialVectorF.Zero.add a = a := by
  cases a with
  | mk t b =>
    cases t; cases b
    simp [SpatialVectorF.add, SpatialVectorF.Zero, PxVec3.zero, PxVec3.add]

theorem spatialSum_zero (f : Nat → SpatialVectorF) : spatialSum 0 f = SpatialVectorF.Zero := by
  simp [spatialSum, SpatialVectorF.Zero, PxVec3.zero]

theorem spatialSum_succ (n : Nat) (f : Nat → SpatialVectorF) :
    spatialSum (n + 1) f = (spatialSum n f).add (f n) := by
  simp [spatialSum, SpatialVectorF.add, PxVec3.add, Finset.sum_range_succ]

theorem SpatialVectorF.add_add (a b c : SpatialVectorF) :
    (a.add b).add c = a.add (b.add c) := by
  simp only [SpatialVectorF.add, PxVec3.add, SpatialVectorF.mk.injEq, PxVec3.mk.injEq]
  refine ⟨⟨?_, ?_, ?_⟩, ?_, ?_, ?_⟩ <;> ring

/-- The joint loop of `computeLinkAccelerationInv` adds the sum of the joint terms. -/
theorem jointAccelerationContribution_eq (data : ArticulationData) (j : Nat → PxReal)
    (jointOffset nbDof : Nat) (init : SpatialVectorF) :
    jointAccelerationContribution data j jointOffset nbDof init =
      init.add (spatialSum nbDof (fun k =>
        (data.mWorldMotionMatrix (jointOffset + k)).scale (j (jointOffset + k)))) := by
  unfold jointAccelerationContribution
  refine forUp_invariant 0 nbDof _
    (fun i acc => acc = init.add (spatialSum i (fun k =>
      (data.mWorldMotionMatrix (jointOffset + k)).scale (j (jointOffset + k)))))
    (Nat.zero_le _) init ?_ ?_
  · show init = init.add (spatialSum 0 _)
    rw [spatialSum_zero, SpatialVectorF.add_Zero]
  · intro i acc _ _ hacc
    show (⟨acc.top.add _, acc.bottom.add _⟩ : SpatialVectorF) = _
    rw [spatialSum_succ, ← SpatialVectorF.add_add, ← hacc]
    rfl

/-- C16: for a tree with `parent[i] < i`, after `computeLinkAccelerationInv` every link
`i >= 1` has `motionAccelerations[i] = translateSpatialVector(-Rw[i],
motionAccelerations[parent[i]]) + coriolisVectors[i] + sum over k < nbDof_i of
worldMotionMatrix[jointOffset_i + k] * jointAccelerations[jointOffset_i + k]`, the parent's
value being its final value; for a null joint-acceleration buffer the joint sum is zero. -/
theorem C16_link_acceleration (data : ArticulationData) (sd : ScratchData)
    (hparent : ∀ i, 0 < i → i < data.linkCount → (data.links i).parent < i)
    (i : Nat) (hi0 : 0 < i) (hi : i < data.linkCount) :
    (computeLinkAccelerationInv data sd).motionAccelerations i =
      ((translateSpatialVector (data.rw i).neg
          ((computeLinkAccelerationInv data sd).motionAccelerations (data.links i).parent)).add
        (sd.coriolisVectors i)).add
        (jointAccelerationTerm data sd.jointAccelerations i) := by
  by_cases h1 : 1 ≤ data.linkCount
  swap
  · omega
  unfold computeLinkAccelerationInv
  have key := forUp_invariant 1 data.linkCount (computeLinkAccelerationInvBody data)
    (fun n s => (∃ m, s = { sd with motionAccelerations := m }) ∧
      ∀ i, 0 < i → i < n → s.motionAccelerations i =
        ((translateSpatialVector (data.rw i).neg
            (s.motionAccelerations (data.links i).parent)).add
          (sd.coriolisVectors i)).add (jointAccelerationTerm data sd.jointAccelerations i)) h1
    { sd with motionAccelerations := Function.update sd.motionAccelerations 0 SpatialVectorF.Zero }
    ⟨⟨_, rfl⟩, by intro i h0 h1; omega⟩
    (by
      intro n s hn1 hn2 hs
      obtain ⟨⟨m, hm⟩, hval⟩ := hs
      subst hm
      refine ⟨⟨_, rfl⟩, ?_⟩
      intro i h0 hlt
      have hp := hparent i h0 (by omega)
      show Function.update m n _ i = ((translateSpatialVector (data.rw i).neg
        (Function.update m n _ (data.links i).parent)).add _).add _
      by_cases hin : i = n
      · subst hin
        rw [Function.update_same, Function.update_noteq (Nat.ne_of_lt hp)]
        cases hja : sd.jointAccelerations with
        | none => rfl
        | some jacc =>
          simp only [jointAccelerationTerm]
          rw [jointAccelerationContribution_eq]
          show (_ : SpatialVectorF).add (SpatialVectorF.Zero.add _) = _
          rw [SpatialVectorF.Zero_add]
      · have hlt2 : i < n := by omega
        rw [Function.update_noteq hin, Function.update_noteq (by omega)]
        exact hval i h0 hlt2)
  exact key.2 i hi0 hi

/-- C16 on the three-link chain, link 2, with joint accelerations `1, 2, ...`. -/
theorem C16_link_acceleration_witness :
    (computeLinkAccelerationInv chainData
        { busyScratch with jointAccelerations := some (fun k => (k : PxReal) + 1)
        }).motionAccelerations 2 =
      ((translateSpatialVector (chainData.rw 2).neg
          ((computeLinkAccelerationInv chainData
            { busyScratch with jointAccelerations := some (fun k => (k : PxReal) + 1)
            }).motionAccelerations (chainData.links 2).parent)).add
        (busyScratch.coriolisVectors 2)).add
        (jointAccelerationTerm chainData (some (fun k => (k : PxReal) + 1)) 2) :=
  C16_link_acceleration chainData
    { busyScratch with jointAccelerations := some (fun k => (k : PxReal) + 1) }
    chainData_parent_lt 2 (by decide) (by decide)

/-! ## C20: outward replay of a branch of length two -/

/-- C20 (evaluation at the failing input): on the floating three-link chain, for the pair
`(0, 2)` the branch of link 2 is recorded as `[2, 1]` and the common ancestor is the root.
The velocity change returned for link 2 is `propagateVelocityW` applied for link 2 directly to
the velocity `v` of the common ancestor; it is not the velocity obtained by propagating `v`
to link 1 and the result to link 2. -/
theorem C20_branch_replay_uses_ancestor_velocity :
    (getImpulseResponseSlowInv sampleKernels floatingChainAligned 3 0 ⟨⟨1, 0, 0⟩, ⟨0, 0, 1⟩⟩ 2
        ⟨⟨0, 1, 0⟩, ⟨0, 0, 0⟩⟩ (fun _ => 0) (fun _ => SpatialVectorF.Zero)).map
      (fun r => (r.common, r.pushes, r.deltaV1,
        (slowInvPropagate sampleKernels floatingChainAligned r.Z 2 r.v (fun _ => 0)).1,
        (slowInvPropagate sampleKernels floatingChainAligned r.Z 2
          (slowInvPropagate sampleKernels floatingChainAligned r.Z 1 r.v (fun _ => 0)).1
          (fun _ => 0)).1))
      = some (0, [2, 1], ⟨⟨1, 1, 0⟩, ⟨-1, 0, 1⟩⟩,
          ⟨⟨-1, 0, 1⟩, ⟨1, 1, 0⟩⟩, ⟨⟨-1, 0, 2⟩, ⟨1, 3, 0⟩⟩) := by
  with_unfolding_all rfl

/-! ## C21: the index relabelling of the root inertia block -/

/-- C21, as stated, fails at `(row, col) = (1, 1)`: the code reads index 13 where the
documented table has 23. -/
theorem C21_index_table_counterexample :
    rootInertiaIndex 1 1 = 13 ∧ documentedRootTable 1 1 = 23 ∧
      rootInertiaIndex 1 1 ≠ documentedRootTable 1 1 := by
  decide

/-- C21 (amended): for every `0 <= row <= col < 6` the index read by
`calculateHFloatingBase` for mass-matrix entry `(row, col)` is the entry of the documented
right-hand table, except at `(1, 1)` where it is 13 (the entry `(1, 4)` of the documented
left-hand table, moved by the block swap) and not the documented 23. -/
theorem C21_index_table_amended (row col : Nat) (hrc : row ≤ col) (hc : col < 6) :
    rootInertiaIndex row col =
      if row = 1 ∧ col = 1 then 13 else documentedRootTable row col := by
  interval_cases col <;> interval_cases row <;> decide

/-- C21 (amended) at the entry `(0, 4)`. -/
theorem C21_index_table_amended_witness : rootInertiaIndex 0 4 = 3 :=
  C21_index_table_amended 0 4 (by decide) (by decide)

/-! ## C22, C23: the multipliers extracted by `getLambda` -/

/-- C22 (evaluation at the failing input): with two loop constraints whose resolved
impulses are `(1, 0, 0)` (write-back entry 0) and `(2, 0, 0)` (write-back entry 1), after one
iteration `lambda[1]` is `1`, the multiplier of constraint 0: the extraction loop reads
`lConstraints->constraint`, the first constraint, for every `i`. -/
theorem C22_lambda_reads_first_constraint :
    (fun r : LambdaResult =>
        (r.cache.lambda 0, r.cache.lambda 1, (r.writeBackPool 0).linearImpulse,
          (r.writeBackPool 1).linearImpulse))
      (getLambda indexedSolver { art := chainArticulation } {} twoLoopConstraints 2 {} {}
        (fun _ => 0) ⟨0, -10, 0⟩ 1 1)
      = (1, 1, ⟨1, 0, 0⟩, ⟨2, 0, 0⟩) := by
  with_unfolding_all rfl

/-- C29 (evaluation at the failing input): for a prismatic joint whose free translation axis
is `z`, column 2 of the matrix built by `jcalcLoopJointSubspace` is `(rx, 0)`, not `(rz, 0)`;
for the free axes `x` and `y` column 2 is `(rz, 0)`. -/
theorem C29_prismatic_z_column_two (rx ry rz : PxVec3) (T0 : SpatialSubspaceMatrix) :
    (jcalcLoopJointSubspacePrismatic rx ry rz ⟨PxVec3.zero, ⟨0, 0, 1⟩⟩ T0).columns 2
      = ⟨rx, PxVec3.zero⟩ ∧
    (jcalcLoopJointSubspacePrismatic rx ry rz ⟨PxVec3.zero, ⟨1, 0, 0⟩⟩ T0).columns 2
      = ⟨rz, PxVec3.zero⟩ ∧
    (jcalcLoopJointSubspacePrismatic rx ry rz ⟨PxVec3.zero, ⟨0, 1, 0⟩⟩ T0).columns 2
      = ⟨rz, PxVec3.zero⟩ := by
  refine ⟨?_, ?_, ?_⟩ <;>
    simp [jcalcLoopJointSubspacePrismatic, SpatialVectorF.get, PxVec3.get,
      SpatialSubspaceMatrix.setColumn, Function.update_apply]

/-! ## C30: one iteration never converges -/

/-- The multiplier that one run of the extraction loop writes for every constraint. -/
theorem getLambdaExtract_spec (sx : LoopSolverExternals)
    (lConstraints : Nat → ArticulationLoopConstraint) (nbJoints : Nat) (dt invDt : PxReal)
    (st : LambdaState) :
    (∀ i, i < nbJoints →
      (getLambdaExtract sx lConstraints nbJoints dt invDt st).cache.lambda i =
        sx.magnitude ((st.world.writeBackPool (lConstraints 0).constraint.index).linearImpulse.scale
          invDt) * dt) ∧
    ((∃ i, i < nbJoints ∧
        |st.previousLambdas i - sx.magnitude
          ((st.world.writeBackPool (lConstraints 0).constraint.index).linearImpulse.scale invDt)
            * dt| > 1 / 100000) →
      (getLambdaExtract sx lConstraints nbJoints dt invDt st).found = false) := by
  unfold getLambdaExtract
  have key := forUp_invariant 0 nbJoints (getLambdaExtractStep sx lConstraints dt invDt)
    (fun n (s : LambdaState) => s.world = st.world ∧
      (∀ i, i < n → s.cache.lambda i =
        sx.magnitude ((st.world.writeBackPool (lConstraints 0).constraint.index).linearImpulse.scale
          invDt) * dt) ∧
      (∀ i, n ≤ i → s.previousLambdas i = st.previousLambdas i) ∧
      ((∃ i, i < n ∧
        |st.previousLambdas i - sx.magnitude
          ((st.world.writeBackPool (lConstraints 0).constraint.index).linearImpulse.scale invDt)
            * dt| > 1 / 100000) → s.found = false))
    (Nat.zero_le _) st
    ⟨rfl, fun i hi => absurd hi (Nat.not_lt_zero i), fun _ _ => rfl,
      fun ⟨i, hi, _⟩ => absurd hi (Nat.not_lt_zero i)⟩
    (by
      intro n s _ _ hs
      obtain ⟨hw, hlam, hprev, hfound⟩ := hs
      refine ⟨hw, ?_, ?_, ?_⟩
      · intro i hi
        show Function.update s.cache.lambda n _ i = _
        by_cases hin : i = n
        · subst hin
          rw [Function.update_same, hw]
        · rw [Function.update_noteq hin]
          exact hlam i (by omega)
      · intro i hi
        show Function.update s.previousLambdas n _ i = _
        rw [Function.update_noteq (by omega)]
        exact hprev i (by omega)
      · rintro ⟨i, hi, hgt⟩
        show (if |s.previousLambdas n - _| > (1 : PxReal) / 100000 then false else s.found) = false
        by_cases hin : i = n
        · subst hin
          rw [hprev i (le_refl _), hw, if_pos hgt]
        · have := hfound ⟨i, by omega, hgt⟩
          rw [this]
          split <;> rfl)
  exact ⟨key.2.1, key.2.2.2⟩

/-- The buffer `previousLambdas` after its initialisation loop (lines 1708-1711). -/
theorem previousLambdas_init (nbJoints : Nat) (p : Nat → PxReal) (i : Nat) (hi : i < nbJoints) :
    forUp 0 nbJoints (fun i (p : Nat → PxReal) => Function.update p i PX_MAX_F32) p i
      = PX_MAX_F32 := by
  have key := forUp_invariant 0 nbJoints
    (fun i (p : Nat → PxReal) => Function.update p i PX_MAX_F32)
    (fun n q => ∀ i, i < n → q i = PX_MAX_F32) (Nat.zero_le _) p
    (fun i hi => absurd hi (Nat.not_lt_zero i))
    (by
      intro n q _ _ hq i hi
      show Function.update q n PX_MAX_F32 i = _
      by_cases hin : i = n
      · subst hin
        rw [Function.update_same]
      · rw [Function.update_noteq hin]
        exact hq i (by omega))
  exact key i hi

/-- C30: for every call of `getLambda` with `nbJoints >= 1` and `maxIter == 1` in which every
extracted multiplier is smaller than `PX_MAX_F32 - 1e-5`, the call returns `false`: the
previous multipliers start at `PX_MAX_F32`, so the first iteration cannot meet the
convergence test. -/
theorem C30_single_iteration_returns_false (sx : LoopSolverExternals) (world : SolverWorld)
    (allocator : PxcScratchAllocator) (lConstraints : Nat → ArticulationLoopConstraint)
    (nbJoints : Nat) (cache initialState : PxArticulationCache) (jointTorque : Nat → PxReal)
    (gravity : PxVec3) (invLengthScale : PxReal) (hnb : 1 ≤ nbJoints)
    (hlam : ∀ i, i < nbJoints →
      (getLambda sx world allocator lConstraints nbJoints cache initialState jointTorque gravity
        1 invLengthScale).cache.lambda i < PX_MAX_F32 - 1 / 100000) :
    (getLambda sx world allocator lConstraints nbJoints cache initialState jointTorque gravity
      1 invLengthScale).found = false := by
  have hspec := getLambdaExtract_spec sx lConstraints nbJoints world.art.mArticulationData.dt
    (1 / world.art.mArticulationData.dt)
    (getLambdaSolve sx
      (constraintPrep sx world.art.mArticulationData.dt (1 / world.art.mArticulationData.dt)
        lConstraints nbJoints (fun _ => {})) nbJoints
      { getLambdaInitialState sx world nbJoints cache gravity invLengthScale with found := true })
  have hres : ∀ P : LambdaState → Prop,
      (∀ st2 : LambdaState, P st2 → P (getLambdaUpdate sx nbJoints
        world.art.mArticulationData.dofs world.art.mArticulationData.linkCount initialState
        jointTorque gravity st2)) →
      P (getLambdaExtract sx lConstraints nbJoints world.art.mArticulationData.dt
        (1 / world.art.mArticulationData.dt)
        (getLambdaSolve sx
          (constraintPrep sx world.art.mArticulationData.dt (1 / world.art.mArticulationData.dt)
            lConstraints nbJoints (fun _ => {})) nbJoints
          { getLambdaInitialState sx world nbJoints cache gravity invLengthScale with
            found := true })) →
      P (getLambdaLoop sx
        (constraintPrep sx world.art.mArticulationData.dt (1 / world.art.mArticulationData.dt)
          lConstraints nbJoints (fun _ => {})) lConstraints nbJoints
        world.art.mArticulationData.dofs world.art.mArticulationData.linkCount
        world.art.mArticulationData.dt (1 / world.art.mArticulationData.dt) initialState
        jointTorque gravity 1
        (getLambdaInitialState sx world nbJoints cache gravity invLengthScale)) := by
    intro P hupd hP
    show P (if _ then _ else _)
    split
    · exact hP
    · exact hupd _ hP
  have hl0 := hlam 0 hnb
  have hlam0 := hres (fun st => st.cache.lambda 0 < PX_MAX_F32 - 1 / 100000 →
      sx.magnitude (((getLambdaSolve sx
        (constraintPrep sx world.art.mArticulationData.dt (1 / world.art.mArticulationData.dt)
          lConstraints nbJoints (fun _ => {})) nbJoints
        { getLambdaInitialState sx world nbJoints cache gravity invLengthScale with
          found := true }).world.writeBackPool
            (lConstraints 0).constraint.index).linearImpulse.scale
              (1 / world.art.mArticulationData.dt)) * world.art.mArticulationData.dt
        < PX_MAX_F32 - 1 / 100000)
    (fun st2 h => h)
    (by
      intro h
      rw [hspec.1 0 hnb] at h
      exact h) hl0
  refine hres (fun st => st.found = false) (fun st2 h => h) ?_
  apply hspec.2
  refine ⟨0, hnb, ?_⟩
  have hprev : (getLambdaSolve sx
      (constraintPrep sx world.art.mArticulationData.dt (1 / world.art.mArticulationData.dt)
        lConstraints nbJoints (fun _ => {})) nbJoints
      { getLambdaInitialState sx world nbJoints cache gravity invLengthScale with
        found := true }).previousLambdas 0 = PX_MAX_F32 :=
    previousLambdas_init nbJoints (fun _ => 0) 0 hnb
  rw [hprev]
  have h1 : (1 : PxReal) / 100000 < PX_MAX_F32 - sx.magnitude (((getLambdaSolve sx
        (constraintPrep sx world.art.mArticulationData.dt (1 / world.art.mArticulationData.dt)
          lConstraints nbJoints (fun _ => {})) nbJoints
        { getLambdaInitialState sx world nbJoints cache gravity invLengthScale with
          found := true }).world.writeBackPool
            (lConstraints 0).constraint.index).linearImpulse.scale
              (1 / world.art.mArticulationData.dt)) * world.art.mArticulationData.dt := by
    linarith
  exact lt_of_lt_of_le h1 (le_abs_self _)

theorem indexedSolver_lambda (i : Nat) (hi : i < 2) :
    (getLambda indexedSolver { art := chainArticulation } {} twoLoopConstraints 2 {} {}
      (fun _ => 0) ⟨0, -10, 0⟩ 1 1).cache.lambda i = 1 := by
  interval_cases i <;> with_unfolding_all rfl

/-- C30 with the indexed sample solver on the three-link chain and two loop constraints. -/
theorem C30_single_iteration_returns_false_witness :
    (getLambda indexedSolver { art := chainArticulation } {} twoLoopConstraints 2 {} {}
      (fun _ => 0) ⟨0, -10, 0⟩ 1 1).found = false :=
  C30_single_iteration_returns_false indexedSolver { art := chainArticulation } {}
    twoLoopConstraints 2 {} {} (fun _ => 0) ⟨0, -10, 0⟩ 1 (by decide)
    (fun i hi => by
      rw [indexedSolver_lambda i hi]
      norm_num [PX_MAX_F32])

/-! ## C24: the residual joint force -/

/-- A loop that rewrites entry `j` from its old value, for `j < n`. -/
theorem forUp_update_pointwise {α : Type} (n : Nat) (h : Nat → α → α) (f0 : Nat → α)
    (idx : Nat) :
    forUp 0 n (fun j (f : Nat → α) => Function.update f j (h j (f j))) f0 idx =
      if idx < n then h idx (f0 idx) else f0 idx := by
  have key := forUp_invariant 0 n (fun j (f : Nat → α) => Function.update f j (h j (f j)))
    (fun i g => ∀ idx, g idx = if idx < i then h idx (f0 idx) else f0 idx) (Nat.zero_le _) f0
    (fun idx => by rw [if_neg (Nat.not_lt_zero idx)])
    (by
      intro i g _ _ hg idx
      show Function.update g i (h i (g i)) idx = _
      by_cases hi : idx = i
      · subst hi
        rw [Function.update_same, if_pos (Nat.lt_succ_self idx), hg idx,
          if_neg (Nat.lt_irrefl idx)]
      · rw [Function.update_noteq hi, hg idx]
        by_cases hlt : idx < i
        · rw [if_pos hlt, if_pos (Nat.lt_succ_of_lt hlt)]
        · rw [if_neg hlt, if_neg (by omega)])
  exact key idx

/-- The joint force left by `getLambdaResidual` (lines 1765-1786) at a DOF `j < totalDofs`. -/
theorem getLambdaResidual_jointForce (nbJoints totalDofs : Nat) (jointTorque : Nat → PxReal)
    (cache : PxArticulationCache) (j : Nat) (hj : j < totalDofs) :
    (getLambdaResidual nbJoints totalDofs jointTorque cache).jointForce j =
      jointTorque j - ∑ c in Finset.range nbJoints,
        cache.coefficientMatrix (c * totalDofs + j) * cache.lambda c := by
  unfold getLambdaResidual
  show forUp 0 totalDofs (fun j (jf : Nat → PxReal) =>
    Function.update jf j (jointTorque j - jf j)) _ j = _
  rw [forUp_update_pointwise totalDofs (fun j x => jointTorque j - x), if_pos hj]
  congr 1
  have key := forUp_invariant 0 nbJoints
    (fun colInd (jf : Nat → PxReal) =>
      forUp 0 totalDofs (fun j (jf : Nat → PxReal) =>
        Function.update jf j
          (jf j + cache.coefficientMatrix (colInd * totalDofs + j) * cache.lambda colInd))
        jf)
    (fun n jf => ∀ j, j < totalDofs → jf j = ∑ c in Finset.range n,
      cache.coefficientMatrix (c * totalDofs + j) * cache.lambda c)
    (Nat.zero_le _) (memZero (0 : PxReal) totalDofs cache.jointForce)
    (by
      intro j hj
      simp [memZero, hj])
    (by
      intro n jf _ _ hjf j hj
      show forUp 0 totalDofs (fun j (jf : Nat → PxReal) =>
        Function.update jf j
          (jf j + cache.coefficientMatrix (n * totalDofs + j) * cache.lambda n)) jf j = _
      rw [forUp_update_pointwise totalDofs
        (fun j x => x + cache.coefficientMatrix (n * totalDofs + j) * cache.lambda n),
        if_pos hj, hjf j hj, Finset.sum_range_succ])
  exact key j hj

/-- C24: in every non-converged iteration of `getLambda` (the tail `getLambdaUpdate` of the
loop body, entered exactly when the convergence test fails) the joint force written to
`cache.jointForce` is the residual `jointForce[j] = jointTorque[j] - sum over c < nbJoints of
J[c * totalDofs + j] * lambda[c]` for every DOF `j < totalDofs`, with `J` the coefficient
matrix of the cache; and that cache is the one applied for the next iteration: the
articulation handed on is `applyCache(cache, eFORCE)` of `applyCache(initialState, eALL)` of
the current articulation, followed by `init`, `computeLinkVelocities`, `computeZ`,
`computeArticulatedSpatialZ`, `computeLinkAcceleration` and the zeroing of the first
`linkCount` zero-acceleration vectors; the next iteration of the loop starts from that
state. -/
theorem C24_residual_joint_force (sx : LoopSolverExternals) (desc : Nat → PxSolverConstraintDesc)
    (lConstraints : Nat → ArticulationLoopConstraint) (nbJoints totalDofs linkCount : Nat)
    (dt invDt : PxReal)
    (initialState : PxArticulationCache) (jointTorque : Nat → PxReal) (gravity : PxVec3)
    (st : LambdaState) (j : Nat) (hj : j < totalDofs) :
    (getLambdaUpdate sx nbJoints totalDofs linkCount initialState jointTorque gravity
        st).cache.jointForce j =
      jointTorque j - ∑ c in Finset.range nbJoints,
        st.cache.coefficientMatrix (c * totalDofs + j) * st.cache.lambda c ∧
    (∃ art2 : FeatherstoneArticulation,
      art2 = sx.applyCache
        (getLambdaUpdate sx nbJoints totalDofs linkCount initialState jointTorque gravity
          st).cache
        [PxArticulationCacheFlag.eFORCE] (sx.applyCache initialState sx.eALL st.world.art) ∧
      (getLambdaUpdate sx nbJoints totalDofs linkCount initialState jointTorque gravity
          st).world.art =
        { art2 with
          mArticulationData :=
            { sx.computeLinkAcceleration (sx.computeArticulatedSpatialZ
                (sx.computeZ (sx.computeLinkVelocities (sx.init art2.mArticulationData))
                  gravity)) with
              mSpatialZAVectors := memZero SpatialVectorF.Zero linkCount
                (sx.computeLinkAcceleration (sx.computeArticulatedSpatialZ
                  (sx.computeZ (sx.computeLinkVelocities (sx.init art2.mArticulationData))
                    gravity))).mSpatialZAVectors } }) ∧
    (∀ remaining : Nat,
      (getLambdaExtract sx lConstraints nbJoints dt invDt
        (getLambdaSolve sx desc nbJoints { st with found := true })).found = false →
      getLambdaLoop sx desc lConstraints nbJoints totalDofs linkCount dt invDt initialState
          jointTorque gravity (remaining + 1) st =
        getLambdaLoop sx desc lConstraints nbJoints totalDofs linkCount dt invDt initialState
          jointTorque gravity remaining
          (getLambdaUpdate sx nbJoints totalDofs linkCount initialState jointTorque gravity
            (getLambdaExtract sx lConstraints nbJoints dt invDt
              (getLambdaSolve sx desc nbJoints { st with found := true })))) := by
  refine ⟨getLambdaResidual_jointForce nbJoints totalDofs jointTorque st.cache j hj,
    ⟨_, rfl, rfl⟩, ?_⟩
  intro remaining hnf
  show (if _ then _ else _) = _
  rw [if_neg (by rw [hnf]; exact Bool.false_ne_true)]

/-- C24 with two loop constraints and two DOFs, at DOF 1: the residual is `6 - (1 * 1 + 3 * 2)`,
and with the sample collaborators it is the joint force of the articulation handed to the
next iteration. -/
theorem C24_residual_joint_force_witness :
    (getLambdaUpdate sampleSolver 2 2 3 {} (fun j => (j : PxReal) + 5) ⟨0, -10, 0⟩
        { world := { art := chainArticulation }
          cache := { coefficientMatrix := fun k => (k : PxReal), lambda := fun c => (c : PxReal) + 1 }
        }).cache.jointForce 1 =
      (fun j : Nat => (j : PxReal) + 5) 1 - ∑ c in Finset.range 2,
        (fun k : Nat => (k : PxReal)) (c * 2 + 1) * (fun c : Nat => (c : PxReal) + 1) c ∧
    (getLambdaUpdate sampleSolver 2 2 3 {} (fun j => (j : PxReal) + 5) ⟨0, -10, 0⟩
        { world := { art := chainArticulation }
          cache := { coefficientMatrix := fun k => (k : PxReal), lambda := fun c => (c : PxReal) + 1 }
        }).world.art.mArticulationData.mJointForce 1 = -1 :=
  ⟨(C24_residual_joint_force sampleSolver (fun _ => {}) (fun _ => {}) 2 2 3 1 1 {}
    (fun j => (j : PxReal) + 5) ⟨0, -10, 0⟩
    { world := { art := chainArticulation }
      cache := { coefficientMatrix := fun k => (k : PxReal), lambda := fun c => (c : PxReal) + 1 } }
    1 (by decide)).1, by with_unfolding_all rfl⟩

/-! ## C25: the centroidal momentum matrix -/

/-- A loop that rewrites entry `ι j` from its old value leaves every entry that is not
some `ι j` alone. -/
theorem forUp_update_index_other {α : Type} (lo hi : Nat) (ι : Nat → Nat) (h : Nat → α → α)
    (f0 : Nat → α) (idx : Nat) (hne : ∀ j, lo ≤ j → j < hi → ι j ≠ idx) :
    forUp lo hi (fun j (f : Nat → α) => Function.update f (ι j) (h j (f (ι j)))) f0 idx =
      f0 idx := by
  by_cases hle : lo ≤ hi
  · have key := forUp_invariant lo hi
      (fun j (f : Nat → α) => Function.update f (ι j) (h j (f (ι j))))
      (fun _ g => g idx = f0 idx) hle f0 rfl
      (by
        intro i g h1 h2 hg
        show Function.update g (ι i) (h i (g (ι i))) idx = _
        rw [Function.update_noteq (fun e => hne i h1 h2 e.symm), hg])
    exact key
  · have e : hi - lo = 0 := by omega
    unfold forUp
    rw [e]
    rfl

/-- A loop that rewrites entry `ι j` from its old value, with `ι` injective on the loop
range: the entry `ι r` ends as `h r` of its old value. -/
theorem forUp_update_index_hit {α : Type} (lo hi : Nat) (ι : Nat → Nat) (h : Nat → α → α)
    (f0 : Nat → α) (r : Nat) (h1 : lo ≤ r) (h2 : r < hi)
    (hinj : ∀ j, lo ≤ j → j < hi → ι j = ι r → j = r) :
    forUp lo hi (fun j (f : Nat → α) => Function.update f (ι j) (h j (f (ι j)))) f0 (ι r) =
      h r (f0 (ι r)) := by
  have key := forUp_invariant lo hi
    (fun j (f : Nat → α) => Function.update f (ι j) (h j (f (ι j))))
    (fun i g => g (ι r) = if r < i then h r (f0 (ι r)) else f0 (ι r)) (by omega) f0
    (by beta_reduce; rw [if_neg (by omega)])
    (by
      intro i g hi1 hi2 hg
      show Function.update g (ι i) (h i (g (ι i))) (ι r) = _
      by_cases e : i = r
      · subst e
        rw [Function.update_same, hg, if_neg (Nat.lt_irrefl _), if_pos (Nat.lt_succ_self _)]
      · have hne : ι r ≠ ι i := fun e2 => e (hinj i hi1 hi2 e2.symm)
        rw [Function.update_noteq hne, hg]
        by_cases hlt : r < i
        · rw [if_pos hlt, if_pos (by omega)]
        · rw [if_neg hlt, if_neg (by omega)])
  rw [key, if_pos h2]

/-- Two grid indices `c + r n` with columns below `n` agree only on the same column. -/
theorem grid_index_col {n c r c2 r2 : Nat} (hc : c < n) (hc2 : c2 < n)
    (e : c + r * n = c2 + r2 * n) : c = c2 := by
  have e1 : (c + r * n) % n = c := by rw [Nat.add_mul_mod_self_right, Nat.mod_eq_of_lt hc]
  have e2 : (c2 + r2 * n) % n = c2 := by rw [Nat.add_mul_mod_self_right, Nat.mod_eq_of_lt hc2]
  rw [e] at e1
  rw [← e1, e2]

/-- Two grid indices on the same column agree only on the same row. -/
theorem grid_index_row {n c r r2 : Nat} (hn : 0 < n) (e : c + r * n = c + r2 * n) : r = r2 := by
  have e1 : r * n = r2 * n := Nat.add_left_cancel e
  exact Nat.eq_of_mul_eq_mul_right hn e1

/-- A column-by-row loop nest that rewrites entry `col + row * n` from its old value:
the entry of column `c < n` and row `lo ≤ r < hi` ends as `g c r` of its old value. -/
theorem forUp_grid_hit {α : Type} (n lo hi : Nat) (g : Nat → Nat → α → α) (f0 : Nat → α)
    (c r : Nat) (hc : c < n) (h1 : lo ≤ r) (h2 : r < hi) :
    forUp 0 n (fun col (f : Nat → α) =>
      forUp lo hi (fun row (f : Nat → α) =>
        Function.update f (col + row * n) (g col row (f (col + row * n)))) f) f0 (c + r * n) =
      g c r (f0 (c + r * n)) := by
  have hn : 0 < n := by omega
  have key := forUp_invariant 0 n
    (fun col (f : Nat → α) =>
      forUp lo hi (fun row (f : Nat → α) =>
        Function.update f (col + row * n) (g col row (f (col + row * n)))) f)
    (fun i f => f (c + r * n) = if c < i then g c r (f0 (c + r * n)) else f0 (c + r * n))
    (Nat.zero_le _) f0 (by beta_reduce; rw [if_neg (by omega)])
    (by
      intro i f _ hi2 hf
      show forUp lo hi (fun row (f : Nat → α) =>
        Function.update f (i + row * n) (g i row (f (i + row * n)))) f (c + r * n) = _
      by_cases e : i = c
      · subst e
        rw [forUp_update_index_hit lo hi (fun row => i + row * n) (g i) f r h1 h2
          (fun j _ _ ej => grid_index_row hn ej), hf, if_neg (Nat.lt_irrefl _),
          if_pos (Nat.lt_succ_self _)]
      · rw [forUp_update_index_other lo hi (fun row => i + row * n) (g i) f (c + r * n)
          (fun j _ _ ej => e (grid_index_col hi2 hc ej)), hf]
        by_cases hlt : c < i
        · rw [if_pos hlt, if_pos (by omega)]
        · rw [if_neg hlt, if_neg (by omega)])
  rw [key, if_pos hc]

/-- The same loop nest leaves the entries of the rows outside `lo ≤ r < hi` alone. -/
theorem forUp_grid_other {α : Type} (n lo hi : Nat) (g : Nat → Nat → α → α) (f0 : Nat → α)
    (c r : Nat) (hc : c < n) (hr : r < lo ∨ hi ≤ r) :
    forUp 0 n (fun col (f : Nat → α) =>
      forUp lo hi (fun row (f : Nat → α) =>
        Function.update f (col + row * n) (g col row (f (col + row * n)))) f) f0 (c + r * n) =
      f0 (c + r * n) := by
  have hn : 0 < n := by omega
  have key := forUp_invariant 0 n
    (fun col (f : Nat → α) =>
      forUp lo hi (fun row (f : Nat → α) =>
        Function.update f (col + row * n) (g col row (f (col + row * n)))) f)
    (fun _ f => f (c + r * n) = f0 (c + r * n)) (Nat.zero_le _) f0 rfl
    (by
      intro i f _ hin hf
      show forUp lo hi (fun row (f : Nat → α) =>
        Function.update f (i + row * n) (g i row (f (i + row * n)))) f (c + r * n) = _
      rw [forUp_update_index_other lo hi (fun row => i + row * n) (g i) f (c + r * n) ?_, hf]
      intro j hj1 hj2 ej
      have e1 : i = c := grid_index_col hin hc ej
      subst e1
      have e2 : j = r := grid_index_row hn ej
      omega)
  exact key

/-- Every entry of rows 0..5 written by the copy loop is the mass-matrix entry. -/
theorem centroidalCopyRows_apply (n : Nat) (M dst : Nat → PxReal) (col row : Nat)
    (hc : col < n) (hr : row < 6) :
    centroidalCopyRows n M dst (col + row * n) = M (col + row * n) :=
  forUp_grid_hit n 0 6 (fun col row _ => M (col + row * n)) dst col row hc (Nat.zero_le _) hr

/-- The second column loop leaves rows 0..2 alone. -/
theorem centroidalAddRows_low (n : Nat) (M : Nat → PxReal) (mat : PxMat33) (dst : Nat → PxReal)
    (col row : Nat) (hc : col < n) (hr : row < 3) :
    centroidalAddRows n M mat dst (col + row * n) = dst (col + row * n) :=
  forUp_grid_other n 3 6
    (fun col row x =>
      x + (mat.transform ⟨M (0 * n + col), M (1 * n + col), M (2 * n + col)⟩).get (row - 3))
    dst col row hc (Or.inl hr)

/-- The second column loop adds `(mat * m)[row - 3]` to rows 3..5. -/
theorem centroidalAddRows_high (n : Nat) (M : Nat → PxReal) (mat : PxMat33)
    (dst : Nat → PxReal) (col row : Nat) (hc : col < n) (h1 : 3 ≤ row) (h2 : row < 6) :
    centroidalAddRows n M mat dst (col + row * n) =
      dst (col + row * n) +
        (mat.transform ⟨M (0 * n + col), M (1 * n + col), M (2 * n + col)⟩).get (row - 3) :=
  forUp_grid_hit n 3 6
    (fun col row x =>
      x + (mat.transform ⟨M (0 * n + col), M (1 * n + col), M (2 * n + col)⟩).get (row - 3))
    dst col row hc h1 h2

/-- Rows 0..2 of the bias are the Coriolis entries. -/
theorem centroidalBias_low (c : Nat → PxReal) (mat : PxMat33) (dst : Nat → PxReal) (row : Nat)
    (hr : row < 3) : centroidalBias c mat dst row = c row := by
  have e1 := forUp_update_index_other 3 6 (fun j => j)
    (fun row x => x + (mat.transform ⟨c 0, c 1, c 2⟩).get (row - 3))
    (forUp 0 6 (fun row (b : Nat → PxReal) => Function.update b row (c row)) dst) row
    (fun j h1 _ hj => by
      have hj2 : j = row := hj
      omega)
  have e2 := forUp_update_index_hit 0 6 (fun j => j) (fun row _ => c row) dst row
    (Nat.zero_le _) (by omega) (fun j _ _ e => e)
  exact e1.trans e2

/-- Rows 3..5 of the bias are the Coriolis entries plus `(mat * m)[row - 3]`. -/
theorem centroidalBias_high (c : Nat → PxReal) (mat : PxMat33) (dst : Nat → PxReal) (row : Nat)
    (h1 : 3 ≤ row) (h2 : row < 6) :
    centroidalBias c mat dst row = c row + (mat.transform ⟨c 0, c 1, c 2⟩).get (row - 3) := by
  have e1 := forUp_update_index_hit 3 6 (fun j => j)
    (fun row x => x + (mat.transform ⟨c 0, c 1, c 2⟩).get (row - 3))
    (forUp 0 6 (fun row (b : Nat → PxReal) => Function.update b row (c row)) dst) row
    h1 h2 (fun j _ _ e => e)
  have e2 := forUp_update_index_hit 0 6 (fun j => j) (fun row _ => c row) dst row
    (Nat.zero_le _) (by omega) (fun j _ _ e => e)
  have e3 : centroidalBias c mat dst row = _ := e1
  rw [e3]
  exact congrArg (fun t => t + (mat.transform ⟨c 0, c 1, c 2⟩).get (row - 3)) e2

/-- C25: on non-dirty data and with a non-zero total mass `M[2][2]` (the divisor of `pg`),
`getCentroidalMomentumMatrix` writes, for every column `col < dofs + 6`, rows 0..2 equal to
rows 0..2 of the mass matrix `M` and rows 3..5 equal to rows 3..5 of `M` plus `skew(pg)`
applied to `(M[0][col], M[1][col], M[2][col])`, with
`pg = (M[2][4], M[0][5], M[1][3]) / M[2][2]`; the bias is `coriolisForce[0..5]` with
`skew(pg)` applied to `coriolisForce[0..2]` added to its rows 3..5. -/
theorem C25_centroidal_momentum_matrix (w : DriverWorld) (hd : w.data.dataDirty = false)
    (hm : w.cache.massMatrix (2 * (w.data.dofs + 6) + 2) ≠ 0) :
    ∃ out, getCentroidalMomentumMatrix w = some out ∧
      (∀ col row, col < w.data.dofs + 6 → row < 3 →
        out.cache.centroidalMomentumMatrix (col + row * (w.data.dofs + 6)) =
          w.cache.massMatrix (col + row * (w.data.dofs + 6))) ∧
      (∀ col row, col < w.data.dofs + 6 → 3 ≤ row → row < 6 →
        out.cache.centroidalMomentumMatrix (col + row * (w.data.dofs + 6)) =
          w.cache.massMatrix (col + row * (w.data.dofs + 6)) +
            ((constructSkewSymmetricMatrix
              ⟨w.cache.massMatrix (2 * (w.data.dofs + 6) + 4) /
                  w.cache.massMatrix (2 * (w.data.dofs + 6) + 2),
               w.cache.massMatrix 5 / w.cache.massMatrix (2 * (w.data.dofs + 6) + 2),
               w.cache.massMatrix ((w.data.dofs + 6) + 3) /
                  w.cache.massMatrix (2 * (w.data.dofs + 6) + 2)⟩).transform
              ⟨w.cache.massMatrix (0 * (w.data.dofs + 6) + col),
               w.cache.massMatrix (1 * (w.data.dofs + 6) + col),
               w.cache.massMatrix (2 * (w.data.dofs + 6) + col)⟩).get (row - 3)) ∧
      (∀ row, row < 3 → out.cache.centroidalMomentumBias row = w.cache.coriolisForce row) ∧
      (∀ row, 3 ≤ row → row < 6 →
        out.cache.centroidalMomentumBias row =
          w.cache.coriolisForce row +
            ((constructSkewSymmetricMatrix
              ⟨w.cache.massMatrix (2 * (w.data.dofs + 6) + 4) /
                  w.cache.massMatrix (2 * (w.data.dofs + 6) + 2),
               w.cache.massMatrix 5 / w.cache.massMatrix (2 * (w.data.dofs + 6) + 2),
               w.cache.massMatrix ((w.data.dofs + 6) + 3) /
                  w.cache.massMatrix (2 * (w.data.dofs + 6) + 2)⟩).transform
              ⟨w.cache.coriolisForce 0, w.cache.coriolisForce 1,
               w.cache.coriolisForce 2⟩).get (row - 3)) := by
  have hpg : ∀ a b c t : PxReal, (PxVec3.mk a b c).scale (1 / t) = ⟨a / t, b / t, c / t⟩ := by
    intro a b c t
    simp only [PxVec3.scale, mul_one_div]
  unfold getCentroidalMomentumMatrix
  rw [hd]
  simp only [Bool.false_eq_true, if_false, uncheckedReciprocal, if_neg hm, Option.map_some', hpg]
  refine ⟨_, rfl, ?_, ?_, ?_, ?_⟩
  · intro col row hc hr
    show centroidalAddRows _ _ _ (centroidalCopyRows _ _ _) _ = _
    rw [centroidalAddRows_low _ _ _ _ col row hc hr,
      centroidalCopyRows_apply _ _ _ col row hc (by omega)]
  · intro col row hc hr1 hr2
    show centroidalAddRows _ _ _ (centroidalCopyRows _ _ _) _ = _
    rw [centroidalAddRows_high _ _ _ _ col row hc hr1 hr2,
      centroidalCopyRows_apply _ _ _ col row hc hr2]
  · intro row hr
    exact centroidalBias_low _ _ _ row hr
  · intro row hr1 hr2
    exact centroidalBias_high _ _ _ row hr1 hr2

/-- C25 on a one-DOF floating-base mass matrix with total mass 17. -/
theorem C25_centroidal_momentum_matrix_witness :
    ∃ out, getCentroidalMomentumMatrix centroidalSample = some out ∧
      (∀ col row, col < centroidalSample.data.dofs + 6 → row < 3 →
        out.cache.centroidalMomentumMatrix (col + row * (centroidalSample.data.dofs + 6)) =
          centroidalSample.cache.massMatrix (col + row * (centroidalSample.data.dofs + 6))) ∧
      (∀ col row, col < centroidalSample.data.dofs + 6 → 3 ≤ row → row < 6 →
        out.cache.centroidalMomentumMatrix (col + row * (centroidalSample.data.dofs + 6)) =
          centroidalSample.cache.massMatrix (col + row * (centroidalSample.data.dofs + 6)) +
            ((constructSkewSymmetricMatrix
              ⟨centroidalSample.cache.massMatrix (2 * (centroidalSample.data.dofs + 6) + 4) /
                  centroidalSample.cache.massMatrix (2 * (centroidalSample.data.dofs + 6) + 2),
               centroidalSample.cache.massMatrix 5 /
                  centroidalSample.cache.massMatrix (2 * (centroidalSample.data.dofs + 6) + 2),
               centroidalSample.cache.massMatrix ((centroidalSample.data.dofs + 6) + 3) /
                  centroidalSample.cache.massMatrix
                    (2 * (centroidalSample.data.dofs + 6) + 2)⟩).transform
              ⟨centroidalSample.cache.massMatrix (0 * (centroidalSample.data.dofs + 6) + col),
               centroidalSample.cache.massMatrix (1 * (centroidalSample.data.dofs + 6) + col),
               centroidalSample.cache.massMatrix
                 (2 * (centroidalSample.data.dofs + 6) + col)⟩).get (row - 3)) ∧
      (∀ row, row < 3 →
        out.cache.centroidalMomentumBias row = centroidalSample.cache.coriolisForce row) ∧
      (∀ row, 3 ≤ row → row < 6 →
        out.cache.centroidalMomentumBias row =
          centroidalSample.cache.coriolisForce row +
            ((constructSkewSymmetricMatrix
              ⟨centroidalSample.cache.massMatrix (2 * (centroidalSample.data.dofs + 6) + 4) /
                  centroidalSample.cache.massMatrix (2 * (centroidalSample.data.dofs + 6) + 2),
               centroidalSample.cache.massMatrix 5 /
                  centroidalSample.cache.massMatrix (2 * (centroidalSample.data.dofs + 6) + 2),
               centroidalSample.cache.massMatrix ((centroidalSample.data.dofs + 6) + 3) /
                  centroidalSample.cache.massMatrix
                    (2 * (centroidalSample.data.dofs + 6) + 2)⟩).transform
              ⟨centroidalSample.cache.coriolisForce 0, centroidalSample.cache.coriolisForce 1,
               centroidalSample.cache.coriolisForce 2⟩).get (row - 3)) :=
  C25_centroidal_momentum_matrix centroidalSample rfl
    (by
      show ((((2 * (1 + 6) + 2 : Nat) : PxReal)) + 1) ≠ 0
      norm_num)

/-! ## C26, C27: packing and unpacking joint data -/

/-- An unlocked axis raises the count of unlocked axes. -/
theorem unlockedBelow_lt (data : ArticulationData) (L : Nat) (j n : Nat) (hj : j < n)
    (hu : data.inboundJointMotion L j ≠ PxArticulationMotion.eLOCKED) :
    unlockedBelow data L j < unlockedBelow data L n := by
  induction n with
  | zero => omega
  | succ n ih =>
    by_cases e : j = n
    · subst e
      simp only [unlockedBelow, if_pos hu]
      omega
    · have h1 := ih (by omega)
      simp only [unlockedBelow]
      split <;> omega

/-- Every count below the number of unlocked axes is the count at some unlocked axis. -/
theorem unlockedBelow_surj (data : ArticulationData) (L : Nat) (n c : Nat)
    (hc : c < unlockedBelow data L n) :
    ∃ j, j < n ∧ data.inboundJointMotion L j ≠ PxArticulationMotion.eLOCKED ∧
      unlockedBelow data L j = c := by
  induction n with
  | zero => simp [unlockedBelow] at hc
  | succ n ih =>
    by_cases hu : data.inboundJointMotion L n ≠ PxArticulationMotion.eLOCKED
    · simp only [unlockedBelow, if_pos hu] at hc
      by_cases e : c = unlockedBelow data L n
      · exact ⟨n, Nat.lt_succ_self _, hu, e.symm⟩
      · obtain ⟨j, h1, h2, h3⟩ := ih (by omega)
        exact ⟨j, by omega, h2, h3⟩
    · simp only [unlockedBelow, if_neg hu] at hc
      obtain ⟨j, h1, h2, h3⟩ := ih hc
      exact ⟨j, by omega, h2, h3⟩

/-- The inner loop of `unpackJointData` for one link: the count, the six slots of the link,
and every other slot. -/
theorem unpackJoint_inner (data : ArticulationData) (r : Nat → PxReal) (L : Nat)
    (mx : Nat → PxReal) :
    (forUp 0 DY_MAX_DOF (unpackJointBody data r L) (0, mx)).1 = unlockedBelow data L DY_MAX_DOF ∧
    (∀ j, j < DY_MAX_DOF →
      (forUp 0 DY_MAX_DOF (unpackJointBody data r L) (0, mx)).2 ((L - 1) * DY_MAX_DOF + j) =
        if data.inboundJointMotion L j ≠ PxArticulationMotion.eLOCKED then
          r ((data.jointData L).jointOffset + unlockedBelow data L j)
        else 0) ∧
    (∀ y, (∀ j, j < DY_MAX_DOF → y ≠ (L - 1) * DY_MAX_DOF + j) →
      (forUp 0 DY_MAX_DOF (unpackJointBody data r L) (0, mx)).2 y = mx y) := by
  have key := forUp_invariant 0 DY_MAX_DOF (unpackJointBody data r L)
    (fun i st => st.1 = unlockedBelow data L i ∧
      (∀ j, j < i → st.2 ((L - 1) * DY_MAX_DOF + j) =
        if data.inboundJointMotion L j ≠ PxArticulationMotion.eLOCKED then
          r ((data.jointData L).jointOffset + unlockedBelow data L j)
        else 0) ∧
      (∀ y, (∀ j, j < DY_MAX_DOF → y ≠ (L - 1) * DY_MAX_DOF + j) → st.2 y = mx y))
    (Nat.zero_le _) (0, mx)
    ⟨rfl, fun j hj => absurd hj (Nat.not_lt_zero j), fun _ _ => rfl⟩
    (by
      rintro i ⟨cnt, g⟩ _ hi ⟨h1, h2, h3⟩
      simp only at h1 h2 h3
      subst h1
      by_cases hu : data.inboundJointMotion L i ≠ PxArticulationMotion.eLOCKED
      · simp only [unpackJointBody, if_pos hu, unlockedBelow]
        refine ⟨trivial, ?_, ?_⟩
        · intro j hj
          by_cases e : j = i
          · subst e
            rw [Function.update_same, if_pos hu]
          · rw [Function.update_noteq (by omega), h2 j (by omega)]
        · intro y hy
          rw [Function.update_noteq (hy i hi), h3 y hy]
      · simp only [unpackJointBody, if_neg hu, unlockedBelow]
        refine ⟨trivial, ?_, ?_⟩
        · intro j hj
          by_cases e : j = i
          · subst e
            rw [Function.update_same, if_neg hu]
          · rw [Function.update_noteq (by omega), h2 j (by omega)]
        · intro y hy
          rw [Function.update_noteq (hy i hi), h3 y hy])
  exact key

/-- What `unpackJointData` leaves in the slot of axis `j` of link `L`. -/
theorem unpackJointData_apply (data : ArticulationData) (r m0 : Nat → PxReal) (L j : Nat)
    (h1 : 1 ≤ L) (h2 : L < data.linkCount) (hj : j < DY_MAX_DOF) :
    unpackJointData data r m0 ((L - 1) * DY_MAX_DOF + j) =
      if data.inboundJointMotion L j ≠ PxArticulationMotion.eLOCKED then
        r ((data.jointData L).jointOffset + unlockedBelow data L j)
      else 0 := by
  have key := forUp_invariant 1 data.linkCount
    (fun linkID (mx : Nat → PxReal) =>
      (forUp 0 DY_MAX_DOF (unpackJointBody data r linkID) (0, mx)).2)
    (fun n mx => ∀ i j, 1 ≤ i → i < n → j < DY_MAX_DOF →
      mx ((i - 1) * DY_MAX_DOF + j) =
        if data.inboundJointMotion i j ≠ PxArticulationMotion.eLOCKED then
          r ((data.jointData i).jointOffset + unlockedBelow data i j)
        else 0)
    (by omega) m0 (fun i j a b _ => by omega)
    (by
      intro n mx hn1 hn2 hmx i j hi1 hi2 hj
      obtain ⟨_, hb, hc⟩ := unpackJoint_inner data r n mx
      by_cases e : i = n
      · subst e
        exact hb j hj
      · show (forUp 0 DY_MAX_DOF (unpackJointBody data r n) (0, mx)).2 _ = _
        rw [hc _ (by
          intro j2 hj2
          simp only [DY_MAX_DOF] at hj hj2 ⊢
          omega)]
        exact hmx i j hi1 (by omega) hj)
  exact key L j h1 h2 hj

/-- The inner loop of `packJointData` for one link: the count, the entries outside the
written range, and the entry written for each unlocked axis. -/
theorem packJoint_inner (data : ArticulationData) (m : Nat → PxReal) (L : Nat)
    (red : Nat → PxReal) :
    (forUp 0 DY_MAX_DOF (packJointBody data m L) (0, red)).1 = unlockedBelow data L DY_MAX_DOF ∧
    (∀ x, (∀ c, c < unlockedBelow data L DY_MAX_DOF → x ≠ (data.jointData L).jointOffset + c) →
      (forUp 0 DY_MAX_DOF (packJointBody data m L) (0, red)).2 x = red x) ∧
    (∀ j, j < DY_MAX_DOF → data.inboundJointMotion L j ≠ PxArticulationMotion.eLOCKED →
      (forUp 0 DY_MAX_DOF (packJointBody data m L) (0, red)).2
          ((data.jointData L).jointOffset + unlockedBelow data L j) =
        m ((L - 1) * DY_MAX_DOF + j)) := by
  have key := forUp_invariant 0 DY_MAX_DOF (packJointBody data m L)
    (fun i st => st.1 = unlockedBelow data L i ∧
      (∀ x, (∀ c, c < unlockedBelow data L i → x ≠ (data.jointData L).jointOffset + c) →
        st.2 x = red x) ∧
      (∀ j, j < i → data.inboundJointMotion L j ≠ PxArticulationMotion.eLOCKED →
        st.2 ((data.jointData L).jointOffset + unlockedBelow data L j) =
          m ((L - 1) * DY_MAX_DOF + j)))
    (Nat.zero_le _) (0, red)
    ⟨rfl, fun _ _ => rfl, fun j hj => absurd hj (Nat.not_lt_zero j)⟩
    (by
      rintro i ⟨cnt, g⟩ _ hi ⟨h1, h2, h3⟩
      simp only at h1 h2 h3
      subst h1
      by_cases hu : data.inboundJointMotion L i ≠ PxArticulationMotion.eLOCKED
      · simp only [packJointBody, if_pos hu, unlockedBelow]
        refine ⟨trivial, ?_, ?_⟩
        · intro x hx
          rw [Function.update_noteq (hx _ (Nat.lt_succ_self _)),
            h2 x (fun c hc => hx c (by omega))]
        · intro j hj huj
          by_cases e : j = i
          · subst e
            rw [Function.update_same]
          · have hlt := unlockedBelow_lt data L j i (by omega) huj
            rw [Function.update_noteq (by omega), h3 j (by omega) huj]
      · simp only [packJointBody, if_neg hu, unlockedBelow]
        refine ⟨trivial, h2, ?_⟩
        intro j hj huj
        by_cases e : j = i
        · subst e
          exact absurd huj hu
        · exact h3 j (by omega) huj)
  exact key

/-- C26: `unpackJointData` followed by `packJointData` reproduces the reduced array `r`:
for every link `1 ≤ i < linkCount` and every `k` below the number of non-locked axes of its
inbound joint, the repacked value at `jointOffset_i + k` is `r[jointOffset_i + k]`
(whatever the arrays held before, and whether or not the joint ranges overlap). -/
theorem C26_unpack_then_pack (data : ArticulationData) (r m0 r0 : Nat → PxReal) (i k : Nat)
    (h1 : 1 ≤ i) (h2 : i < data.linkCount) (hk : k < unlockedBelow data i DY_MAX_DOF) :
    packJointData data (unpackJointData data r m0) r0 ((data.jointData i).jointOffset + k) =
      r ((data.jointData i).jointOffset + k) := by
  have key := forUp_invariant 1 data.linkCount
    (fun linkID (red : Nat → PxReal) =>
      (forUp 0 DY_MAX_DOF (packJointBody data (unpackJointData data r m0) linkID) (0, red)).2)
    (fun n red => ∀ i k, 1 ≤ i → i < n → k < unlockedBelow data i DY_MAX_DOF →
      red ((data.jointData i).jointOffset + k) = r ((data.jointData i).jointOffset + k))
    (by omega) r0 (fun i k a b _ => by omega)
    (by
      intro n red hn1 hn2 hred i k hi1 hi2 hk
      obtain ⟨_, hb, hc⟩ := packJoint_inner data (unpackJointData data r m0) n red
      show (forUp 0 DY_MAX_DOF (packJointBody data (unpackJointData data r m0) n) (0, red)).2 _
        = _
      have hwritten : ∀ c, c < unlockedBelow data n DY_MAX_DOF →
          (forUp 0 DY_MAX_DOF (packJointBody data (unpackJointData data r m0) n) (0, red)).2
            ((data.jointData n).jointOffset + c) = r ((data.jointData n).jointOffset + c) := by
        intro c hc2
        obtain ⟨j, hj1, hj2, hj3⟩ := unlockedBelow_surj data n DY_MAX_DOF c hc2
        rw [← hj3, hc j hj1 hj2, unpackJointData_apply data r m0 n j hn1 hn2 hj1, if_pos hj2]
      by_cases hx : ∃ c, c < unlockedBelow data n DY_MAX_DOF ∧
          (data.jointData i).jointOffset + k = (data.jointData n).jointOffset + c
      · obtain ⟨c, hc1, hc2⟩ := hx
        rw [hc2]
        exact hwritten c hc1
      · rw [hb _ (fun c hc1 e => hx ⟨c, hc1, e⟩)]
        by_cases e : i = n
        · subst e
          exact absurd ⟨k, hk, rfl⟩ hx
        · exact hred i k hi1 (by omega) hk)
  exact key i k h1 h2 hk

/-- C26 on the sample chain: link 1, second reduced entry. -/
theorem C26_unpack_then_pack_witness :
    packJointData packSample
        (unpackJointData packSample (fun x => (x : PxReal) + 10) (fun _ => 7)) (fun _ => 9)
        ((packSample.jointData 1).jointOffset + 1) =
      (fun x : Nat => (x : PxReal) + 10) ((packSample.jointData 1).jointOffset + 1) :=
  C26_unpack_then_pack packSample (fun x => (x : PxReal) + 10) (fun _ => 7) (fun _ => 9) 1 1
    (by decide) (by decide) (by decide)

/-- C27: when the joints of the links `1 ≤ i < linkCount` occupy pairwise disjoint ranges
`[jointOffset, jointOffset + nbDof)` with `nbDof` the number of non-locked axes,
`packJointData` followed by `unpackJointData` yields an array that equals `m` on every
non-locked axis slot and is `0` on every locked axis slot. -/
theorem C27_pack_then_unpack (data : ArticulationData) (m r0 m0 : Nat → PxReal)
    (hnb : ∀ i, 1 ≤ i → i < data.linkCount →
      (data.jointData i).nbDof = unlockedBelow data i DY_MAX_DOF)
    (hdisj : ∀ i i2, 1 ≤ i → i < data.linkCount → 1 ≤ i2 → i2 < data.linkCount → i ≠ i2 →
      (data.jointData i).jointOffset + (data.jointData i).nbDof ≤ (data.jointData i2).jointOffset ∨
      (data.jointData i2).jointOffset + (data.jointData i2).nbDof ≤ (data.jointData i).jointOffset)
    (L j : Nat) (h1 : 1 ≤ L) (h2 : L < data.linkCount) (hj : j < DY_MAX_DOF) :
    unpackJointData data (packJointData data m r0) m0 ((L - 1) * DY_MAX_DOF + j) =
      if data.inboundJointMotion L j ≠ PxArticulationMotion.eLOCKED then
        m ((L - 1) * DY_MAX_DOF + j)
      else 0 := by
  rw [unpackJointData_apply data _ m0 L j h1 h2 hj]
  by_cases hu : data.inboundJointMotion L j ≠ PxArticulationMotion.eLOCKED
  · rw [if_pos hu, if_pos hu]
    have key := forUp_invariant 1 data.linkCount
      (fun linkID (red : Nat → PxReal) =>
        (forUp 0 DY_MAX_DOF (packJointBody data m linkID) (0, red)).2)
      (fun n red => ∀ i j, 1 ≤ i → i < n → j < DY_MAX_DOF →
        data.inboundJointMotion i j ≠ PxArticulationMotion.eLOCKED →
        red ((data.jointData i).jointOffset + unlockedBelow data i j) =
          m ((i - 1) * DY_MAX_DOF + j))
      (by omega) r0 (fun i j a b _ _ => by omega)
      (by
        intro n red hn1 hn2 hred i j hi1 hi2 hj hu
        obtain ⟨_, hb, hc⟩ := packJoint_inner data m n red
        show (forUp 0 DY_MAX_DOF (packJointBody data m n) (0, red)).2 _ = _
        by_cases e : i = n
        · subst e
          exact hc j hj hu
        · have hlt := unlockedBelow_lt data i j DY_MAX_DOF hj hu
          have hd := hdisj i n hi1 (by omega) hn1 hn2 e
          rw [hnb i hi1 (by omega), hnb n hn1 hn2] at hd
          rw [hb _ (fun c hc1 => by omega)]
          exact hred i j hi1 (by omega) hj hu)
    exact key L j h1 h2 hj hu
  · rw [if_neg hu, if_neg hu]

/-- C27 on the sample chain: link 1, axis 3 (free). -/
theorem C27_pack_then_unpack_witness :
    unpackJointData packSample (packJointData packSample (fun x => (x : PxReal) + 10)
        (fun _ => 9)) (fun _ => 7) ((1 - 1) * DY_MAX_DOF + 3) =
      if packSample.inboundJointMotion 1 3 ≠ PxArticulationMotion.eLOCKED then
        (fun x : Nat => (x : PxReal) + 10) ((1 - 1) * DY_MAX_DOF + 3)
      else 0 :=
  C27_pack_then_unpack packSample (fun x => (x : PxReal) + 10) (fun _ => 9) (fun _ => 7)
    (by
      intro i hi1 hi2
      have hi3 : i < 3 := hi2
      interval_cases i <;> decide)
    (by
      intro i i2 hi1 hi2 hj1 hj2 hne
      have hi3 : i < 3 := hi2
      have hj3 : i2 < 3 := hj2
      interval_cases i <;> interval_cases i2 <;> first | exact absurd rfl hne | decide)
    1 3 (by decide) (by decide) (by decide)

/-! ## C19: the common-path search -/

/-- In a tree with `parent[i] < i`, an ancestor-or-self has the smaller or equal index. -/
theorem IsAncestorOrSelf.le {parent : Nat → Nat} {n : Nat}
    (hp : ∀ i, i ≠ 0 → i < n → parent i < i) {a i : Nat} (h : IsAncestorOrSelf parent a i)
    (hi : i < n) : a ≤ i := by
  induction h with
  | self => exact le_refl _
  | up hne _ ih =>
    have h1 := hp _ hne hi
    have h2 := ih (by omega)
    omega

/-- The search loop ends, with enough fuel, on the nearest common ancestor. -/
theorem findCommon_nearest (parent : Nat → Nat) (n : Nat)
    (hp : ∀ i, i ≠ 0 → i < n → parent i < i) :
    ∀ fuel i0 i1, i0 < n → i1 < n → i0 + i1 ≤ fuel →
      ∃ c, findCommon parent fuel i0 i1 = some c ∧
        IsAncestorOrSelf parent c i0 ∧ IsAncestorOrSelf parent c i1 ∧
        ∀ a, IsAncestorOrSelf parent a i0 → IsAncestorOrSelf parent a i1 →
          IsAncestorOrSelf parent a c := by
  intro fuel
  induction fuel with
  | zero =>
    intro i0 i1 _ _ hf
    have e0 : i0 = 0 := by omega
    have e1 : i1 = 0 := by omega
    subst e0
    subst e1
    exact ⟨0, by simp [findCommon], IsAncestorOrSelf.self 0, IsAncestorOrSelf.self 0,
      fun a h _ => h⟩
  | succ fuel ih =>
    intro i0 i1 h0 h1 hf
    by_cases e : i0 = i1
    · subst e
      exact ⟨i0, by simp [findCommon], IsAncestorOrSelf.self _, IsAncestorOrSelf.self _,
        fun a h _ => h⟩
    · by_cases hlt : i0 < i1
      · have hne : i1 ≠ 0 := by omega
        have hpar := hp i1 hne h1
        obtain ⟨c, hc, hc0, hc1, hnear⟩ := ih i0 (parent i1) h0 (by omega) (by omega)
        refine ⟨c, ?_, hc0, IsAncestorOrSelf.up hne hc1, ?_⟩
        · simp only [findCommon, if_neg e, if_pos hlt]
          exact hc
        · intro a ha0 ha1
          cases ha1 with
          | self =>
            have := IsAncestorOrSelf.le hp ha0 h0
            omega
          | up _ h2 => exact hnear a ha0 h2
      · have hne : i0 ≠ 0 := by omega
        have hpar := hp i0 hne h0
        obtain ⟨c, hc, hc0, hc1, hnear⟩ := ih (parent i0) i1 (by omega) h1 (by omega)
        refine ⟨c, ?_, IsAncestorOrSelf.up hne hc0, hc1, ?_⟩
        · simp only [findCommon, if_neg e, if_neg hlt]
          exact hc
        · intro a ha0 ha1
          cases ha0 with
          | self =>
            have := IsAncestorOrSelf.le hp ha1 h1
            omega
          | up _ h2 => exact hnear a h2 ha1

/-- C19: in a tree with `parent[i] < i` for every non-root link, for every pair of link
indices below the link count the common-path search loop of `getImpulseResponseSlowInv`
terminates (any fuel of at least `i0 + i1` iterations suffices), and the index it ends on is
the nearest common ancestor: an ancestor-or-self of both, and every common ancestor-or-self
of both is an ancestor-or-self of it. -/
theorem C19_common_path_search (parent : Nat → Nat) (linkCount : Nat)
    (hp : ∀ i, i ≠ 0 → i < linkCount → parent i < i) (fuel i0 i1 : Nat)
    (h0 : i0 < linkCount) (h1 : i1 < linkCount) (hf : i0 + i1 ≤ fuel) :
    ∃ c, findCommon parent fuel i0 i1 = some c ∧
      IsAncestorOrSelf parent c i0 ∧ IsAncestorOrSelf parent c i1 ∧
      ∀ a, IsAncestorOrSelf parent a i0 → IsAncestorOrSelf parent a i1 →
        IsAncestorOrSelf parent a c :=
  findCommon_nearest parent linkCount hp fuel i0 i1 h0 h1 hf

/-- C19 on the tree `0 <- 1 <- 2`, `0 <- 3`, for the links 2 and 3. -/
theorem C19_common_path_search_witness :
    ∃ c, findCommon (fun i => if i = 3 then 0 else i - 1) 5 2 3 = some c ∧
      IsAncestorOrSelf (fun i => if i = 3 then 0 else i - 1) c 2 ∧
      IsAncestorOrSelf (fun i => if i = 3 then 0 else i - 1) c 3 ∧
      ∀ a, IsAncestorOrSelf (fun i => if i = 3 then 0 else i - 1) a 2 →
        IsAncestorOrSelf (fun i => if i = 3 then 0 else i - 1) a 3 →
        IsAncestorOrSelf (fun i => if i = 3 then 0 else i - 1) a c :=
  C19_common_path_search (fun i => if i = 3 then 0 else i - 1) 4
    (by
      intro i hi1 hi2
      interval_cases i <;> simp at hi1 ⊢)
    5 2 3 (by decide) (by decide) (by decide)

/-! ## C28: the scratch stack of `getImpulseResponseSlowInv` -/

/-- A push keeps the stack holding the pushed links. -/
theorem StackHoldsPushes.push {st st2 : SlowInvState} (i : Nat) (h : StackHoldsPushes st)
    (hp : st2.pushes = st.pushes ++ [i]) (ht : st2.top = st.top + 1)
    (hs : st2.stack = Function.update st.stack st.top i) : StackHoldsPushes st2 := by
  obtain ⟨h1, h2⟩ := h
  refine ⟨by rw [ht, hp, h1, List.length_append, List.length_singleton], ?_⟩
  intro k hk
  rw [hp, hs]
  by_cases e : k = st.top
  · subst e
    rw [Function.update_same, h1, List.getElem?_append_right (le_refl _)]
    simp
  · rw [Function.update_noteq e, List.getElem?_append_left (by omega)]
    exact h2 k (by omega)

/-- A parent walk from `i` up to an ancestor `target`, with a step that pushes the link it
visits: with fuel of at least `i` it ends, and it pushes a strictly decreasing run of links,
each an ancestor-or-self of `i` and a proper descendant of `target`. -/
theorem walkUp_pushes (parent : Nat → Nat) (n : Nat)
    (hp : ∀ i, i ≠ 0 → i < n → parent i < i) (step : Nat → SlowInvState → SlowInvState)
    (hstep : ∀ i st, (step i st).pushes = st.pushes ++ [i] ∧ (step i st).top = st.top + 1 ∧
      (step i st).stack = Function.update st.stack st.top i)
    (target : Nat) :
    ∀ fuel i s, i < n → i ≤ fuel → IsAncestorOrSelf parent target i → StackHoldsPushes s →
      ∃ s2 path, walkUp parent step target fuel i s = some s2 ∧
        s2.pushes = s.pushes ++ path ∧ StackHoldsPushes s2 ∧
        (∀ x, x ∈ path → IsAncestorOrSelf parent x i ∧ IsAncestorOrSelf parent target x ∧
          x ≠ target) ∧
        path.Pairwise (fun a b => b < a) := by
  intro fuel
  induction fuel with
  | zero =>
    intro i s hi hf ha hs
    have e0 : i = 0 := by omega
    subst e0
    have e1 : target = 0 := by
      have := IsAncestorOrSelf.le hp ha hi
      omega
    subst e1
    exact ⟨s, [], by simp [walkUp], by simp, hs, by simp, List.Pairwise.nil⟩
  | succ fuel ih =>
    intro i s hi hf ha hs
    by_cases e : i = target
    · subst e
      exact ⟨s, [], by simp [walkUp], by simp, hs, by simp, List.Pairwise.nil⟩
    · cases ha with
      | self => exact absurd rfl e
      | up hne h2 =>
        have hpar := hp i hne hi
        obtain ⟨q1, q2, q3⟩ := hstep i s
        obtain ⟨s2, path, hw, hpu, hst, hmem, hsorted⟩ :=
          ih (parent i) (step i s) (by omega) (by omega) h2 (hs.push i q1 q2 q3)
        refine ⟨s2, i :: path, ?_, ?_, hst, ?_, ?_⟩
        · simp only [walkUp, if_neg e]
          exact hw
        · rw [hpu, q1, List.append_assoc, List.singleton_append]
        · intro x hx
          rcases List.mem_cons.mp hx with hx1 | hx1
          · subst hx1
            exact ⟨IsAncestorOrSelf.self _, IsAncestorOrSelf.up hne h2, e⟩
          · obtain ⟨m1, m2, m3⟩ := hmem x hx1
            exact ⟨IsAncestorOrSelf.up hne m1, m2, m3⟩
        · refine List.Pairwise.cons ?_ hsorted
          intro x hx
          have := IsAncestorOrSelf.le hp (hmem x hx).1 (by omega : parent i < n)
          omega

/-- A list of pairwise distinct link indices in `[1, n)` has at most `n - 1` entries. -/
theorem nodup_links_length (l : List Nat) (n : Nat) (hnd : l.Nodup)
    (hmem : ∀ x, x ∈ l → x ≠ 0 ∧ x < n) : l.length ≤ n - 1 := by
  have h1 : l.toFinset ⊆ Finset.Ico 1 n := by
    intro x hx
    have := hmem x (List.mem_toFinset.mp hx)
    exact Finset.mem_Ico.mpr ⟨by omega, this.2⟩
  have h2 := Finset.card_le_card h1
  rw [List.toFinset_card_of_nodup hnd, Nat.card_Ico] at h2
  exact h2

/-- In a tree with `parent[i] < i` for every non-root link, `getImpulseResponseSlowInv` returns
for every pair of links below the link count once the fuel of its parent walks is at least
`linkID0 + linkID1`, and the links it pushed are pairwise distinct non-root links held by the
stack in push order. -/
theorem getImpulseResponseSlowInv_pushes (ix : ImpulseExternals) (data : ArticulationData)
    (hp : ∀ i, i ≠ 0 → i < data.linkCount → (data.links i).parent < i)
    (fuel linkID0 linkID1 : Nat) (impulse0 impulse1 : SpatialVector)
    (jointVelocities : Nat → PxReal) (Z : Nat → SpatialVectorF)
    (h0 : linkID0 < data.linkCount) (h1 : linkID1 < data.linkCount)
    (hf : linkID0 + linkID1 ≤ fuel) :
    ∃ res, getImpulseResponseSlowInv ix data fuel linkID0 impulse0 linkID1 impulse1
        jointVelocities Z = some res ∧
      res.pushes.Nodup ∧ (∀ x, x ∈ res.pushes → x ≠ 0 ∧ x < data.linkCount) ∧
      res.pushes.length ≤ data.linkCount - 1 ∧ res.ic = res.pushes.length ∧
      res.i0 ≤ res.i1 ∧ res.i1 ≤ res.ic ∧
      ∀ k, k < res.ic → res.pushes[k]? = some (res.stack k) := by
  obtain ⟨c, hc, hc0, hc1, hnear⟩ :=
    findCommon_nearest (fun i => (data.links i).parent) data.linkCount hp fuel linkID0 linkID1
      h0 h1 hf
  have hcle := IsAncestorOrSelf.le hp hc0 h0
  have hbranch : ∀ i st, (slowInvBranchStep ix data i st).pushes = st.pushes ++ [i] ∧
      (slowInvBranchStep ix data i st).top = st.top + 1 ∧
      (slowInvBranchStep ix data i st).stack = Function.update st.stack st.top i :=
    fun _ _ => ⟨rfl, rfl, rfl⟩
  have hroot : ∀ i st, (slowInvRootStep ix data i st).pushes = st.pushes ++ [i] ∧
      (slowInvRootStep ix data i st).top = st.top + 1 ∧
      (slowInvRootStep ix data i st).stack = Function.update st.stack st.top i :=
    fun _ _ => ⟨rfl, rfl, rfl⟩
  obtain ⟨s0, p0, hw0, hpu0, hst0, hmem0, hsort0⟩ :=
    walkUp_pushes (fun i => (data.links i).parent) data.linkCount hp (slowInvBranchStep ix data)
      hbranch c fuel linkID0
      { Z := Function.update (Function.update Z linkID0
          ⟨impulse0.linear.neg, impulse0.angular.neg⟩) linkID1
          ⟨impulse1.linear.neg, impulse1.angular.neg⟩
        Zacc := ⟨impulse0.linear.neg, impulse0.angular.neg⟩ }
      h0 (by omega) hc0 ⟨rfl, fun k hk => absurd hk (Nat.not_lt_zero k)⟩
  obtain ⟨s1, p1, hw1, hpu1, hst1, hmem1, hsort1⟩ :=
    walkUp_pushes (fun i => (data.links i).parent) data.linkCount hp (slowInvBranchStep ix data)
      hbranch c fuel linkID1
      { s0 with Zacc := ⟨impulse1.linear.neg, impulse1.angular.neg⟩ }
      h1 (by omega) hc1 hst0
  have hzero : ∀ i, i < data.linkCount → IsAncestorOrSelf (fun i => (data.links i).parent) 0 i := by
    intro i
    induction i using Nat.strong_induction_on with
    | _ i ih =>
      intro hi
      by_cases e : i = 0
      · subst e
        exact IsAncestorOrSelf.self 0
      · have := hp i e hi
        exact IsAncestorOrSelf.up e (ih _ this (by omega))
  obtain ⟨s2, p2, hw2, hpu2, hst2, hmem2, hsort2⟩ :=
    walkUp_pushes (fun i => (data.links i).parent) data.linkCount hp (slowInvRootStep ix data)
      hroot 0 fuel c
      { s1 with Z := Function.update s1.Z c (s0.Zacc.add s1.Zacc) }
      (by omega) (by omega) (hzero c (by omega)) hst1
  have hpushes : s2.pushes = p0 ++ p1 ++ p2 := by
    rw [hpu2]
    show s1.pushes ++ p2 = _
    rw [hpu1]
    show s0.pushes ++ p1 ++ p2 = _
    rw [hpu0]
    rfl
  have hgt0 : ∀ x, x ∈ p0 → c < x ∧ x < data.linkCount := by
    intro x hx
    obtain ⟨m1, m2, m3⟩ := hmem0 x hx
    have a1 := IsAncestorOrSelf.le hp m1 h0
    have a2 := IsAncestorOrSelf.le hp m2 (by omega)
    omega
  have hgt1 : ∀ x, x ∈ p1 → c < x ∧ x < data.linkCount := by
    intro x hx
    obtain ⟨m1, m2, m3⟩ := hmem1 x hx
    have a1 := IsAncestorOrSelf.le hp m1 h1
    have a2 := IsAncestorOrSelf.le hp m2 (by omega)
    omega
  have hle2 : ∀ x, x ∈ p2 → x ≤ c ∧ x ≠ 0 := by
    intro x hx
    obtain ⟨m1, m2, m3⟩ := hmem2 x hx
    exact ⟨IsAncestorOrSelf.le hp m1 (by omega), m3⟩
  have hnd : (p0 ++ p1 ++ p2).Nodup := by
    have n0 : p0.Nodup := hsort0.imp (fun h => by omega)
    have n1 : p1.Nodup := hsort1.imp (fun h => by omega)
    have n2 : p2.Nodup := hsort2.imp (fun h => by omega)
    refine List.Nodup.append (List.Nodup.append n0 n1 ?_) n2 ?_
    · intro x hx0 hx1
      have a := hnear x (hmem0 x hx0).1 (hmem1 x hx1).1
      have b := IsAncestorOrSelf.le hp a (by omega)
      have := (hgt0 x hx0).1
      omega
    · intro x hx01 hx2
      have := (hle2 x hx2).1
      rcases List.mem_append.mp hx01 with hx | hx
      · have := (hgt0 x hx).1
        omega
      · have := (hgt1 x hx).1
        omega
  have hmemall : ∀ x, x ∈ p0 ++ p1 ++ p2 → x ≠ 0 ∧ x < data.linkCount := by
    intro x hx
    rcases List.mem_append.mp hx with hx | hx
    · rcases List.mem_append.mp hx with hx | hx
      · have := hgt0 x hx
        omega
      · have := hgt1 x hx
        omega
    · have := hle2 x hx
      exact ⟨this.2, by omega⟩
  have ht0 : s0.top = p0.length := by
    rw [hst0.1, hpu0]
    rfl
  have ht1 : s1.top = p0.length + p1.length := by
    rw [hst1.1, hpu1]
    show (s0.pushes ++ p1).length = _
    rw [hpu0]
    show (p0 ++ p1).length = _
    rw [List.length_append]
  have ht2 : s2.top = s2.pushes.length := hst2.1
  unfold getImpulseResponseSlowInv
  simp only [hc, Option.some_bind, hw0, hw1, hw2]
  refine ⟨_, rfl, ?_, ?_, ?_, ?_, ?_, ?_, ?_⟩
  · show s2.pushes.Nodup
    rw [hpushes]
    exact hnd
  · show ∀ x, x ∈ s2.pushes → _
    rw [hpushes]
    exact hmemall
  · show s2.pushes.length ≤ _
    rw [hpushes]
    exact nodup_links_length _ _ hnd hmemall
  · exact ht2
  · show s0.top ≤ s1.top
    omega
  · show s1.top ≤ s2.top
    rw [ht2, hpushes, ht1, List.length_append, List.length_append]
    omega
  · exact hst2.2

/-- C28: in a tree with `parent[i] < i` for every non-root link, for every pair of link
indices below `numLinks`, `getImpulseResponseSlowInv` returns (fuel of at least
`linkID0 + linkID1` suffices for its parent walks) having pushed pairwise distinct non-root
link indices below `numLinks`; so the number of pushes is at most `numLinks - 1`, every stack
write is at an index below that count, `i0 ≤ i1 ≤ ic` with `ic` the number of pushes (the
later reads are at indices below `ic`), and entry `k < ic` of the stack is the `k`-th pushed
link. -/
theorem C28_stack_pushes_distinct (ix : ImpulseExternals) (data : ArticulationData)
    (hp : ∀ i, i ≠ 0 → i < data.linkCount → (data.links i).parent < i)
    (fuel linkID0 linkID1 : Nat) (impulse0 impulse1 : SpatialVector)
    (jointVelocities : Nat → PxReal) (Z : Nat → SpatialVectorF)
    (h0 : linkID0 < data.linkCount) (h1 : linkID1 < data.linkCount)
    (hf : linkID0 + linkID1 ≤ fuel) :
    ∃ res, getImpulseResponseSlowInv ix data fuel linkID0 impulse0 linkID1 impulse1
        jointVelocities Z = some res ∧
      res.pushes.Nodup ∧ (∀ x, x ∈ res.pushes → x ≠ 0 ∧ x < data.linkCount) ∧
      res.pushes.length ≤ data.linkCount - 1 ∧ res.ic = res.pushes.length ∧
      res.i0 ≤ res.i1 ∧ res.i1 ≤ res.ic ∧
      ∀ k, k < res.ic → res.pushes[k]? = some (res.stack k) :=
  getImpulseResponseSlowInv_pushes ix data hp fuel linkID0 linkID1 impulse0 impulse1
    jointVelocities Z h0 h1 hf

/-- C28 on the floating three-link chain, for the links 1 and 2. -/
theorem C28_stack_pushes_distinct_witness :
    ∃ res, getImpulseResponseSlowInv sampleKernels floatingChainData 3 1
        ⟨⟨1, 0, 0⟩, ⟨0, 0, 1⟩⟩ 2 ⟨⟨0, 1, 0⟩, ⟨0, 0, 0⟩⟩ (fun _ => 0)
        (fun _ => SpatialVectorF.Zero) = some res ∧
      res.pushes.Nodup ∧ (∀ x, x ∈ res.pushes → x ≠ 0 ∧ x < floatingChainData.linkCount) ∧
      res.pushes.length ≤ floatingChainData.linkCount - 1 ∧ res.ic = res.pushes.length ∧
      res.i0 ≤ res.i1 ∧ res.i1 ≤ res.ic ∧
      ∀ k, k < res.ic → res.pushes[k]? = some (res.stack k) :=
  C28_stack_pushes_distinct sampleKernels floatingChainData
    (by
      intro i hi1 hi2
      have hi3 : i < 3 := hi2
      show i - 1 < i
      omega)
    3 1 2 ⟨⟨1, 0, 0⟩, ⟨0, 0, 1⟩⟩ ⟨⟨0, 1, 0⟩, ⟨0, 0, 0⟩⟩ (fun _ => 0)
    (fun _ => SpatialVectorF.Zero) (by decide) (by decide) (by decide)

/-! ## C5: fixed base, the start of the outward propagation -/

/-- A parent walk to the root in a tree with `parent[i] < i` ends once the fuel is at least
the start link. -/
theorem walkUp_root_total {σ : Type} (parent : Nat → Nat) (n : Nat)
    (hp : ∀ i, i ≠ 0 → i < n → parent i < i) (step : Nat → σ → σ) :
    ∀ fuel i s, i < n → i ≤ fuel → ∃ s2, walkUp parent step 0 fuel i s = some s2 := by
  intro fuel
  induction fuel with
  | zero =>
    intro i s _ hf
    have e0 : i = 0 := by omega
    subst e0
    exact ⟨s, by simp [walkUp]⟩
  | succ fuel ih =>
    intro i s hi hf
    by_cases e : i = 0
    · subst e
      exact ⟨s, by simp [walkUp]⟩
    · have hpar := hp i e hi
      obtain ⟨s2, h2⟩ := ih (parent i) (step i s) (by omega) (by omega)
      exact ⟨s2, by simp only [walkUp, if_neg e]; exact h2⟩

/-- With the flag `eFIX_BASE` set, whatever `getImpulseResponseSlowInv` returns has `Z[0]`
zero, and its first outward sweep starts from the zero vector. -/
theorem getImpulseResponseSlowInv_fixBase (ix : ImpulseExternals) (data : ArticulationData)
    (fuel linkID0 linkID1 : Nat) (impulse0 impulse1 : SpatialVector)
    (jointVelocities : Nat → PxReal) (Z : Nat → SpatialVectorF) (res : SlowInvResult)
    (hfix : data.fixBase = true)
    (hres : getImpulseResponseSlowInv ix data fuel linkID0 impulse0 linkID1 impulse1
      jointVelocities Z = some res) :
    res.Z 0 = SpatialVectorF.Zero ∧
    res.v = (forDownRange res.i1 (fun index (st : SpatialVectorF × (Nat → PxReal)) =>
      slowInvPropagate ix data res.Z (res.stack index) st.1 st.2) res.ic
        (SpatialVectorF.Zero, jointVelocities)).1 := by
  unfold getImpulseResponseSlowInv at hres
  obtain ⟨common, _, hres⟩ := Option.bind_eq_some.mp hres
  obtain ⟨s0, _, hres⟩ := Option.bind_eq_some.mp hres
  obtain ⟨s1, _, hres⟩ := Option.bind_eq_some.mp hres
  obtain ⟨s2, _, hres⟩ := Option.bind_eq_some.mp hres
  have hroot1 : (slowInvRootVelocity data s2.Z).1 0 = SpatialVectorF.Zero := by
    simp [slowInvRootVelocity, hfix, SpatialVectorF.Zero]
  have hroot2 : (slowInvRootVelocity data s2.Z).2 = SpatialVectorF.Zero := by
    simp only [slowInvRootVelocity, hfix, if_true, Function.update_same]
    exact SpatialMatrix.mulVec_neg_Zero _
  have hres2 := (Option.some.inj hres).symm
  subst hres2
  refine ⟨hroot1, ?_⟩
  show (forDownRange s1.top _ s2.top ((slowInvRootVelocity data s2.Z).2, jointVelocities)).1
    = _
  rw [hroot2]

/-- C5: with a fixed base the root velocity change from which the outward velocity
propagation starts is exactly the zero spatial vector, for every pair of links, every pair of
impulses and every content of `Z`, whatever the inward propagation left in `Z[0]`.  In a tree
with `parent[i] < i` and with fuel for the parent walks, `getImpulseResponseSlowInv` (flag
`eFIX_BASE` set) returns with `Z[0]` overwritten with zero, the root inertia applied to
`-Z[0]` is zero, and the velocity `v` it hands to its branch sweeps is the common-to-root
sweep started from the zero vector (so `v` is zero itself when the common ancestor is the
root); `getImpulseResponseInv` (`fixBase` true) returns the outward sweep along the cached
path started from the zero vector. -/
theorem C5_fixed_base_root_velocity_zero (ix : ImpulseExternals) (data : ArticulationData)
    (hp : ∀ i, i ≠ 0 → i < data.linkCount → (data.links i).parent < i)
    (fuel linkID0 linkID1 : Nat) (impulse0 impulse1 : SpatialVector)
    (jointVelocities : Nat → PxReal) (Z : Nat → SpatialVectorF)
    (h0 : linkID0 < data.linkCount) (h1 : linkID1 < data.linkCount)
    (hf : linkID0 + linkID1 ≤ fuel) (hfix : data.fixBase = true) :
    (∃ res, getImpulseResponseSlowInv ix data fuel linkID0 impulse0 linkID1 impulse1
        jointVelocities Z = some res ∧
      res.Z 0 = SpatialVectorF.Zero ∧
      data.mBaseInvSpatialArticulatedInertiaW.mulVec (res.Z 0).neg = SpatialVectorF.Zero ∧
      res.v = (forDownRange res.i1 (fun index (st : SpatialVectorF × (Nat → PxReal)) =>
        slowInvPropagate ix data res.Z (res.stack index) st.1 st.2) res.ic
          (SpatialVectorF.Zero, jointVelocities)).1 ∧
      (res.i1 = res.ic → res.v = SpatialVectorF.Zero)) ∧
    (∃ r, getImpulseResponseInv ix data fuel true linkID0 Z impulse0 jointVelocities = some r ∧
      r.deltaV = (impulseOutward ix data linkID0 r.Z (SpatialVectorF.Zero, jointVelocities)).1 ∧
      r.jointVelocities =
        (impulseOutward ix data linkID0 r.Z (SpatialVectorF.Zero, jointVelocities)).2) := by
  constructor
  · obtain ⟨res, hres, _⟩ := getImpulseResponseSlowInv_pushes ix data hp fuel linkID0 linkID1
      impulse0 impulse1 jointVelocities Z h0 h1 hf
    obtain ⟨hz, hv⟩ := getImpulseResponseSlowInv_fixBase ix data fuel linkID0 linkID1 impulse0
      impulse1 jointVelocities Z res hfix hres
    refine ⟨res, hres, hz, ?_, hv, ?_⟩
    · rw [hz]
      exact SpatialMatrix.mulVec_neg_Zero _
    · intro he
      rw [hv, he]
      cases res.ic with
      | zero => rfl
      | succ n =>
        show (if n + 1 ≤ n then _ else _ : SpatialVectorF × (Nat → PxReal)).1 = _
        rw [if_neg (by omega)]
  · obtain ⟨Z1, hZ1⟩ := walkUp_root_total (fun i => (data.links i).parent) data.linkCount hp
      (impulseInwardStep ix data) fuel linkID0
      (Function.update (memZero SpatialVectorF.Zero data.linkCount Z) linkID0
        ⟨impulse0.linear.neg, impulse0.angular.neg⟩) h0 (by omega)
    refine ⟨{ deltaV := (impulseOutward ix data linkID0 Z1
        (SpatialVectorF.Zero, jointVelocities)).1
              Z := Z1
              jointVelocities := (impulseOutward ix data linkID0 Z1
        (SpatialVectorF.Zero, jointVelocities)).2 }, ?_, rfl, rfl⟩
    unfold getImpulseResponseInv
    simp only [hZ1, Option.map_some']
    rfl

/-- C5 on the fixed-base three-link chain with the sample kernels, for the links 1 and 2. -/
theorem C5_fixed_base_root_velocity_zero_witness :
    (∃ res, getImpulseResponseSlowInv sampleKernels chainData 3 1 ⟨⟨1, 0, 0⟩, ⟨0, 0, 1⟩⟩ 2
        ⟨⟨0, 1, 0⟩, ⟨0, 0, 0⟩⟩ (fun _ => 0) (fun _ => ⟨⟨1, 2, 3⟩, ⟨4, 5, 6⟩⟩) = some res ∧
      res.Z 0 = SpatialVectorF.Zero) ∧
    (∃ r, getImpulseResponseInv sampleKernels chainData 3 true 1
        (fun _ => ⟨⟨1, 2, 3⟩, ⟨4, 5, 6⟩⟩) ⟨⟨1, 0, 0⟩, ⟨0, 0, 1⟩⟩ (fun _ => 0) = some r ∧
      r.deltaV = (impulseOutward sampleKernels chainData 1 r.Z
        (SpatialVectorF.Zero, fun _ => 0)).1) :=
  have h := C5_fixed_base_root_velocity_zero sampleKernels chainData
    (by
      intro i hi1 hi2
      have hi3 : i < 3 := hi2
      show i - 1 < i
      omega)
    3 1 2 ⟨⟨1, 0, 0⟩, ⟨0, 0, 1⟩⟩ ⟨⟨0, 1, 0⟩, ⟨0, 0, 0⟩⟩ (fun _ => 0)
    (fun _ => ⟨⟨1, 2, 3⟩, ⟨4, 5, 6⟩⟩) (by decide) (by decide) (by decide) rfl
  ⟨h.1.imp (fun _ hr => ⟨hr.1, hr.2.1⟩), h.2.imp (fun _ hr => ⟨hr.1, hr.2.1⟩)⟩

/-! ## C6: agreement of the two impulse-response paths on a parent-child pair -/

/-- C13 (evaluation at the failing inputs): on the non-dirty three-link chain, with a
`solverPrep` that yields no rows and a fresh allocator, `getCoefficientMatrixWithLoopJoints`
returns; with `nbConstraints = 0` both scratch blocks (`tempMemory` = block 0, `tData` =
block 1) are still live at return, neither was freed; with `nbConstraints = 2` the second
iteration frees blocks that are no longer live (a double free of each); only with
`nbConstraints = 1` is each block freed exactly once. -/
theorem C13_scratch_blocks_freed_per_constraint (ext : ExternalPasses) (ix : ImpulseExternals)
    (fuel : Nat) (cache : PxArticulationCache)
    (lConstraints : Nat → ArticulationLoopConstraint) :
    (∃ out, getCoefficientMatrixWithLoopJoints ext ix emptyCoefficientExternals fuel
        { data := chainData, cache := cache } lConstraints 0 = some out ∧
      out.allocator.live = [1, 0] ∧ out.allocator.invalidFree = false) ∧
    (∃ out, getCoefficientMatrixWithLoopJoints ext ix emptyCoefficientExternals fuel
        { data := chainData, cache := cache } lConstraints 2 = some out ∧
      out.allocator.live = [] ∧ out.allocator.invalidFree = true) ∧
    (∃ out, getCoefficientMatrixWithLoopJoints ext ix emptyCoefficientExternals fuel
        { data := chainData, cache := cache } lConstraints 1 = some out ∧
      out.allocator.live = [] ∧ out.allocator.invalidFree = false) :=
  ⟨⟨_, rfl, rfl, rfl⟩, ⟨_, rfl, rfl, rfl⟩, ⟨_, rfl, rfl, rfl⟩⟩

/-! ## C1: the data-dirty guard of the drivers -/

/-- C1: whenever the data-dirty flag is set, each of the eight drivers
(`getGeneralizedGravityForce`, `getCoriolisAndCentrifugalForce`,
`getGeneralizedExternalForce`, `getJointForce`, `getCoefficientMatrixWithLoopJoints`,
`getGeneralizedMassMatrixCRB`, `getGeneralizedMassMatrix`, `getCentroidalMomentumMatrix`)
reports an error and returns with the cache, the articulation data and the scratch allocator
unchanged: nothing is allocated and no pass is run. -/
theorem C1_dirty_guard (ext : ExternalPasses) (ix : ImpulseExternals)
    (cx : CoefficientExternals) (fuel : Nat) (w : DriverWorld) (gravity : PxVec3)
    (rootMotion : Bool) (lConstraints : Nat → ArticulationLoopConstraint) (nbConstraints : Nat)
    (h : w.data.dataDirty = true) :
    ReportsOnly w (getGeneralizedGravityForce ext w gravity rootMotion) ∧
    ReportsOnly w (getCoriolisAndCentrifugalForce ext w rootMotion) ∧
    ReportsOnly w (getGeneralizedExternalForce ext w) ∧
    ReportsOnly w (getJointForce ext w) ∧
    ReportsOnly w (getCoefficientMatrixWithLoopJoints ext ix cx fuel w lConstraints
      nbConstraints) ∧
    ReportsOnly w (getGeneralizedMassMatrixCRB fuel w rootMotion) ∧
    ReportsOnly w (getGeneralizedMassMatrix ext w) ∧
    ReportsOnly w (getCentroidalMomentumMatrix w) := by
  refine ⟨?_, ?_, ?_, ?_, ?_, ?_, ?_, ?_⟩
  · unfold getGeneralizedGravityForce
    rw [if_pos h]
    exact ⟨_, _, rfl, rfl, rfl, rfl, rfl⟩
  · unfold getCoriolisAndCentrifugalForce
    rw [if_pos h]
    exact ⟨_, _, rfl, rfl, rfl, rfl, rfl⟩
  · unfold getGeneralizedExternalForce
    rw [if_pos h]
    exact ⟨_, _, rfl, rfl, rfl, rfl, rfl⟩
  · unfold getJointForce
    rw [if_pos h]
    exact ⟨_, _, rfl, rfl, rfl, rfl, rfl⟩
  · unfold getCoefficientMatrixWithLoopJoints
    rw [if_pos h]
    exact ⟨_, _, rfl, rfl, rfl, rfl, rfl⟩
  · unfold getGeneralizedMassMatrixCRB
    rw [if_pos h]
    exact ⟨_, _, rfl, rfl, rfl, rfl, rfl⟩
  · unfold getGeneralizedMassMatrix
    rw [if_pos h]
    exact ⟨_, _, rfl, rfl, rfl, rfl, rfl⟩
  · unfold getCentroidalMomentumMatrix
    rw [if_pos h]
    exact ⟨_, _, rfl, rfl, rfl, rfl, rfl⟩

/-- C1 on the three-link chain with the data-dirty flag set. -/
theorem C1_dirty_guard_witness :
    ReportsOnly dirtyWorld (getGeneralizedGravityForce idPasses dirtyWorld ⟨0, -10, 0⟩ true) ∧
    ReportsOnly dirtyWorld (getCoriolisAndCentrifugalForce idPasses dirtyWorld true) ∧
    ReportsOnly dirtyWorld (getGeneralizedExternalForce idPasses dirtyWorld) ∧
    ReportsOnly dirtyWorld (getJointForce idPasses dirtyWorld) ∧
    ReportsOnly dirtyWorld (getCoefficientMatrixWithLoopJoints idPasses sampleKernels
      emptyCoefficientExternals 3 dirtyWorld twoLoopConstraints 2) ∧
    ReportsOnly dirtyWorld (getGeneralizedMassMatrixCRB 3 dirtyWorld true) ∧
    ReportsOnly dirtyWorld (getGeneralizedMassMatrix idPasses dirtyWorld) ∧
    ReportsOnly dirtyWorld (getCentroidalMomentumMatrix dirtyWorld) :=
  C1_dirty_guard idPasses sampleKernels emptyCoefficientExternals 3 dirtyWorld ⟨0, -10, 0⟩ true
    twoLoopConstraints 2 rfl

/-! ## Symmetry of the composite-rigid-body mass matrix, in exact arithmetic -/

theorem PxMat33.isSymm_iff (m : PxMat33) :
    m.IsSymm ↔ m.column0.y = m.column1.x ∧ m.column0.z = m.column2.x ∧
      m.column1.z = m.column2.y := by
  rcases m with ⟨⟨a, b, c⟩, ⟨d, e, f⟩, ⟨g, h, i⟩⟩
  simp only [PxMat33.IsSymm, PxMat33.getTranspose, PxMat33.mk.injEq, PxVec3.mk.injEq]
  constructor
  · intro h
    exact ⟨h.2.1.1, h.2.2.1, h.2.2.2.1⟩
  · rintro ⟨h1, h2, h3⟩
    simp [h1, h2, h3]

theorem PxMat33.isSymm_zero : PxMat33.zero.IsSymm := by
  rw [PxMat33.isSymm_iff]
  exact ⟨rfl, rfl, rfl⟩

theorem PxMat33.isSymm_createDiagonal (d : PxVec3) : (PxMat33.createDiagonal d).IsSymm := by
  rw [PxMat33.isSymm_iff]
  exact ⟨rfl, rfl, rfl⟩

theorem PxMat33.isSymm_add {a b : PxMat33} (ha : a.IsSymm) (hb : b.IsSymm) :
    (a.add b).IsSymm := by
  rw [PxMat33.isSymm_iff] at ha hb ⊢
  obtain ⟨a1, a2, a3⟩ := ha
  obtain ⟨b1, b2, b3⟩ := hb
  simp only [PxMat33.add, PxVec3.add]
  exact ⟨by rw [a1, b1], by rw [a2, b2], by rw [a3, b3]⟩

theorem PxMat33.isSymm_symmetrise (a : PxMat33) (s : PxReal) :
    ((a.add a.getTranspose).scale s).IsSymm := by
  rw [PxMat33.isSymm_iff]
  simp only [PxMat33.add, PxMat33.scale, PxMat33.getTranspose, PxVec3.add, PxVec3.scale]
  refine ⟨?_, ?_, ?_⟩ <;> ring

theorem PxMat33.isSymm_getInverse {m : PxMat33} (h : m.IsSymm) : m.getInverse.IsSymm := by
  rw [PxMat33.isSymm_iff] at h
  obtain ⟨h1, h2, h3⟩ := h
  unfold PxMat33.getInverse
  by_cases hdet : m.getDeterminant ≠ 0
  · simp only [if_pos hdet]
    rw [PxMat33.isSymm_iff]
    simp only []
    rw [h1, h2, h3]
    refine ⟨?_, ?_, ?_⟩ <;> ring
  · simp only [if_neg hdet]
    exact PxMat33.isSymm_createDiagonal _

theorem PxMat33.isSymm_transformInertiaTensor (invD : PxVec3) (M : PxMat33) :
    (transformInertiaTensor invD M).IsSymm := by
  rw [PxMat33.isSymm_iff]
  exact ⟨rfl, rfl, rfl⟩

/-- The product `(-la) A la^T` is symmetric when `A` is. -/
theorem PxMat33.isSymm_congr_neg {a : PxMat33} (la : PxMat33) (ha : a.IsSymm) :
    ((la.neg.mul a).mul la.getTranspose).IsSymm := by
  rw [PxMat33.isSymm_iff] at ha ⊢
  obtain ⟨a1, a2, a3⟩ := ha
  simp only [PxMat33.mul, PxMat33.neg, PxMat33.getTranspose, PxMat33.transform, PxVec3.add,
    PxVec3.scale, PxVec3.neg]
  rw [a1, a2, a3]
  refine ⟨?_, ?_, ?_⟩ <;> ring

/-- The product `z^T (L z)` is symmetric when `L` is. -/
theorem PxMat33.isSymm_congr_transpose {l : PxMat33} (z : PxMat33) (hl : l.IsSymm) :
    (z.getTranspose.mul (l.mul z)).IsSymm := by
  rw [PxMat33.isSymm_iff] at hl ⊢
  obtain ⟨a1, a2, a3⟩ := hl
  simp only [PxMat33.mul, PxMat33.getTranspose, PxMat33.transform, PxVec3.add, PxVec3.scale]
  rw [a1, a2, a3]
  refine ⟨?_, ?_, ?_⟩ <;> ring

theorem SpatialMatrix.isSymm_invertInertia (m : SpatialMatrix) : m.invertInertia.IsSymm := by
  have haa := PxMat33.isSymm_getInverse
    (PxMat33.isSymm_symmetrise m.bottomLeft (1 / 2))
  have hS := PxMat33.isSymm_add (PxMat33.isSymm_symmetrise m.topRight (1 / 2))
    (PxMat33.isSymm_congr_neg m.topLeft haa)
  have hLL := PxMat33.isSymm_getInverse hS
  exact ⟨PxMat33.isSymm_add haa (PxMat33.isSymm_congr_transpose _ hLL), hLL⟩

theorem SpatialMatrix.isSymm_addBlocks {a b : SpatialMatrix} (ha : a.IsSymm) (hb : b.IsSymm) :
    (a.add b).IsSymm :=
  ⟨PxMat33.isSymm_add ha.1 hb.1, PxMat33.isSymm_add ha.2 hb.2⟩

theorem SpatialMatrix.isSymm_translateInertia (sTod : PxMat33) {m : SpatialMatrix}
    (h : m.IsSymm) : (translateInertia sTod m).IsSymm :=
  ⟨h.1, PxMat33.isSymm_symmetrise _ _⟩

theorem SpatialMatrix.isSymm_linkSpatialInertia (data : ArticulationData) (linkID : Nat) :
    (linkSpatialInertia data linkID).IsSymm :=
  ⟨PxMat33.isSymm_createDiagonal _, PxMat33.isSymm_transformInertiaTensor _ _⟩

/-- The bilinear form of a symmetric spatial inertia is symmetric. -/
theorem SpatialMatrix.innerProduct_mulVec_comm {m : SpatialMatrix} (h : m.IsSymm)
    (a b : SpatialVectorF) :
    a.innerProduct (m.mulVec b) = b.innerProduct (m.mulVec a) := by
  obtain ⟨h1, h2⟩ := h
  rw [PxMat33.isSymm_iff] at h1 h2
  obtain ⟨a1, a2, a3⟩ := h1
  obtain ⟨b1, b2, b3⟩ := h2
  simp only [SpatialVectorF.innerProduct, SpatialMatrix.mulVec, PxMat33.transform,
    PxMat33.transformTranspose, PxVec3.add, PxVec3.scale, PxVec3.dot]
  rw [a1, a2, a3, b1, b2, b3]
  ring

/-- A property carried by every iteration inside the bounds is carried by `forUp`. -/
theorem forUp_preserves_lt {σ : Type} (lo hi : Nat) (body : Nat → σ → σ) (P : σ → Prop) (s : σ)
    (h0 : P s) (hstep : ∀ i s, lo ≤ i → i < hi → P s → P (body i s)) :
    P (forUp lo hi body s) := by
  by_cases hle : lo ≤ hi
  · exact forUp_invariant lo hi body (fun _ s => P s) hle s h0 hstep
  · have e : hi - lo = 0 := by omega
    unfold forUp
    rw [e]
    exact h0

theorem u32Sub_one_of_pos (n : Nat) (h1 : 1 ≤ n) : u32Sub n 1 = n - 1 := by
  unfold u32Sub
  rw [if_pos h1]

/-- Two flat indices `r n + c` with columns below `n` agree only on the same entry. -/
theorem flat_index_inj {n r c r2 c2 : Nat} (hc : c < n) (hc2 : c2 < n)
    (e : r * n + c = r2 * n + c2) : r = r2 ∧ c = c2 := by
  have e2 : c + r * n = c2 + r2 * n := by omega
  have h1 := grid_index_col hc hc2 e2
  subst h1
  exact ⟨grid_index_row (by omega) e2, rfl⟩

/-- Writing one value to the entries `(r, c)` and `(c, r)` keeps a matrix symmetric. -/
theorem MatSymm.pair {n : Nat} {mm : Nat → PxReal} (h : MatSymm n mm) {r c : Nat} (hr : r < n)
    (hc : c < n) (m : PxReal) :
    MatSymm n (Function.update (Function.update mm (r * n + c) m) (c * n + r) m) := by
  intro r2 c2 hr2 hc2
  have e1 : (r2 * n + c2 = c * n + r) ↔ (r2 = c ∧ c2 = r) :=
    ⟨fun e => flat_index_inj hc2 hr e, fun e => by rw [e.1, e.2]⟩
  have e2 : (r2 * n + c2 = r * n + c) ↔ (r2 = r ∧ c2 = c) :=
    ⟨fun e => flat_index_inj hc2 hc e, fun e => by rw [e.1, e.2]⟩
  have e3 : (c2 * n + r2 = c * n + r) ↔ (c2 = c ∧ r2 = r) :=
    ⟨fun e => flat_index_inj hr2 hr e, fun e => by rw [e.1, e.2]⟩
  have e4 : (c2 * n + r2 = r * n + c) ↔ (c2 = r ∧ r2 = c) :=
    ⟨fun e => flat_index_inj hr2 hc e, fun e => by rw [e.1, e.2]⟩
  simp only [Function.update_apply, e1, e2, e3, e4]
  split_ifs <;> first | rfl | exact h r2 c2 hr2 hc2 | (exfalso; omega)

/-- The same with the second index written `r + c n`. -/
theorem MatSymm.pair_add {n : Nat} {mm : Nat → PxReal} (h : MatSymm n mm) {r c : Nat}
    (hr : r < n) (hc : c < n) (m : PxReal) :
    MatSymm n (Function.update (Function.update mm (r * n + c) m) (r + c * n) m) := by
  rw [Nat.add_comm r (c * n)]
  exact h.pair hr hc m

/-- A loop nest that rewrites entry `ι i j` from its old value, with `ι` injective at
`(i, j)`: that entry ends as `g i j` of its old value. -/
theorem forUp2_hit {α : Type} (a b : Nat) (ι : Nat → Nat → Nat) (g : Nat → Nat → α → α)
    (f0 : Nat → α) (i j : Nat) (hi : i < a) (hj : j < b)
    (hinj : ∀ i2 j2, i2 < a → j2 < b → ι i2 j2 = ι i j → i2 = i ∧ j2 = j) :
    forUp 0 a (fun i (f : Nat → α) =>
      forUp 0 b (fun j (f : Nat → α) =>
        Function.update f (ι i j) (g i j (f (ι i j)))) f) f0 (ι i j) =
      g i j (f0 (ι i j)) := by
  have key := forUp_invariant 0 a
    (fun i (f : Nat → α) =>
      forUp 0 b (fun j (f : Nat → α) =>
        Function.update f (ι i j) (g i j (f (ι i j)))) f)
    (fun k f => f (ι i j) = if i < k then g i j (f0 (ι i j)) else f0 (ι i j))
    (Nat.zero_le _) f0 (by beta_reduce; rw [if_neg (by omega)])
    (by
      intro k f _ hk hf
      show forUp 0 b (fun j (f : Nat → α) =>
        Function.update f (ι k j) (g k j (f (ι k j)))) f (ι i j) = _
      by_cases e : k = i
      · subst e
        rw [forUp_update_index_hit 0 b (fun j => ι k j) (g k) f j (Nat.zero_le _) hj
          (fun j2 _ h2 ej => (hinj k j2 hk h2 ej).2), hf, if_neg (Nat.lt_irrefl _),
          if_pos (Nat.lt_succ_self _)]
      · rw [forUp_update_index_other 0 b (fun j => ι k j) (g k) f (ι i j)
          (fun j2 _ h2 ej => e (hinj k j2 hk h2 ej).1), hf]
        by_cases hlt : i < k
        · rw [if_pos hlt, if_pos (by omega)]
        · rw [if_neg hlt, if_neg (by omega)])
  rw [key, if_pos hi]

/-- The same loop nest leaves every entry that is no `ι i j` alone. -/
theorem forUp2_miss {α : Type} (a b : Nat) (ι : Nat → Nat → Nat) (g : Nat → Nat → α → α)
    (f0 : Nat → α) (x : Nat) (hx : ∀ i2 j2, i2 < a → j2 < b → ι i2 j2 ≠ x) :
    forUp 0 a (fun i (f : Nat → α) =>
      forUp 0 b (fun j (f : Nat → α) =>
        Function.update f (ι i j) (g i j (f (ι i j)))) f) f0 x = f0 x := by
  refine forUp_preserves_lt 0 a _ (fun f => f x = f0 x) f0 rfl ?_
  intro k f _ hk hf
  show forUp 0 b (fun j (f : Nat → α) =>
    Function.update f (ι k j) (g k j (f (ι k j)))) f x = _
  rw [forUp_update_index_other 0 b (fun j => ι k j) (g k) f x
    (fun j2 _ h2 => hx k j2 hk h2), hf]

/-- The `Hii` block keeps the mass matrix symmetric when the columns `f` come from a
symmetric form. -/
theorem computeHiDiagonal_symm (data : ArticulationData) (linkID rootDof : Nat)
    (mm : Nat → PxReal) (f : Nat → SpatialVectorF)
    (h : MatSymm (data.dofs + rootDof) mm)
    (hrange : (data.jointData linkID).jointOffset + (data.jointData linkID).nbDof ≤ data.dofs)
    (hform : ∀ i j, i < (data.jointData linkID).nbDof → j < (data.jointData linkID).nbDof →
      (data.mWorldMotionMatrix ((data.jointData linkID).jointOffset + j)).innerProduct (f i) =
      (data.mWorldMotionMatrix ((data.jointData linkID).jointOffset + i)).innerProduct (f j)) :
    MatSymm (data.dofs + rootDof) (computeHiDiagonal data linkID mm f rootDof) := by
  intro r c hr hc
  have hit : ∀ i j, i < (data.jointData linkID).nbDof → j < (data.jointData linkID).nbDof →
      computeHiDiagonal data linkID mm f rootDof
        (((data.jointData linkID).jointOffset + i + rootDof) * (data.dofs + rootDof) +
          ((data.jointData linkID).jointOffset + j + rootDof)) =
      (data.mWorldMotionMatrix ((data.jointData linkID).jointOffset + j)).innerProduct (f i) := by
    intro i j hi hj
    exact forUp2_hit (data.jointData linkID).nbDof (data.jointData linkID).nbDof
      (fun i j => ((data.jointData linkID).jointOffset + i + rootDof) * (data.dofs + rootDof) +
          ((data.jointData linkID).jointOffset + j + rootDof))
      (fun i j _ =>
        (data.mWorldMotionMatrix ((data.jointData linkID).jointOffset + j)).innerProduct (f i))
      mm i j hi hj
      (by
        intro i2 j2 hi2 hj2 e
        have := flat_index_inj (by omega) (by omega) e
        omega)
  have miss : ∀ x, (∀ i j, i < (data.jointData linkID).nbDof →
      j < (data.jointData linkID).nbDof →
      ((data.jointData linkID).jointOffset + i + rootDof) * (data.dofs + rootDof) +
          ((data.jointData linkID).jointOffset + j + rootDof) ≠ x) →
      computeHiDiagonal data linkID mm f rootDof x = mm x := by
    intro x hx
    exact forUp2_miss (data.jointData linkID).nbDof (data.jointData linkID).nbDof
      (fun i j => ((data.jointData linkID).jointOffset + i + rootDof) * (data.dofs + rootDof) +
          ((data.jointData linkID).jointOffset + j + rootDof))
      (fun i j _ =>
        (data.mWorldMotionMatrix ((data.jointData linkID).jointOffset + j)).innerProduct (f i))
      mm x hx
  by_cases hb : ∃ i j, i < (data.jointData linkID).nbDof ∧ j < (data.jointData linkID).nbDof ∧
      r = (data.jointData linkID).jointOffset + i + rootDof ∧
      c = (data.jointData linkID).jointOffset + j + rootDof
  · obtain ⟨i, j, hi, hj, e1, e2⟩ := hb
    subst e1
    subst e2
    rw [hit i j hi hj, hit j i hj hi]
    exact hform i j hi hj
  · rw [miss (r * (data.dofs + rootDof) + c), miss (c * (data.dofs + rootDof) + r)]
    · exact h r c hr hc
    · intro i j hi hj e
      have := flat_index_inj (by omega) hr e
      exact hb ⟨j, i, hj, hi, this.2.symm, this.1.symm⟩
    · intro i j hi hj e
      have := flat_index_inj (by omega) hc e
      exact hb ⟨i, j, hi, hj, this.1.symm, this.2.symm⟩

/-- The `Hij`, `Hji` writes keep the mass matrix symmetric. -/
theorem computeHiOffDiagonal_symm (data : ArticulationData) (linkID j rootDof : Nat)
    (mm : Nat → PxReal) (f : Nat → SpatialVectorF)
    (h : MatSymm (data.dofs + rootDof) mm)
    (hrange : (data.jointData linkID).jointOffset + (data.jointData linkID).nbDof ≤ data.dofs)
    (hrangej : (data.jointData j).jointOffset + (data.jointData j).nbDof ≤ data.dofs) :
    MatSymm (data.dofs + rootDof) (computeHiOffDiagonal data linkID j mm f rootDof) := by
  unfold computeHiOffDiagonal
  refine forUp_preserves_lt 0 _ _ (MatSymm (data.dofs + rootDof)) mm h ?_
  intro ind m1 _ hind h1
  refine forUp_preserves_lt 0 _ _ (MatSymm (data.dofs + rootDof)) m1 h1 ?_
  intro ind2 m2 _ hind2 h2
  exact h2.pair_add (by omega) (by omega) _

/-- The `while` loop of `computeHi` ends, with fuel of at least `j`, and keeps the mass
matrix symmetric. -/
theorem computeHiLoop_symm (data : ArticulationData) (linkID rootDof : Nat)
    (hp : ∀ i, i ≠ 0 → i < data.linkCount → (data.links i).parent < i)
    (hrange : ∀ i, 1 ≤ i → i < data.linkCount →
      (data.jointData i).jointOffset + (data.jointData i).nbDof ≤ data.dofs)
    (hl1 : 1 ≤ linkID) (hl2 : linkID < data.linkCount) :
    ∀ fuel j st, j ≤ fuel → 1 ≤ j → j < data.linkCount → MatSymm (data.dofs + rootDof) st.1 →
      ∃ r, computeHiLoop data linkID rootDof fuel j st = some r ∧
        MatSymm (data.dofs + rootDof) r.2.1 := by
  intro fuel
  induction fuel with
  | zero =>
    intro j st h1 h2
    omega
  | succ fuel ih =>
    intro j st h1 h2 h3 hs
    by_cases e : (data.links j).parent = 0
    · exact ⟨(j, st), by simp only [computeHiLoop, if_pos e], hs⟩
    · have hpar := hp j (by omega) h3
      obtain ⟨r, hr1, hr2⟩ := ih (data.links j).parent (computeHiStep data linkID rootDof j st)
        (by omega) (by omega) (by omega)
        (computeHiOffDiagonal_symm data linkID (data.links j).parent rootDof st.1 _ hs
          (hrange linkID hl1 hl2) (hrange _ (by omega) (by omega)))
      exact ⟨r, by simp only [computeHiLoop, if_neg e]; exact hr1, hr2⟩

/-- The columns written by `crbColumns`. -/
theorem crbColumns_apply (data : ArticulationData) (i : Nat) (I : SpatialMatrix)
    (f : Nat → SpatialVectorF) (ind : Nat) (h : ind < (data.jointData i).nbDof) :
    crbColumns data i I f ind =
      I.mulVec (data.mWorldMotionMatrix ((data.jointData i).jointOffset + ind)) := by
  have key := forUp_update_pointwise (data.jointData i).nbDof
    (fun ind (_ : SpatialVectorF) =>
      I.mulVec (data.mWorldMotionMatrix ((data.jointData i).jointOffset + ind))) f ind
  rw [if_pos h] at key
  exact key

/-- The function `computeHi` returns, with fuel of at least `linkID`, and keeps the mass
matrix symmetric when its columns are those of `crbColumns` for a symmetric inertia. -/
theorem computeHi_symm (data : ArticulationData) (fuel linkID rootDof : Nat)
    (mm : Nat → PxReal) (I : SpatialMatrix) (f : Nat → SpatialVectorF)
    (hp : ∀ i, i ≠ 0 → i < data.linkCount → (data.links i).parent < i)
    (hrange : ∀ i, 1 ≤ i → i < data.linkCount →
      (data.jointData i).jointOffset + (data.jointData i).nbDof ≤ data.dofs)
    (hl1 : 1 ≤ linkID) (hl2 : linkID < data.linkCount) (hf : linkID ≤ fuel)
    (hI : I.IsSymm) (h : MatSymm (data.dofs + rootDof) mm) :
    ∃ r, computeHi data fuel linkID mm (crbColumns data linkID I f) rootDof = some r ∧
      MatSymm (data.dofs + rootDof) r.2.1 := by
  unfold computeHi
  refine computeHiLoop_symm data linkID rootDof hp hrange hl1 hl2 fuel linkID _ hf hl1 hl2 ?_
  refine computeHiDiagonal_symm data linkID rootDof mm _ h (hrange linkID hl1 hl2) ?_
  intro i j hi hj
  rw [crbColumns_apply data linkID I f i hi, crbColumns_apply data linkID I f j hj]
  exact SpatialMatrix.innerProduct_mulVec_comm hI _ _

/-- The accumulation step keeps every composite inertia symmetric. -/
theorem crbAccumulate_symm (data : ArticulationData) (i : Nat) (csi : Nat → SpatialMatrix)
    (h : ∀ k, (csi k).IsSymm) : ∀ k, (crbAccumulate data i csi k).IsSymm := by
  intro k
  unfold crbAccumulate
  by_cases e : k = (data.links i).parent
  · subst e
    simp only [Function.update_same]
    exact SpatialMatrix.isSymm_addBlocks (h _) (SpatialMatrix.isSymm_translateInertia _ (h i))
  · simp only [Function.update_noteq e]
    exact h k

/-- Every composite inertia built by `initCompositeSpatialInertia` from zero-filled memory is
symmetric. -/
theorem initCompositeSpatialInertia_symm (data : ArticulationData) :
    ∀ k, (initCompositeSpatialInertia data
      (fun _ => ⟨PxMat33.zero, PxMat33.zero, PxMat33.zero⟩) k).IsSymm := by
  unfold initCompositeSpatialInertia
  refine forUp_preserves 0 data.linkCount _ (fun c : Nat → SpatialMatrix => ∀ k, (c k).IsSymm) _
    (fun _ => ⟨PxMat33.isSymm_zero, PxMat33.isSymm_zero⟩) ?_
  intro i c _ hc k
  by_cases e : k = i
  · subst e
    simp only [Function.update_same]
    exact SpatialMatrix.isSymm_linkSpatialInertia data k
  · simp only [Function.update_noteq e]
    exact hc k

/-- A zeroed `n × n` block is symmetric. -/
theorem MatSymm.memZero (n : Nat) (mm : Nat → PxReal) : MatSymm n (memZero 0 (n * n) mm) := by
  intro r c hr hc
  have h1 : r * n + c < n * n := by nlinarith
  have h2 : c * n + r < n * n := by nlinarith
  simp only [Dy.memZero, if_pos h1, if_pos h2]

/-- Writing one value to the entry `(r, c)` and to the flat index of `(c, r)`, however that
index is written, keeps a matrix symmetric. -/
theorem MatSymm.pair_eq {n : Nat} {mm : Nat → PxReal} (h : MatSymm n mm) {r c : Nat}
    (hr : r < n) (hc : c < n) (m : PxReal) (x : Nat) (e : x = c * n + r) :
    MatSymm n (Function.update (Function.update mm (r * n + c) m) x m) := by
  rw [e]
  exact h.pair hr hc m

/-- The body of the link loop of `calculateHFixBase` returns and keeps the mass matrix and
the composite inertias symmetric. -/
theorem calculateHFixBaseBody_symm (data : ArticulationData) (fuel i : Nat) (st : CrbState)
    (hp : ∀ i, i ≠ 0 → i < data.linkCount → (data.links i).parent < i)
    (hrange : ∀ i, 1 ≤ i → i < data.linkCount →
      (data.jointData i).jointOffset + (data.jointData i).nbDof ≤ data.dofs)
    (hi1 : 1 ≤ i) (hi2 : i < data.linkCount) (hf : i ≤ fuel)
    (h : MatSymm (data.dofs + 0) st.massMatrix)
    (hc : ∀ k, (st.compositeSpatialInertia k).IsSymm) :
    ∃ st2, calculateHFixBaseBody data fuel i (some st) = some st2 ∧
      MatSymm (data.dofs + 0) st2.massMatrix ∧ ∀ k, (st2.compositeSpatialInertia k).IsSymm := by
  have hacc := crbAccumulate_symm data i st.compositeSpatialInertia hc
  obtain ⟨r, hr1, hr2⟩ := computeHi_symm data fuel i 0 st.massMatrix
    (crbAccumulate data i st.compositeSpatialInertia i) st.F hp hrange hi1 hi2 hf (hacc i) h
  unfold calculateHFixBaseBody
  simp only [Option.some_bind, hr1, Option.map_some']
  exact ⟨_, rfl, hr2, hacc⟩

/-- The function `calculateHFixBase` returns a symmetric mass matrix. -/
theorem calculateHFixBase_symm (fuel : Nat) (w : DriverWorld)
    (hp : ∀ i, i ≠ 0 → i < w.data.linkCount → (w.data.links i).parent < i)
    (hrange : ∀ i, 1 ≤ i → i < w.data.linkCount →
      (w.data.jointData i).jointOffset + (w.data.jointData i).nbDof ≤ w.data.dofs)
    (hcount : 1 ≤ w.data.linkCount) (hfuel : w.data.linkCount ≤ fuel) :
    ∃ out, calculateHFixBase fuel w = some out ∧ MatSymm w.data.dofs out.cache.massMatrix := by
  have key := forDown_invariant (calculateHFixBaseBody w.data fuel)
    (fun _ acc => ∃ st, acc = some st ∧ MatSymm (w.data.dofs + 0) st.massMatrix ∧
      ∀ k, (st.compositeSpatialInertia k).IsSymm)
    (w.data.linkCount - 1)
    (some
      { compositeSpatialInertia := initCompositeSpatialInertia w.data
          (fun _ => ⟨PxMat33.zero, PxMat33.zero, PxMat33.zero⟩)
        F := fun _ => SpatialVectorF.Zero
        massMatrix := memZero (0 : PxReal) (w.data.dofs * w.data.dofs) w.cache.massMatrix })
    ⟨_, rfl, MatSymm.memZero w.data.dofs w.cache.massMatrix,
      initCompositeSpatialInertia_symm w.data⟩
    (by
      rintro i acc hi ⟨st, rfl, h1, h2⟩
      exact calculateHFixBaseBody_symm w.data fuel (i + 1) st hp hrange (by omega) (by omega)
        (by omega) h1 h2)
  obtain ⟨st, hst, h1, h2⟩ := key
  unfold calculateHFixBase
  simp only [u32Sub_one_of_pos _ hcount, hst, Option.map_some']
  exact ⟨_, rfl, h1⟩

/-- The writes into the root rows and columns keep the mass matrix symmetric. -/
theorem crbRootColumns_symm (data : ArticulationData) (i : Nat) (f : Nat → SpatialVectorF)
    (mm : Nat → PxReal) (h : MatSymm (data.dofs + 6) mm)
    (hrange : (data.jointData i).jointOffset + (data.jointData i).nbDof ≤ data.dofs) :
    MatSymm (data.dofs + 6) (crbRootColumns data i f 6 mm) := by
  unfold crbRootColumns
  refine forUp_preserves_lt 0 _ _ (MatSymm (data.dofs + 6)) mm h ?_
  intro ind m1 _ hind h1
  refine forUp_preserves_lt 0 _ _ (MatSymm (data.dofs + 6)) m1 h1 ?_
  intro row m2 _ hrow h2
  exact h2.pair_eq (by omega) (by omega) _ _ (Nat.add_comm _ _)

/-- The root block keeps the mass matrix symmetric. -/
theorem crbRootBlock_symm (fl : Nat → PxReal) (n : Nat) (mm : Nat → PxReal) (hn : 6 ≤ n)
    (h : MatSymm n mm) : MatSymm n (crbRootBlock fl n mm) := by
  unfold crbRootBlock
  refine forUp_preserves_lt 0 _ _ (MatSymm n) mm h ?_
  intro row m1 _ hrow h1
  refine forUp_preserves_lt row _ _ (MatSymm n) m1 h1 ?_
  intro col m2 _ hcol h2
  exact h2.pair (by omega) (by omega) _

/-- The correction `H - transpose(F) inv(Ib) F` keeps the mass matrix symmetric. -/
theorem crbRootCorrection_symm (invI0 : SpatialMatrix) (F : Nat → SpatialVectorF) (n : Nat)
    (mm : Nat → PxReal) (hI : invI0.IsSymm) (h : MatSymm n mm) :
    MatSymm n (crbRootCorrection invI0 F n mm) := by
  intro r c hr hc
  have hit : ∀ r c, r < n → c < n → crbRootCorrection invI0 F n mm (r * n + c) =
      mm (r * n + c) - (F r).innerProduct (invI0.mulVec (F c)) := by
    intro r c hr hc
    exact forUp2_hit n n (fun r c => r * n + c)
      (fun r c x => x - (F r).innerProduct (invI0.mulVec (F c))) mm r c hr hc
      (fun r2 c2 _ hc2 e => flat_index_inj hc2 hc e)
  rw [hit r c hr hc, hit c r hc hr, h r c hr hc,
    SpatialMatrix.innerProduct_mulVec_comm hI (F r) (F c)]

/-- The body of the link loop of `calculateHFloatingBase` returns and keeps the mass matrix
and the composite inertias symmetric. -/
theorem calculateHFloatingBaseBody_symm (data : ArticulationData) (fuel i : Nat)
    (rootMotion : Bool) (st : CrbState)
    (hp : ∀ i, i ≠ 0 → i < data.linkCount → (data.links i).parent < i)
    (hrange : ∀ i, 1 ≤ i → i < data.linkCount →
      (data.jointData i).jointOffset + (data.jointData i).nbDof ≤ data.dofs)
    (hi1 : 1 ≤ i) (hi2 : i < data.linkCount) (hf : i ≤ fuel)
    (h : MatSymm (data.dofs + (if rootMotion then 6 else 0)) st.massMatrix)
    (hc : ∀ k, (st.compositeSpatialInertia k).IsSymm) :
    ∃ st2, calculateHFloatingBaseBody data fuel rootMotion (if rootMotion then 6 else 0) i
        (some st) = some st2 ∧
      MatSymm (data.dofs + (if rootMotion then 6 else 0)) st2.massMatrix ∧
      ∀ k, (st2.compositeSpatialInertia k).IsSymm := by
  have hacc := crbAccumulate_symm data i st.compositeSpatialInertia hc
  obtain ⟨r, hr1, hr2⟩ := computeHi_symm data fuel i (if rootMotion then 6 else 0)
    st.massMatrix (crbAccumulate data i st.compositeSpatialInertia i)
    (offsetView st.F (data.jointData i).jointOffset) hp hrange hi1 hi2 hf (hacc i) h
  unfold calculateHFloatingBaseBody
  simp only [Option.some_bind, hr1, Option.map_some']
  refine ⟨_, rfl, ?_, hacc⟩
  cases rootMotion with
  | false => exact hr2
  | true => exact crbRootColumns_symm data i _ _ hr2 (hrange i hi1 hi2)

/-- The function `calculateHFloatingBase` returns a symmetric mass matrix. -/
theorem calculateHFloatingBase_symm (fuel : Nat) (w : DriverWorld) (rootMotion : Bool)
    (hp : ∀ i, i ≠ 0 → i < w.data.linkCount → (w.data.links i).parent < i)
    (hrange : ∀ i, 1 ≤ i → i < w.data.linkCount →
      (w.data.jointData i).jointOffset + (w.data.jointData i).nbDof ≤ w.data.dofs)
    (hcount : 1 ≤ w.data.linkCount) (hfuel : w.data.linkCount ≤ fuel) :
    ∃ out, calculateHFloatingBase fuel w rootMotion = some out ∧
      MatSymm (w.data.dofs + (if rootMotion then 6 else 0)) out.cache.massMatrix := by
  have key := forDown_invariant
    (calculateHFloatingBaseBody w.data fuel rootMotion (if rootMotion then 6 else 0))
    (fun _ acc => ∃ st, acc = some st ∧
      MatSymm (w.data.dofs + (if rootMotion then 6 else 0)) st.massMatrix ∧
      ∀ k, (st.compositeSpatialInertia k).IsSymm)
    (w.data.linkCount - 1)
    (some
      { compositeSpatialInertia := initCompositeSpatialInertia w.data
          (fun _ => ⟨PxMat33.zero, PxMat33.zero, PxMat33.zero⟩)
        F := fun _ => SpatialVectorF.Zero
        massMatrix := memZero (0 : PxReal)
          ((w.data.dofs + (if rootMotion then 6 else 0)) *
            (w.data.dofs + (if rootMotion then 6 else 0))) w.cache.massMatrix })
    ⟨_, rfl, MatSymm.memZero _ w.cache.massMatrix, initCompositeSpatialInertia_symm w.data⟩
    (by
      rintro i acc hi ⟨st, rfl, h1, h2⟩
      exact calculateHFloatingBaseBody_symm w.data fuel (i + 1) rootMotion st hp hrange
        (by omega) (by omega) (by omega) h1 h2)
  obtain ⟨st, hst, h1, h2⟩ := key
  unfold calculateHFloatingBase
  simp only [u32Sub_one_of_pos _ hcount, hst, Option.map_some']
  refine ⟨_, rfl, ?_⟩
  cases rootMotion with
  | false =>
    exact crbRootCorrection_symm _ _ _ _ (SpatialMatrix.isSymm_invertInertia _) h1
  | true =>
    exact crbRootBlock_symm _ _ _ (by simp) h1

/-- In exact arithmetic (the scalars of this development are rationals, the program computes
in `float32`): for every articulation with non-dirty data, at least one link, `parent[i] < i`
for every non-root link and every joint range inside the DOF range,
`getGeneralizedMassMatrixCRB` returns (fuel of at least `linkCount` suffices for the `while`
loops of `computeHi`) and the matrix `H` it writes is symmetric, `H[r][c] = H[c][r]` for all
`r, c` below the matrix size: `dofs` for a fixed base (`calculateHFixBase`) and for a floating
base without root motion, `dofs + 6` for a floating base with root motion
(`calculateHFloatingBase`).  The entries of a diagonal block (lines 1866-1875) and of the
root correction (lines 2086-2096) are computed by separate expressions for `(r, c)` and
`(c, r)`, equal as rationals; the rounding of the program is not modelled. -/
theorem getGeneralizedMassMatrixCRB_symm_exact (fuel : Nat) (w : DriverWorld)
    (rootMotion : Bool)
    (hd : w.data.dataDirty = false)
    (hp : ∀ i, i ≠ 0 → i < w.data.linkCount → (w.data.links i).parent < i)
    (hrange : ∀ i, 1 ≤ i → i < w.data.linkCount →
      (w.data.jointData i).jointOffset + (w.data.jointData i).nbDof ≤ w.data.dofs)
    (hcount : 1 ≤ w.data.linkCount) (hfuel : w.data.linkCount ≤ fuel) :
    ∃ out, getGeneralizedMassMatrixCRB fuel w rootMotion = some out ∧
      MatSymm (w.data.dofs + (if w.data.fixBase then 0 else if rootMotion then 6 else 0))
        out.cache.massMatrix := by
  unfold getGeneralizedMassMatrixCRB
  rw [hd]
  simp only [Bool.false_eq_true, if_false]
  by_cases hfix : w.data.fixBase = true
  · simp only [hfix, if_true]
    exact calculateHFixBase_symm fuel w hp hrange hcount hfuel
  · have hfix2 : w.data.fixBase = false := by simpa using hfix
    simp only [hfix2, Bool.false_eq_true, if_false]
    exact calculateHFloatingBase_symm fuel w rootMotion hp hrange hcount hfuel

/-- The floating three-link chain with root motion, in exact arithmetic. -/
theorem getGeneralizedMassMatrixCRB_symm_instance :
    ∃ out, getGeneralizedMassMatrixCRB 3 { data := floatingChainData } true = some out ∧
      MatSymm (floatingChainData.dofs + (if floatingChainData.fixBase then 0 else
        if true then 6 else 0)) out.cache.massMatrix :=
  getGeneralizedMassMatrixCRB_symm_exact 3 { data := floatingChainData } true rfl
    (by
      intro i hi1 hi2
      have hi3 : i < 3 := hi2
      show i - 1 < i
      omega)
    (by
      intro i hi1 hi2
      have hi3 : i < 3 := hi2
      interval_cases i <;> decide)
    (by decide) (by decide)

/-! ## C15, C18: inward accumulation over the children -/

theorem mem_childrenDescending (parent : Nat → Nat) (p n c : Nat) :
    c ∈ childrenDescending parent p n ↔ 1 ≤ c ∧ c ≤ n ∧ parent c = p := by
  induction n with
  | zero =>
    simp only [childrenDescending, List.not_mem_nil, false_iff]
    omega
  | succ n ih =>
    by_cases e : parent (n + 1) = p
    · simp only [childrenDescending, if_pos e, List.mem_cons, ih]
      constructor
      · rintro (h | h)
        · subst h
          exact ⟨by omega, le_refl _, e⟩
        · exact ⟨h.1, by omega, h.2.2⟩
      · rintro ⟨h1, h2, h3⟩
        by_cases e2 : c = n + 1
        · exact Or.inl e2
        · exact Or.inr ⟨h1, by omega, h3⟩
    · simp only [childrenDescending, if_neg e, ih]
      constructor
      · rintro ⟨h1, h2, h3⟩
        exact ⟨h1, by omega, h3⟩
      · rintro ⟨h1, h2, h3⟩
        by_cases e2 : c = n + 1
        · subst e2
          exact absurd h3 e
        · exact ⟨h1, by omega, h3⟩

theorem childrenDescending_filter_nil (parent : Nat → Nat) (p n s : Nat) (h : n ≤ s) :
    (childrenDescending parent p n).filter (fun c => decide (s < c)) = [] := by
  rw [List.filter_eq_nil_iff]
  intro c hc
  have := (mem_childrenDescending parent p n c).mp hc
  simp only [decide_eq_true_eq]
  omega

theorem childrenDescending_filter_all (parent : Nat → Nat) (p n : Nat) :
    (childrenDescending parent p n).filter (fun c => decide (0 < c)) =
      childrenDescending parent p n := by
  rw [List.filter_eq_self]
  intro c hc
  have := (mem_childrenDescending parent p n c).mp hc
  simp only [decide_eq_true_eq]
  omega

/-- The children above `i` are the children above `i + 1`, then `i + 1` if it is a child. -/
theorem childrenDescending_filter_step (parent : Nat → Nat) (p : Nat) :
    ∀ n i, i < n →
      (childrenDescending parent p n).filter (fun c => decide (i < c)) =
        (childrenDescending parent p n).filter (fun c => decide (i + 1 < c)) ++
          (if parent (i + 1) = p then [i + 1] else []) := by
  intro n
  induction n with
  | zero => intro i hi; omega
  | succ n ih =>
    intro i hi
    by_cases e : i = n
    · subst e
      by_cases hpar : parent (i + 1) = p
      · simp only [childrenDescending, if_pos hpar, List.filter_cons,
          childrenDescending_filter_nil parent p i i (le_refl _),
          childrenDescending_filter_nil parent p i (i + 1) (by omega)]
        simp
      · simp only [childrenDescending, if_neg hpar,
          childrenDescending_filter_nil parent p i i (le_refl _),
          childrenDescending_filter_nil parent p i (i + 1) (by omega)]
        simp
    · have hlt : i < n := by omega
      have h1 : decide (i < n + 1) = true := by simp; omega
      have h2 : decide (i + 1 < n + 1) = true := by simp; omega
      by_cases hpar : parent (n + 1) = p
      · simp only [childrenDescending, if_pos hpar, List.filter_cons, h1, h2, if_true,
          ih i hlt, List.cons_append]
      · simp only [childrenDescending, if_neg hpar, ih i hlt]

theorem foldl_children_congr {α : Type} (g : Nat → α → α → α) (F G : Nat → α) :
    ∀ (l : List Nat) (a : α), (∀ c, c ∈ l → F c = G c) →
      l.foldl (fun acc c => g c acc (F c)) a = l.foldl (fun acc c => g c acc (G c)) a := by
  intro l
  induction l with
  | nil => intro a _; rfl
  | cons x xs ih =>
    intro a h
    simp only [List.foldl_cons]
    rw [h x (List.mem_cons_self _ _)]
    exact ih _ (fun c hc => h c (List.mem_cons_of_mem _ hc))

/-- An inward loop `for (i = n; i > 0; --i) buf[parent[i]] = g(i, buf[parent[i]], buf[i])`
over a tree with `parent[i] < i`: every entry ends as its initial value combined, child after
child (highest index first), with the final entries of its children. -/
theorem forDown_children_fold {α : Type} (parent : Nat → Nat) (g : Nat → α → α → α) (n : Nat)
    (hp : ∀ i, 1 ≤ i → i ≤ n → parent i < i) (buf0 : Nat → α) (p : Nat) :
    forDown (fun i (buf : Nat → α) =>
        Function.update buf (parent i) (g i (buf (parent i)) (buf i))) n buf0 p =
      (childrenDescending parent p n).foldl
        (fun acc c => g c acc (forDown (fun i (buf : Nat → α) =>
          Function.update buf (parent i) (g i (buf (parent i)) (buf i))) n buf0 c))
        (buf0 p) := by
  have key := forDown_invariant
    (fun i (buf : Nat → α) => Function.update buf (parent i) (g i (buf (parent i)) (buf i)))
    (fun s buf => ∀ p, buf p =
      ((childrenDescending parent p n).filter (fun c => decide (s < c))).foldl
        (fun acc c => g c acc (buf c)) (buf0 p))
    n buf0
    (by
      intro p
      rw [childrenDescending_filter_nil parent p n n (le_refl _)]
      rfl)
    (by
      intro i buf hi hbuf p
      have hpar := hp (i + 1) (by omega) (by omega)
      rw [childrenDescending_filter_step parent p n i hi, List.foldl_append]
      have hcongr : ((childrenDescending parent p n).filter (fun c => decide (i + 1 < c))).foldl
          (fun acc c => g c acc
            (Function.update buf (parent (i + 1))
              (g (i + 1) (buf (parent (i + 1))) (buf (i + 1))) c)) (buf0 p) = buf p := by
        rw [hbuf p]
        refine foldl_children_congr g _ _ _ _ ?_
        intro c hc
        have hc2 := (List.mem_filter.mp hc).2
        simp only [decide_eq_true_eq] at hc2
        rw [Function.update_noteq (by omega)]
      rw [hcongr]
      by_cases e : parent (i + 1) = p
      · subst e
        simp only [if_true, List.foldl_cons, List.foldl_nil, Function.update_same]
        rw [Function.update_noteq (by omega)]
      · simp only [if_neg e, List.foldl_nil]
        rw [Function.update_noteq (fun h => e h.symm)])
  have key2 := key p
  rw [childrenDescending_filter_all] at key2
  exact key2

/-- A projection that commutes with the body commutes with `forDown`. -/
theorem forDown_project {σ τ : Type} (proj : σ → τ) (body : Nat → σ → σ) (body2 : Nat → τ → τ)
    (h : ∀ i s, proj (body i s) = body2 i (proj s)) :
    ∀ n s, proj (forDown body n s) = forDown body2 n (proj s) := by
  intro n
  induction n with
  | zero => intro s; rfl
  | succ n ih =>
    intro s
    simp only [forDown]
    rw [ih, h]

/-- The inertia that `initCompositeSpatialInertia` stores for a link. -/
theorem initCompositeSpatialInertia_apply (data : ArticulationData)
    (c : Nat → SpatialMatrix) (p : Nat) (hp : p < data.linkCount) :
    initCompositeSpatialInertia data c p = linkSpatialInertia data p := by
  have key := forUp_update_pointwise data.linkCount
    (fun linkID (_ : SpatialMatrix) => linkSpatialInertia data linkID) c p
  rw [if_pos hp] at key
  exact key

/-- C18: for every tree with `linkCount >= 1` and `parent[i] < i`, after
`computeCompositeSpatialInertiaAndZAForceInv` the composite inertia of every link `p` is
`p`'s own rigid-body spatial inertia (as built by `initCompositeSpatialInertia`) plus, child
after child, the final composite inertia of each child `c` of `p` translated by
`skew(Rw[c])`. -/
theorem C18_composite_inertia_of_children (data : ArticulationData) (sd : ScratchData)
    (hcount : 1 ≤ data.linkCount)
    (hparent : ∀ i, 1 ≤ i → i < data.linkCount → (data.links i).parent < i)
    (p : Nat) (hp : p < data.linkCount) :
    (computeCompositeSpatialInertiaAndZAForceInv data sd).compositeSpatialInertias p =
      (childrenDescending (fun i => (data.links i).parent) p (data.linkCount - 1)).foldl
        (fun acc c => acc.add
          (translateInertia (constructSkewSymmetricMatrix (data.rw c))
            ((computeCompositeSpatialInertiaAndZAForceInv data sd).compositeSpatialInertias c)))
        (linkSpatialInertia data p) := by
  have hproj := forDown_project (fun s : ScratchData => s.compositeSpatialInertias)
    (computeCompositeBody data)
    (fun i (buf : Nat → SpatialMatrix) =>
      Function.update buf (data.links i).parent
        ((buf (data.links i).parent).add
          (translateInertia (constructSkewSymmetricMatrix (data.rw i)) (buf i))))
    (fun _ _ => rfl) (data.linkCount - 1)
    { sd with
      compositeSpatialInertias := initCompositeSpatialInertia data sd.compositeSpatialInertias }
  have hres : (computeCompositeSpatialInertiaAndZAForceInv data sd).compositeSpatialInertias =
      forDown (fun i (buf : Nat → SpatialMatrix) =>
        Function.update buf (data.links i).parent
          ((buf (data.links i).parent).add
            (translateInertia (constructSkewSymmetricMatrix (data.rw i)) (buf i))))
        (data.linkCount - 1)
        (initCompositeSpatialInertia data sd.compositeSpatialInertias) := by
    unfold computeCompositeSpatialInertiaAndZAForceInv
    rw [u32Sub_one_of_pos _ hcount]
    exact hproj
  rw [hres]
  have key := forDown_children_fold (fun i => (data.links i).parent)
    (fun c (acc child : SpatialMatrix) =>
      acc.add (translateInertia (constructSkewSymmetricMatrix (data.rw c)) child))
    (data.linkCount - 1) (fun i h1 h2 => hparent i h1 (by omega))
    (initCompositeSpatialInertia data sd.compositeSpatialInertias) p
  rw [initCompositeSpatialInertia_apply data _ p hp] at key
  exact key

/-- C18 on the three-link chain, for link 1. -/
theorem C18_composite_inertia_of_children_witness :
    (computeCompositeSpatialInertiaAndZAForceInv chainData {}).compositeSpatialInertias 1 =
      (childrenDescending (fun i => (chainData.links i).parent) 1
          (chainData.linkCount - 1)).foldl
        (fun acc c => acc.add
          (translateInertia (constructSkewSymmetricMatrix (chainData.rw c))
            ((computeCompositeSpatialInertiaAndZAForceInv chainData {}).compositeSpatialInertias
              c)))
        (linkSpatialInertia chainData 1) :=
  C18_composite_inertia_of_children chainData {} (by decide)
    (fun i h1 h2 => chainData_parent_lt i h1 h2) 1 (by decide)

/-- What `computeGeneralizedForceInv` leaves: the bias force of every link is its input
plus, child after child, the final bias force of each child translated up; each joint force
of a non-root link is the projection of that link's final bias force (for pairwise disjoint
DOF ranges); the entries outside the joint ranges keep their input. -/
theorem computeGeneralizedForceInv_subtree (data : ArticulationData) (sd : ScratchData)
    (hcount : 1 ≤ data.linkCount)
    (hparent : ∀ i, 1 ≤ i → i < data.linkCount → (data.links i).parent < i)
    (hdisj : ∀ i j, 1 ≤ i → i < data.linkCount → 1 ≤ j → j < data.linkCount → i ≠ j →
      (data.jointData i).jointOffset + (data.jointData i).nbDof ≤ (data.jointData j).jointOffset ∨
      (data.jointData j).jointOffset + (data.jointData j).nbDof ≤ (data.jointData i).jointOffset) :
    (∀ p, (computeGeneralizedForceInv data sd).spatialZAVectors p =
      (childrenDescending (fun i => (data.links i).parent) p (data.linkCount - 1)).foldl
        (fun acc c => acc.add
          (translateSpatialVector (data.rw c)
            ((computeGeneralizedForceInv data sd).spatialZAVectors c)))
        (sd.spatialZAVectors p)) ∧
    (∀ i k, 1 ≤ i → i < data.linkCount → k < (data.jointData i).nbDof →
      (computeGeneralizedForceInv data sd).jointForces ((data.jointData i).jointOffset + k) =
        (data.mWorldMotionMatrix ((data.jointData i).jointOffset + k)).innerProduct
          ((computeGeneralizedForceInv data sd).spatialZAVectors i)) ∧
    (∀ idx, (∀ i, 1 ≤ i → i < data.linkCount →
        ¬((data.jointData i).jointOffset ≤ idx ∧
          idx < (data.jointData i).jointOffset + (data.jointData i).nbDof)) →
      (computeGeneralizedForceInv data sd).jointForces idx = sd.jointForces idx) := by
  have hn : u32Sub data.linkCount 1 = data.linkCount - 1 := u32Sub_one_of_pos _ hcount
  refine ⟨?_, ?_⟩
  · intro p
    have hproj := forDown_project (fun s : ScratchData => s.spatialZAVectors)
      (computeGeneralizedForceInvBody data)
      (fun i (buf : Nat → SpatialVectorF) =>
        Function.update buf (data.links i).parent
          ((buf (data.links i).parent).add (translateSpatialVector (data.rw i) (buf i))))
      (fun _ _ => rfl) (data.linkCount - 1) sd
    have hres : (computeGeneralizedForceInv data sd).spatialZAVectors =
        forDown (fun i (buf : Nat → SpatialVectorF) =>
          Function.update buf (data.links i).parent
            ((buf (data.links i).parent).add (translateSpatialVector (data.rw i) (buf i))))
          (data.linkCount - 1) sd.spatialZAVectors := by
      unfold computeGeneralizedForceInv
      rw [hn]
      exact hproj
    rw [hres]
    exact forDown_children_fold (fun i => (data.links i).parent)
      (fun c (acc child : SpatialVectorF) => acc.add (translateSpatialVector (data.rw c) child))
      (data.linkCount - 1) (fun i h1 h2 => hparent i h1 (by omega)) sd.spatialZAVectors p
  · have key := forDown_invariant (computeGeneralizedForceInvBody data)
      (fun s st =>
        (∀ j k, s < j → j < data.linkCount → k < (data.jointData j).nbDof →
          st.jointForces ((data.jointData j).jointOffset + k) =
            (data.mWorldMotionMatrix ((data.jointData j).jointOffset + k)).innerProduct
              (st.spatialZAVectors j)) ∧
        (∀ idx, (∀ i, 1 ≤ i → i < data.linkCount →
            ¬((data.jointData i).jointOffset ≤ idx ∧
              idx < (data.jointData i).jointOffset + (data.jointData i).nbDof)) →
          st.jointForces idx = sd.jointForces idx))
      (data.linkCount - 1) sd
      ⟨fun j k h1 h2 _ => by omega, fun _ _ => rfl⟩
      (by
        rintro i st hi ⟨h1, h2⟩
        have hpar := hparent (i + 1) (by omega) (by omega)
        have hZ : ∀ j, i < j → (computeGeneralizedForceInvBody data (i + 1) st).spatialZAVectors j
            = st.spatialZAVectors j := by
          intro j hj
          show Function.update st.spatialZAVectors (data.links (i + 1)).parent _ j = _
          rw [Function.update_noteq (by omega)]
        have hJ : ∀ idx, (computeGeneralizedForceInvBody data (i + 1) st).jointForces idx =
            if (data.jointData (i + 1)).jointOffset ≤ idx ∧
                idx < (data.jointData (i + 1)).jointOffset + (data.jointData (i + 1)).nbDof
            then (data.mWorldMotionMatrix idx).innerProduct (st.spatialZAVectors (i + 1))
            else st.jointForces idx := by
          intro idx
          have e := hZ (i + 1) (by omega)
          show projectJointForces data _ _
            ((computeGeneralizedForceInvBody data (i + 1) st).spatialZAVectors (i + 1)) _ idx = _
          rw [projectJointForces_apply, e]
        refine ⟨?_, ?_⟩
        · intro j k hj1 hj2 hk
          rw [hJ, hZ j hj1]
          by_cases e : j = i + 1
          · subst e
            rw [if_pos ⟨by omega, by omega⟩]
          · have hd := hdisj j (i + 1) (by omega) hj2 (by omega) (by omega) e
            rw [if_neg (by omega)]
            exact h1 j k (by omega) hj2 hk
        · intro idx hidx
          rw [hJ, if_neg (hidx (i + 1) (by omega) (by omega))]
          exact h2 idx hidx)
    unfold computeGeneralizedForceInv
    rw [hn]
    exact ⟨fun i k h1 h2 h3 => key.1 i k (by omega) h2 h3, key.2⟩

/-- C15: for every tree with `linkCount >= 1` and `parent[i] < i` whose joints occupy
pairwise disjoint DOF ranges, after `computeGeneralizedForceInv` the bias force of every link
`p` is `Zsub(p) = Zin(p) +` (child after child) `translateSpatialVector(Rw[c], Zsub(c))` over
the children `c` of `p`; each joint force of link `i >= 1` and DOF `k` is the inner product
of world motion-matrix column `jointOffset_i + k` with `Zsub(i)`; and no entry outside the
joint ranges of the non-root links is written (none for the root). -/
theorem C15_joint_force_of_subtree (data : ArticulationData) (sd : ScratchData)
    (hcount : 1 ≤ data.linkCount)
    (hparent : ∀ i, 1 ≤ i → i < data.linkCount → (data.links i).parent < i)
    (hdisj : ∀ i j, 1 ≤ i → i < data.linkCount → 1 ≤ j → j < data.linkCount → i ≠ j →
      (data.jointData i).jointOffset + (data.jointData i).nbDof ≤ (data.jointData j).jointOffset ∨
      (data.jointData j).jointOffset + (data.jointData j).nbDof ≤ (data.jointData i).jointOffset) :
    (∀ p, (computeGeneralizedForceInv data sd).spatialZAVectors p =
      (childrenDescending (fun i => (data.links i).parent) p (data.linkCount - 1)).foldl
        (fun acc c => acc.add
          (translateSpatialVector (data.rw c)
            ((computeGeneralizedForceInv data sd).spatialZAVectors c)))
        (sd.spatialZAVectors p)) ∧
    (∀ i k, 1 ≤ i → i < data.linkCount → k < (data.jointData i).nbDof →
      (computeGeneralizedForceInv data sd).jointForces ((data.jointData i).jointOffset + k) =
        (data.mWorldMotionMatrix ((data.jointData i).jointOffset + k)).innerProduct
          ((computeGeneralizedForceInv data sd).spatialZAVectors i)) ∧
    (∀ idx, (∀ i, 1 ≤ i → i < data.linkCount →
        ¬((data.jointData i).jointOffset ≤ idx ∧
          idx < (data.jointData i).jointOffset + (data.jointData i).nbDof)) →
      (computeGeneralizedForceInv data sd).jointForces idx = sd.jointForces idx) :=
  computeGeneralizedForceInv_subtree data sd hcount hparent hdisj

/-- C15 on the three-link chain with non-zero bias forces. -/
theorem C15_joint_force_of_subtree_witness :
    (∀ p, (computeGeneralizedForceInv chainData busyScratch).spatialZAVectors p =
      (childrenDescending (fun i => (chainData.links i).parent) p
          (chainData.linkCount - 1)).foldl
        (fun acc c => acc.add
          (translateSpatialVector (chainData.rw c)
            ((computeGeneralizedForceInv chainData busyScratch).spatialZAVectors c)))
        (busyScratch.spatialZAVectors p)) ∧
    (∀ i k, 1 ≤ i → i < chainData.linkCount → k < (chainData.jointData i).nbDof →
      (computeGeneralizedForceInv chainData busyScratch).jointForces
          ((chainData.jointData i).jointOffset + k) =
        (chainData.mWorldMotionMatrix ((chainData.jointData i).jointOffset + k)).innerProduct
          ((computeGeneralizedForceInv chainData busyScratch).spatialZAVectors i)) ∧
    (∀ idx, (∀ i, 1 ≤ i → i < chainData.linkCount →
        ¬((chainData.jointData i).jointOffset ≤ idx ∧
          idx < (chainData.jointData i).jointOffset + (chainData.jointData i).nbDof)) →
      (computeGeneralizedForceInv chainData busyScratch).jointForces idx =
        busyScratch.jointForces idx) :=
  C15_joint_force_of_subtree chainData busyScratch (by decide)
    (fun i h1 h2 => chainData_parent_lt i h1 h2)
    (by
      intro i j hi1 hi2 hj1 hj2 hne
      have hi3 : i < 3 := hi2
      have hj3 : j < 3 := hj2
      interval_cases i <;> interval_cases j <;> first | exact absurd rfl hne | decide)

end Dy
